import Mathlib

/-!
# server/settlers.c : amortization and the tile-improvement simulators

A shallow embedding of the numeric core of `server/settlers.c` (freeciv) and of the
"what-if" tile simulators, with the properties of the specification stated over it.

Conventions of the embedding.

* A C `int` is an `Int`; where the code's arithmetic can leave the 32-bit range the
  result is reduced by `wrap32` (two's complement), `>>` is the arithmetic shift
  `Int.shiftRight` and `/` is the truncating `Int.tdiv`.
* A `while` loop whose counter visibly decreases is a structural recursion on that
  counter; the outer loop of `amortize`, which need not make progress, is driven by an
  explicit iteration budget and answers `none` when the budget is exhausted.
* Goodness values of tiles are small numbers; the simulators compute with them in `Int`.
-/

namespace Settlers

/-! ## amortize -/

/-- Reduction of an integer to the range of a 32-bit two's complement `int`. -/
def wrap32 (x : Int) : Int := (x + 2147483648) % 4294967296 - 2147483648

/-- Modelled from the spec: `MORT` is a macro of `common/city.h`, which is not part of
the sources at hand.  The decay ratio is `(M-1)/M`; the comment of `amortize` fixes
`(23/24)^12` as the ratio of a batch and says the batch is right "as long as MORT
remains 24". -/
def MORT : Int := 24

/-- First inner loop of `amortize` (settlers.c:113-117):
`while (delay >= 12 && (benefit >> 28) == 0 && (denom >> 27) == 0)
   { benefit *= 3; denom *= 5; delay -= 12; }`.
The state is `(benefit, denom, delay)`. -/
def amortize_batch_loop : Int → Int → Nat → Int × Int × Nat
  | benefit, denom, delay + 12 =>
    if benefit >>> (28 : Nat) = 0 ∧ denom >>> (27 : Nat) = 0 then
      amortize_batch_loop (wrap32 (benefit * 3)) (wrap32 (denom * 5)) delay
    else (benefit, denom, delay + 12)
  | benefit, denom, delay => (benefit, denom, delay)

/-- Second inner loop of `amortize` (settlers.c:118-122):
`while ((benefit >> 25) == 0 && delay > 0 && (denom >> 25) == 0)
   { benefit *= num; denom *= MORT; delay--; }` with `num = MORT - 1`. -/
def amortize_step_loop : Int → Int → Nat → Int × Int × Nat
  | benefit, denom, delay + 1 =>
    if benefit >>> (25 : Nat) = 0 ∧ denom >>> (25 : Nat) = 0 then
      amortize_step_loop (wrap32 (benefit * (MORT - 1))) (wrap32 (denom * MORT)) delay
    else (benefit, denom, delay + 1)
  | benefit, denom, 0 => (benefit, denom, 0)

/-- One pass through the body of the outer loop (settlers.c:112-125): `denom = 1`, the
two inner loops, then the rounding division when `denom > 1`.  Maps `(benefit, delay)`
at the top of the body to `(benefit, delay)` at its end. -/
def amortize_body (benefit : Int) (delay : Nat) : Int × Nat :=
  let s1 := amortize_batch_loop benefit 1 delay
  let s2 := amortize_step_loop s1.1 s1.2.1 s1.2.2
  let denom := s2.2.1
  if denom > 1 then
    (wrap32 (Int.tdiv (wrap32 (s2.1 + Int.tdiv denom 2)) denom), s2.2.2)
  else (s2.1, s2.2.2)

/-- The outer loop `while (delay > 0 && benefit != 0) { ... }` (settlers.c:111-126),
run for at most `fuel` tests of its condition.  `some benefit` is the value of
`benefit` when the loop is left, `none` says the budget ran out first. -/
def amortize_loop : Nat → Int → Nat → Option Int
  | 0, _, _ => none
  | fuel + 1, benefit, delay =>
    if delay > 0 ∧ benefit ≠ 0 then
      amortize_loop fuel (amortize_body benefit delay).1 (amortize_body benefit delay).2
    else some benefit

/-- The function `amortize(benefit, delay)` (settlers.c:104-128).  `delay` is a natural
number because of `assert(delay >= 0)`.  A pass of the outer loop either lowers `delay`
or changes nothing at all (`amortize_body_progress` below), so `delay + 1` tests of the
condition decide the call: `some v` is the returned value, `none` says the loop never
ends (`amortize_loop_fuel`). -/
def amortize (benefit : Int) (delay : Nat) : Option Int :=
  let s : Int := if benefit < 0 then -1 else 1
  let benefit1 : Int := if benefit < 0 then wrap32 (benefit * s) else benefit
  (amortize_loop (delay + 1) benefit1 delay).map (fun r => wrap32 (r * s))

/-! ### The same computation over unbounded integers

The second reading of `amortize`, for the comparison of the 32-bit run with the run over
the integers: the same loops with no reduction to 32 bits, which also list every value
they assign to `benefit` and `denom` and every sum `benefit + denom/2`. -/

/-- First inner loop over unbounded integers; the list holds the values assigned. -/
def amortize_exact_batch_loop : Int → Int → Nat → (Int × Int × Nat) × List Int
  | benefit, denom, delay + 12 =>
    if benefit >>> (28 : Nat) = 0 ∧ denom >>> (27 : Nat) = 0 then
      let r := amortize_exact_batch_loop (benefit * 3) (denom * 5) delay
      (r.1, benefit * 3 :: denom * 5 :: r.2)
    else ((benefit, denom, delay + 12), [])
  | benefit, denom, delay => ((benefit, denom, delay), [])

/-- Second inner loop over unbounded integers; the list holds the values assigned. -/
def amortize_exact_step_loop : Int → Int → Nat → (Int × Int × Nat) × List Int
  | benefit, denom, delay + 1 =>
    if benefit >>> (25 : Nat) = 0 ∧ denom >>> (25 : Nat) = 0 then
      let r := amortize_exact_step_loop (benefit * (MORT - 1)) (denom * MORT) delay
      (r.1, benefit * (MORT - 1) :: denom * MORT :: r.2)
    else ((benefit, denom, delay + 1), [])
  | benefit, denom, 0 => ((benefit, denom, 0), [])

/-- Body of the outer loop over unbounded integers, with the values it computes. -/
def amortize_exact_body (benefit : Int) (delay : Nat) : (Int × Nat) × List Int :=
  let r1 := amortize_exact_batch_loop benefit 1 delay
  let r2 := amortize_exact_step_loop r1.1.1 r1.1.2.1 r1.1.2.2
  let denom := r2.1.2.1
  if denom > 1 then
    ((Int.tdiv (r2.1.1 + Int.tdiv denom 2) denom, r2.1.2.2),
      1 :: r1.2 ++ r2.2 ++
        [r2.1.1 + Int.tdiv denom 2, Int.tdiv (r2.1.1 + Int.tdiv denom 2) denom])
  else ((r2.1.1, r2.1.2.2), 1 :: r1.2 ++ r2.2)

/-- Outer loop over unbounded integers, with the values computed on the way. -/
def amortize_exact_loop : Nat → Int → Nat → Option (Int × List Int)
  | 0, _, _ => none
  | fuel + 1, benefit, delay =>
    if delay > 0 ∧ benefit ≠ 0 then
      let r := amortize_exact_body benefit delay
      (amortize_exact_loop fuel r.1.1 r.1.2).map (fun q => (q.1, r.2 ++ q.2))
    else some (benefit, [])

/-- The function `amortize` over unbounded integers: the returned value and the list of
all the values of `benefit`, `denom` and `benefit + denom/2` met on the way (the
returned product `benefit * s` included). -/
def amortize_exact (benefit : Int) (delay : Nat) : Option (Int × List Int) :=
  let s : Int := if benefit < 0 then -1 else 1
  let benefit1 : Int := if benefit < 0 then benefit * s else benefit
  (amortize_exact_loop (delay + 1) benefit1 delay).map
    (fun q => (q.1 * s, benefit1 :: q.2 ++ [q.1 * s]))

/-! ## Tiles, the map and what the other modules provide -/

/-- The C type `Terrain_type_id` (an integer index of a terrain kind). -/
abbrev Terrain_type_id := Int

/-- The fields of `struct tile_type` that settlers.c reads for the simulators. -/
structure tile_type where
  irrigation_result : Terrain_type_id
  mining_result : Terrain_type_id
  transform_result : Terrain_type_id

/-- The fields of `struct tile` that the simulators read or write: `terrain`, the
bitmask `special` of feature flags, and `city` (the city standing on the tile, the C
pointer being `NULL` when there is none). -/
structure tile where
  terrain : Terrain_type_id
  special : Nat
  city : Option Nat

/-- The map: the tile at every map position. -/
structure civ_map where
  tiles : Int → Int → tile

/-- The fields of `struct player` read by settlers.c (`ai.control`, `economic.tax`,
`economic.luxury`, `economic.science`, `player_no`, `ai.warmth`). -/
structure player where
  ai_control : Bool
  tax : Int
  luxury : Int
  science : Int
  /-- The field `player_no`, the index of the player in the bit vectors. -/
  player_no : Nat
  /-- The field `ai.warmth`. -/
  warmth : Int

/-- The fields of `struct city` read by the valuation (`size`, `ai.trade_want`), the
owner of the city (`city_owner(pcity)`) and its position.  The seven cached grids of
`pcity->ai` are kept apart, in `ai_cache`. -/
structure city where
  size : Int
  trade_want : Int
  owner : player
  /-- The map position `x` of the city. -/
  x : Int
  /-- The map position `y` of the city. -/
  y : Int

/-- Terrain flags tested by settlers.c. -/
inductive terrain_flag_id where
  | TER_NO_CITIES
  deriving DecidableEq

/-- Technology flags tested by settlers.c. -/
inductive tech_flag_id where
  | TF_BRIDGE
  | TF_RAILROAD
  | TF_FARMLAND
  deriving DecidableEq

/-- What settlers.c takes from headers and modules that are not at hand; each item is
a parameter of the embedding.  Functions that read the map take it as an argument. -/
structure Env where
  /-- The sentinel terrain "no result". -/
  T_LAST : Terrain_type_id
  /-- Ruleset table `get_tile_type(terrain)`. -/
  get_tile_type : Terrain_type_id → tile_type
  /-- Macro `is_ocean(terrain)`. -/
  is_ocean : Terrain_type_id → Bool
  /-- Function `terrain_has_flag(terrain, flag)`. -/
  terrain_has_flag : Terrain_type_id → terrain_flag_id → Bool
  /-- Function `player_knows_techs_with_flag(pplayer, flag)`. -/
  player_knows_techs_with_flag : player → tech_flag_id → Bool
  /-- Function `map_is_known(x, y, pplayer)`. -/
  map_is_known : Int → Int → player → Bool
  /-- The positions visited by `cardinal_adjc_iterate(x, y, x1, y1)`, in order. -/
  cardinal_adjc : Int → Int → List (Int × Int)
  /-- Function `can_reclaim_ocean(x, y)`. -/
  can_reclaim_ocean : civ_map → Int → Int → Bool
  /-- Function `can_channel_land(x, y)`. -/
  can_channel_land : civ_map → Int → Int → Bool
  /-- Function `city_get_food_tile(x, y, pcity)`; `x, y` are city-relative. -/
  city_get_food_tile : civ_map → Int → Int → city → Int
  /-- Function `city_get_shields_tile(x, y, pcity)`. -/
  city_get_shields_tile : civ_map → Int → Int → city → Int
  /-- Function `city_get_trade_tile(x, y, pcity)`. -/
  city_get_trade_tile : civ_map → Int → Int → city → Int
  /-- Function `city_shield_bonus(pcity)`. -/
  city_shield_bonus : city → Int
  /-- Function `city_tax_bonus(pcity)`. -/
  city_tax_bonus : city → Int
  /-- Function `city_luxury_bonus(pcity)`. -/
  city_luxury_bonus : city → Int
  /-- Function `city_science_bonus(pcity)`. -/
  city_science_bonus : city → Int
  /-- Macro `FOOD_WEIGHTING`. -/
  FOOD_WEIGHTING : Int
  /-- Macro `SHIELD_WEIGHTING`. -/
  SHIELD_WEIGHTING : Int
  /-- Function `city_granary_size(size)`. -/
  city_granary_size : Int → Int
  /-- Setting `game.foodbox`. -/
  foodbox : Int

/-! ### Feature flags

Modelled from the spec: `enum tile_special_type` is declared in `common/terrain.h`,
which is not at hand.  The spec describes the feature state of a tile as a set of
boolean flags (mine, irrigation, farmland, road, railroad, river, pollution, fallout),
and settlers.c combines them with `|`, `&` and `~`: each flag is one bit of the
bitmask `special`, the flags being distinct bits. -/

/-- Modelled from the spec: the road flag of `enum tile_special_type`, one bit. -/
def S_ROAD : Nat := 2
/-- Modelled from the spec: the irrigation flag of `enum tile_special_type`, one bit. -/
def S_IRRIGATION : Nat := 4
/-- Modelled from the spec: the railroad flag of `enum tile_special_type`, one bit. -/
def S_RAILROAD : Nat := 8
/-- Modelled from the spec: the mine flag of `enum tile_special_type`, one bit. -/
def S_MINE : Nat := 16
/-- Modelled from the spec: the pollution flag of `enum tile_special_type`, one bit. -/
def S_POLLUTION : Nat := 32
/-- Modelled from the spec: the river flag of `enum tile_special_type`, one bit. -/
def S_RIVER : Nat := 512
/-- Modelled from the spec: the farmland flag of `enum tile_special_type`, one bit. -/
def S_FARMLAND : Nat := 1024
/-- Modelled from the spec: the fallout flag of `enum tile_special_type`, one bit. -/
def S_FALLOUT : Nat := 4096

/-- The C expression `a & ~b` on bitmasks held as natural numbers: the bits of `a` that
are not bits of `b` (`and_not_testBit` below). -/
def and_not (a b : Nat) : Nat := a ^^^ (a &&& b)

/-- Modelled from the spec: `contains_special(set, to_test_for)` of `common/terrain.c`,
not at hand; whether the flag `to_test_for` is in `set`. -/
def contains_special (set to_test_for : Nat) : Bool := (set &&& to_test_for) == to_test_for

/-- Modelled from the spec: `tile_has_special(ptile, special)` of `common/map.c`. -/
def tile_has_special (ptile : tile) (special : Nat) : Bool :=
  contains_special ptile.special special

/-- Modelled from the spec: `map_get_tile(x, y)` of `common/map.h`, not at hand; the
tile at a map position. -/
def map_get_tile (m : civ_map) (x y : Int) : tile := m.tiles x y

/-- Assignment through the pointer `ptile = map_get_tile(x, y)`: the map in which the
tile at `(x, y)` is `t` and every other tile is as before. -/
def set_tile (m : civ_map) (x y : Int) (t : tile) : civ_map :=
  { tiles := fun a b => if a = x ∧ b = y then t else m.tiles a b }

/-- The assignment `ptile->terrain = terrain`. -/
def set_terrain (m : civ_map) (x y : Int) (terrain : Terrain_type_id) : civ_map :=
  set_tile m x y { map_get_tile m x y with terrain := terrain }

/-- The assignment `ptile->special = special`. -/
def set_special (m : civ_map) (x y : Int) (special : Nat) : civ_map :=
  set_tile m x y { map_get_tile m x y with special := special }

/-- Modelled from the spec: `map_get_terrain(x, y)` of `common/map.c`. -/
def map_get_terrain (m : civ_map) (x y : Int) : Terrain_type_id := (map_get_tile m x y).terrain

/-- Modelled from the spec: `map_get_special(x, y)` of `common/map.c`. -/
def map_get_special (m : civ_map) (x y : Int) : Nat := (map_get_tile m x y).special

/-- Modelled from the spec: `map_has_special(x, y, special)` of `common/map.c`. -/
def map_has_special (m : civ_map) (x y : Int) (special : Nat) : Bool :=
  contains_special (map_get_tile m x y).special special

/-- Modelled from the spec: `map_set_special(x, y, spe)` of `common/map.c`, not at hand;
it sets the flag on the tile (`special |= spe`, the form settlers.c uses when it sets
the road flag by hand).  Its side effects on move costs touch neither `terrain` nor
`special`. -/
def map_set_special (m : civ_map) (x y : Int) (spe : Nat) : civ_map :=
  set_special m x y ((map_get_tile m x y).special ||| spe)

/-- Modelled from the spec: `map_clear_special(x, y, spe)` of `common/map.c`, not at
hand; it clears the flag on the tile (`special &= ~spe`). -/
def map_clear_special (m : civ_map) (x y : Int) (spe : Nat) : civ_map :=
  set_special m x y (and_not (map_get_tile m x y).special spe)

/-! ## Tile valuation -/

/-- The function `food_weighting(city_size)` (settlers.c:191-221).  The table is filled
on the first call with `(4 * FOOD_WEIGHTING) / (city_granary_size(size) / game.foodbox)`,
the entry of size 1 being reduced to three quarters; `city_size` is asserted to lie in
`(0, MAX_CITY_SIZE)`. -/
def food_weighting (g : Env) (city_size : Int) : Int :=
  let food_weighting_is_for : Int := 4
  let weighting := Int.tdiv (food_weighting_is_for * g.FOOD_WEIGHTING)
    (Int.tdiv (g.city_granary_size city_size) g.foodbox)
  if city_size = 1 then Int.tdiv (weighting * 3) 4 else weighting

/-- The function `city_tile_value(pcity, x, y, foodneed, prodneed)`
(settlers.c:228-255), reading the map `m`. -/
def city_tile_value (g : Env) (m : civ_map) (pcity : city) (x y : Int)
    (foodneed prodneed : Int) : Int :=
  let plr := pcity.owner
  let food0 := g.city_get_food_tile m x y pcity
  let food1 := if foodneed > 0 then food0 + 9 * min food0 foodneed else food0
  let food_value := food1 * food_weighting g (max 2 pcity.size)
  let shield0 := g.city_get_shields_tile m x y pcity
  let shield1 := if prodneed > 0 then shield0 + 9 * min shield0 prodneed else shield0
  let shield2 := shield1 * (g.SHIELD_WEIGHTING * g.city_shield_bonus pcity)
  let shield_value := Int.tdiv shield2 100
  let trade_value := Int.tdiv
    (g.city_get_trade_tile m x y pcity * pcity.trade_want
      * (g.city_tax_bonus pcity * plr.tax
        + g.city_luxury_bonus pcity * plr.luxury
        + g.city_science_bonus pcity * plr.science)) 10000
  food_value + shield_value + trade_value

/-! ## The improvement simulators

Each simulator changes the tile in place, evaluates it and puts it back; the embedding
passes the map through: the result is the returned goodness and the map as the call
leaves it.  The `assert` statements of the C code compute nothing; those that compare
the tile with its saved state are consequences of `simulators_restore_map` below. -/

/-- The function `ai_calc_pollution` (settlers.c:268-284). -/
def ai_calc_pollution (g : Env) (m : civ_map) (pcity : city) (city_x city_y : Int)
    (best : Int) (map_x map_y : Int) : Int × civ_map :=
  if !map_has_special m map_x map_y S_POLLUTION then (-1, m)
  else
    let m1 := map_clear_special m map_x map_y S_POLLUTION
    let goodness := city_tile_value g m1 pcity city_x city_y 0 0
    let m2 := map_set_special m1 map_x map_y S_POLLUTION
    ((goodness + best + 50) * 2, m2)

/-- The function `ai_calc_fallout` (settlers.c:297-316). -/
def ai_calc_fallout (g : Env) (m : civ_map) (pcity : city) (pplayer : player)
    (city_x city_y : Int) (best : Int) (map_x map_y : Int) : Int × civ_map :=
  if !map_has_special m map_x map_y S_FALLOUT then (-1, m)
  else
    let m1 := map_clear_special m map_x map_y S_FALLOUT
    let goodness := city_tile_value g m1 pcity city_x city_y 0 0
    let m2 := map_set_special m1 map_x map_y S_FALLOUT
    if !pplayer.ai_control then ((goodness + best + 50) * 2, m2)
    else (goodness, m2)

/-- The function `is_wet` (settlers.c:326-349). -/
def is_wet (g : Env) (m : civ_map) (pplayer : player) (map_x map_y : Int) : Bool :=
  if !pplayer.ai_control && !g.map_is_known map_x map_y pplayer then false
  else if g.is_ocean (map_get_terrain m map_x map_y) then true
  else if contains_special (map_get_special m map_x map_y) S_RIVER
      || contains_special (map_get_special m map_x map_y) S_IRRIGATION then true
  else false

/-- The function `is_wet_or_is_wet_cardinal_around` (settlers.c:359-373). -/
def is_wet_or_is_wet_cardinal_around (g : Env) (m : civ_map) (pplayer : player)
    (map_x map_y : Int) : Bool :=
  if is_wet g m pplayer map_x map_y then true
  else (g.cardinal_adjc map_x map_y).any (fun p => is_wet g m pplayer p.1 p.2)

/-- The function `ai_calc_irrigate` (settlers.c:387-437). -/
def ai_calc_irrigate (g : Env) (m : civ_map) (pcity : city) (pplayer : player)
    (city_x city_y map_x map_y : Int) : Int × civ_map :=
  let ptile := map_get_tile m map_x map_y
  let old_terrain := ptile.terrain
  let old_special := ptile.special
  let type := g.get_tile_type old_terrain
  let new_terrain := type.irrigation_result
  if old_terrain ≠ new_terrain ∧ new_terrain ≠ g.T_LAST then
    if ptile.city.isSome ∧ g.terrain_has_flag new_terrain terrain_flag_id.TER_NO_CITIES then
      (-1, m)
    else
      let m1 := set_terrain m map_x map_y new_terrain
      let m2 := map_clear_special m1 map_x map_y S_MINE
      let goodness := city_tile_value g m2 pcity city_x city_y 0 0
      let m3 := set_terrain m2 map_x map_y old_terrain
      let m4 := set_special m3 map_x map_y old_special
      (goodness, m4)
  else if old_terrain = new_terrain
      ∧ !tile_has_special ptile S_IRRIGATION
      ∧ is_wet_or_is_wet_cardinal_around g m pplayer map_x map_y then
    let m1 := map_clear_special m map_x map_y S_MINE
    let m2 := map_set_special m1 map_x map_y S_IRRIGATION
    let goodness := city_tile_value g m2 pcity city_x city_y 0 0
    let m3 := set_special m2 map_x map_y old_special
    (goodness, m3)
  else if old_terrain = new_terrain
      ∧ tile_has_special ptile S_IRRIGATION
      ∧ !tile_has_special ptile S_FARMLAND
      ∧ g.player_knows_techs_with_flag pplayer tech_flag_id.TF_FARMLAND
      ∧ is_wet_or_is_wet_cardinal_around g m pplayer map_x map_y then
    let m1 := map_set_special m map_x map_y S_FARMLAND
    let goodness := city_tile_value g m1 pcity city_x city_y 0 0
    let m2 := map_clear_special m1 map_x map_y S_FARMLAND
    (goodness, m2)
  else (-1, m)

/-- The function `ai_calc_mine` (settlers.c:451-490). -/
def ai_calc_mine (g : Env) (m : civ_map) (pcity : city)
    (city_x city_y map_x map_y : Int) : Int × civ_map :=
  let ptile := map_get_tile m map_x map_y
  let old_terrain := ptile.terrain
  let old_special := ptile.special
  let type := g.get_tile_type old_terrain
  let new_terrain := type.mining_result
  if old_terrain ≠ new_terrain ∧ new_terrain ≠ g.T_LAST then
    if ptile.city.isSome ∧ g.terrain_has_flag new_terrain terrain_flag_id.TER_NO_CITIES then
      (-1, m)
    else
      let m1 := set_terrain m map_x map_y new_terrain
      let m2 := map_clear_special m1 map_x map_y S_IRRIGATION
      let m3 := map_clear_special m2 map_x map_y S_FARMLAND
      let goodness := city_tile_value g m3 pcity city_x city_y 0 0
      let m4 := set_terrain m3 map_x map_y old_terrain
      let m5 := set_special m4 map_x map_y old_special
      (goodness, m5)
  else if old_terrain = new_terrain ∧ !tile_has_special ptile S_MINE then
    let m1 := map_clear_special m map_x map_y S_IRRIGATION
    let m2 := map_clear_special m1 map_x map_y S_FARMLAND
    let m3 := map_set_special m2 map_x map_y S_MINE
    let goodness := city_tile_value g m3 pcity city_x city_y 0 0
    let m4 := set_special m3 map_x map_y old_special
    (goodness, m4)
  else (-1, m)

/-- The function `ai_calc_transform` (settlers.c:504-549). -/
def ai_calc_transform (g : Env) (m : civ_map) (pcity : city)
    (city_x city_y map_x map_y : Int) : Int × civ_map :=
  let ptile := map_get_tile m map_x map_y
  let old_terrain := ptile.terrain
  let old_special := ptile.special
  let type := g.get_tile_type old_terrain
  let new_terrain := type.transform_result
  if old_terrain = new_terrain ∨ new_terrain = g.T_LAST then (-1, m)
  else if g.is_ocean old_terrain ∧ !g.is_ocean new_terrain
      ∧ !g.can_reclaim_ocean m map_x map_y then (-1, m)
  else if g.is_ocean new_terrain ∧ !g.is_ocean old_terrain
      ∧ !g.can_channel_land m map_x map_y then (-1, m)
  else if ptile.city.isSome ∧ g.terrain_has_flag new_terrain terrain_flag_id.TER_NO_CITIES then
    (-1, m)
  else
    let m1 := set_terrain m map_x map_y new_terrain
    let m2 := if (g.get_tile_type new_terrain).mining_result ≠ new_terrain then
        map_clear_special m1 map_x map_y S_MINE
      else m1
    let m3 := if (g.get_tile_type new_terrain).irrigation_result ≠ new_terrain then
        map_clear_special (map_clear_special m2 map_x map_y S_FARMLAND) map_x map_y S_IRRIGATION
      else m2
    let goodness := city_tile_value g m3 pcity city_x city_y 0 0
    let m4 := set_terrain m3 map_x map_y old_terrain
    let m5 := set_special m4 map_x map_y old_special
    (goodness, m5)

/-- The function `ai_calc_road` (settlers.c:695-719).  The flag is set and cleared by
hand: `ptile->special |= S_ROAD`, then `ptile->special &= ~S_ROAD`. -/
def ai_calc_road (g : Env) (m : civ_map) (pcity : city) (pplayer : player)
    (city_x city_y map_x map_y : Int) : Int × civ_map :=
  let ptile := map_get_tile m map_x map_y
  if !g.is_ocean ptile.terrain
      ∧ (!tile_has_special ptile S_RIVER
        ∨ g.player_knows_techs_with_flag pplayer tech_flag_id.TF_BRIDGE)
      ∧ !tile_has_special ptile S_ROAD then
    let m1 := set_special m map_x map_y (ptile.special ||| S_ROAD)
    let goodness := city_tile_value g m1 pcity city_x city_y 0 0
    let m2 := set_special m1 map_x map_y (and_not (map_get_tile m1 map_x map_y).special S_ROAD)
    (goodness, m2)
  else (-1, m)

/-- The function `ai_calc_railroad` (settlers.c:737-761). -/
def ai_calc_railroad (g : Env) (m : civ_map) (pcity : city) (pplayer : player)
    (city_x city_y map_x map_y : Int) : Int × civ_map :=
  let ptile := map_get_tile m map_x map_y
  if !g.is_ocean ptile.terrain
      ∧ g.player_knows_techs_with_flag pplayer tech_flag_id.TF_RAILROAD
      ∧ !tile_has_special ptile S_RAILROAD then
    let old_special := ptile.special
    let m1 := set_special m map_x map_y (ptile.special ||| (S_ROAD ||| S_RAILROAD))
    let goodness := city_tile_value g m1 pcity city_x city_y 0 0
    let m2 := set_special m1 map_x map_y old_special
    (goodness, m2)
  else (-1, m)

/-! ## A small concrete world

One tile at the origin of an otherwise empty grassland map, used to evaluate the
simulators on explicit inputs. -/

/-- A ruleset with no terrain change, food as the only yield: a tile gives 2 food, one
less under pollution and one less under fallout, one more with irrigation. -/
def sample_env : Env where
  T_LAST := 100
  get_tile_type := fun t => { irrigation_result := t, mining_result := t, transform_result := t }
  is_ocean := fun _ => false
  terrain_has_flag := fun _ _ => false
  player_knows_techs_with_flag := fun _ _ => false
  map_is_known := fun _ _ _ => true
  cardinal_adjc := fun x y => [(x, y - 1), (x, y + 1), (x - 1, y), (x + 1, y)]
  can_reclaim_ocean := fun _ _ _ => false
  can_channel_land := fun _ _ _ => false
  city_get_food_tile := fun m x y _ =>
    2 - (if contains_special (m.tiles x y).special S_POLLUTION then 1 else 0)
      - (if contains_special (m.tiles x y).special S_FALLOUT then 1 else 0)
      + (if contains_special (m.tiles x y).special S_IRRIGATION then 1 else 0)
  city_get_shields_tile := fun _ _ _ _ => 0
  city_get_trade_tile := fun _ _ _ _ => 0
  city_shield_bonus := fun _ => 100
  city_tax_bonus := fun _ => 100
  city_luxury_bonus := fun _ => 100
  city_science_bonus := fun _ => 100
  FOOD_WEIGHTING := 19
  SHIELD_WEIGHTING := 17
  city_granary_size := fun size => (size + 1) * 10
  foodbox := 10

/-- A map whose tile at `(0, 0)` carries pollution, fallout and a river (and no city);
every other tile is bare. -/
def sample_map : civ_map where
  tiles := fun x y =>
    if x = 0 ∧ y = 0 then { terrain := 1, special := S_POLLUTION ||| S_FALLOUT ||| S_RIVER, city := none }
    else { terrain := 1, special := 0, city := none }

/-- A player who is not AI-controlled. -/
def human_player : player :=
  { ai_control := false, tax := 40, luxury := 0, science := 60, player_no := 0, warmth := 0 }

/-- An AI-controlled player. -/
def ai_player : player :=
  { ai_control := true, tax := 40, luxury := 0, science := 60, player_no := 1, warmth := 0 }

/-- A city of size 3 of the human player. -/
def sample_city : city :=
  { size := 3, trade_want := 8, owner := human_player, x := 0, y := 0 }

/-! ## Weighing a candidate action -/

/-- The values of `enum unit_activity` that settlers.c names. -/
inductive unit_activity where
  | ACTIVITY_IDLE
  | ACTIVITY_POLLUTION
  | ACTIVITY_ROAD
  | ACTIVITY_MINE
  | ACTIVITY_IRRIGATE
  | ACTIVITY_RAILROAD
  | ACTIVITY_TRANSFORM
  | ACTIVITY_FALLOUT
  | ACTIVITY_GOTO
  | ACTIVITY_SENTRY
  deriving DecidableEq

/-- The five in-out parameters of `consider_settler_action`: `*best_value`,
`*best_old_tile_value`, `*best_act`, `*gx`, `*gy`. -/
structure settler_best where
  best_value : Int
  best_old_tile_value : Int
  best_act : unit_activity
  gx : Int
  gy : Int
  deriving DecidableEq

/-- The local `base_value` of `consider_settler_action` for a considered candidate
(settlers.c:833-840): `diff * (in_use ? 64 : 16) + extra * 64`, floored at zero. -/
def settler_action_base_value (extra new_tile_value old_tile_value : Int) (in_use : Bool) :
    Int :=
  let diff := new_tile_value - old_tile_value
  max 0 (diff * (if in_use then 64 else 16) + extra * 64)

/-- The local `total_value` of `consider_settler_action` (settlers.c:826-853).  It is
`none` when the call of `amortize` does not return a value: for a negative delay its
`assert(delay >= 0)` fails, and for some operands its loop never ends.  The product
`discount_value * base_value` is a product of two `int`s and is kept to 32 bits. -/
def settler_action_total_value (extra new_tile_value old_tile_value : Int) (in_use : Bool)
    (delay : Int) : Option Int :=
  let consider : Bool := if extra ≥ 0 then true else decide (new_tile_value > old_tile_value)
  if consider then
    let base_value := settler_action_base_value extra new_tile_value old_tile_value in_use
    if delay < 0 then none
    else
      (amortize base_value delay.toNat).map (fun discount_value =>
        Int.tdiv
          (Int.tdiv (wrap32 (discount_value * base_value))
            (max 1 (base_value - discount_value))) 64)
  else some 0

/-- The function `consider_settler_action` (settlers.c:813-868): the state of the five
in-out parameters after the call (`none` when `amortize` returns no value).  The parameter
`pplayer` of the C function is not used by it and is left out. -/
def consider_settler_action (act : unit_activity) (extra new_tile_value old_tile_value : Int)
    (in_use : Bool) (delay : Int) (best : settler_best) (x y : Int) : Option settler_best :=
  (settler_action_total_value extra new_tile_value old_tile_value in_use delay).map
    (fun total_value =>
      if total_value > best.best_value
          ∨ (total_value = best.best_value ∧ old_tile_value > best.best_old_tile_value) then
        { best_value := total_value, best_old_tile_value := old_tile_value, best_act := act,
          gx := x, gy := y }
      else best)

/-! ## Units, the state kept beside the map, and further collaborators -/

/-- The values of `enum city_tile_type` returned by `get_worker_city`. -/
inductive city_tile_type where
  | C_TILE_EMPTY
  | C_TILE_WORKER
  | C_TILE_UNAVAILABLE
  deriving DecidableEq

/-- Unit type flags tested by settlers.c. -/
inductive unit_flag_id where
  | F_SETTLERS
  | F_CITIES
  | F_TRANSFORM
  | F_IGTER
  deriving DecidableEq

/-- Building effects tested by settlers.c. -/
inductive Impr_Type_id where
  | B_GRANARY
  deriving DecidableEq

/-- The fields of `struct unit` read by settlers.c: `id`, the position, the owner
(`unit_owner(punit)`), `homecity`, the `move_rate` of its type, the activity and the goto
destination (`is_goto_dest_set`, `goto_dest_x`, `goto_dest_y`). -/
structure unit where
  id : Int
  x : Int
  y : Int
  owner : player
  homecity : Int
  move_rate : Int
  activity : unit_activity
  goto_dest : Option (Int × Int)

/-- The seven cached grids of `pcity->ai`, indexed by city-relative position. -/
structure ai_cache where
  detox : Int → Int → Int
  derad : Int → Int → Int
  mine : Int → Int → Int
  irrigate : Int → Int → Int
  transform : Int → Int → Int
  road : Int → Int → Int
  railroad : Int → Int → Int

/-- A city of the list `pplayer->cities`: the city and its cached grids. -/
structure cached_city where
  pcity : city
  ai : ai_cache

/-- The state that settlers.c keeps or reads beside terrain and features: the units on
each tile (`map_get_tile(x, y)->units`), the assignment bits of each tile
(`map_get_tile(x, y)->assigned`), the territory bit vectors (`TERRITORY(x, y)`) and the
enemy masks (`enemies[player_no]`); bit vectors are natural numbers. -/
structure settlers_state where
  units : Int → Int → List unit
  assigned : Int → Int → Nat
  territory : Int → Int → Nat
  enemies : Nat → Nat

/-- Further items that settlers.c takes from headers and modules that are not at hand,
added to those of `Env`. -/
structure GameEnv extends Env where
  /-- The city-relative positions visited by `city_map_iterate(x, y)`, in order. -/
  city_map_iterate : List (Int × Int)
  /-- The pairs of a city-relative position and its map position visited by
  `city_map_checked_iterate(x0, y0, cx, cy, mx, my)` for a city at `(x0, y0)`, in
  order; positions that are not on the map are skipped by the macro. -/
  city_map_checked_iterate : Int → Int → List ((Int × Int) × (Int × Int))
  /-- Function `is_city_center(x, y)`. -/
  is_city_center : Int → Int → Bool
  /-- Function `get_worker_city(pcity, x, y)`. -/
  get_worker_city : city → Int → Int → city_tile_type
  /-- Function `map_get_continent(x, y)`. -/
  map_get_continent : Int → Int → Int
  /-- Macro `WARMAP_COST(x, y)` after `generate_warmap(mycity, punit)`. -/
  WARMAP_COST : unit → Int → Int → Int
  /-- Macro `THRESHOLD`. -/
  THRESHOLD : Int
  /-- Function `get_turns_for_activity_at(punit, activity, x, y)`. -/
  get_turns_for_activity_at : unit → unit_activity → Int → Int → Int
  /-- Function `unit_flag(punit, flag)`. -/
  unit_flag : unit → unit_flag_id → Bool
  /-- Function `pplayers_allied(pplayer, pplayer2)`. -/
  pplayers_allied : player → player → Bool
  /-- The call `utype_food_cost(unit_type(punit), get_gov_pplayer(unit_owner(punit)))`. -/
  utype_food_cost : unit → Int
  /-- Function `map_get_city(x, y)`: the city on the tile, if any. -/
  map_get_city : civ_map → Int → Int → Option city
  /-- Function `city_got_effect(pcity, building)`. -/
  city_got_effect : city → Impr_Type_id → Bool
  /-- Macro `IS_BORDER_MAP_POS(x, y, dist)`. -/
  IS_BORDER_MAP_POS : Int → Int → Int → Bool
  /-- Function `normalize_map_pos(&x, &y)`: the normalized position, or `none` when the
  position is not on the map (the C function then returns `FALSE`). -/
  normalize_map_pos : Int → Int → Option (Int × Int)
  /-- The field `road_time` of `get_tile_type(terrain)`. -/
  road_time : Terrain_type_id → Int

/-! ## The infrastructure cache -/

/-- The assignment `grid[x][y] = v`. -/
def grid_set (grid : Int → Int → Int) (x y v : Int) : Int → Int → Int :=
  fun a b => if a = x ∧ b = y then v else grid a b

/-- The function `best_worker_tile_value` (settlers.c:1196-1212). -/
def best_worker_tile_value (e : GameEnv) (m : civ_map) (pcity : city) : Int :=
  e.city_map_iterate.foldl (fun best p =>
    if e.is_city_center p.1 p.2
        ∨ e.get_worker_city pcity p.1 p.2 = city_tile_type.C_TILE_WORKER
        ∨ e.get_worker_city pcity p.1 p.2 = city_tile_type.C_TILE_EMPTY then
      let tmp := city_tile_value e.toEnv m pcity p.1 p.2 0 0
      if tmp > best then tmp else best
    else best) 0

/-- The first loop of `initialize_infrastructure_cache` for one city
(settlers.c:1226-1234): every cell visited by `city_map_iterate` is set to `-1` in the
seven grids. -/
def infrastructure_cache_reset (e : GameEnv) (ai : ai_cache) : ai_cache :=
  e.city_map_iterate.foldl (fun a p =>
    { detox := grid_set a.detox p.1 p.2 (-1),
      derad := grid_set a.derad p.1 p.2 (-1),
      mine := grid_set a.mine p.1 p.2 (-1),
      irrigate := grid_set a.irrigate p.1 p.2 (-1),
      transform := grid_set a.transform p.1 p.2 (-1),
      road := grid_set a.road p.1 p.2 (-1),
      railroad := grid_set a.railroad p.1 p.2 (-1) }) ai

/-- The body of the second loop of `initialize_infrastructure_cache` for one tile
(settlers.c:1238-1264): the seven simulators are called in turn, each on the map as the
one before left it, and their results stored.  The result is the cache, the map after
the calls, and whether the closing assertion
`old_terrain == ptile->terrain && old_special == ptile->special` holds. -/
def infrastructure_cache_tile (e : GameEnv) (m : civ_map) (pcity : city) (pplayer : player)
    (best : Int) (ai : ai_cache) (city_x city_y map_x map_y : Int) :
    ai_cache × civ_map × Bool :=
  let old_terrain := (map_get_tile m map_x map_y).terrain
  let old_special := (map_get_tile m map_x map_y).special
  let r1 := ai_calc_pollution e.toEnv m pcity city_x city_y best map_x map_y
  let a1 := { ai with detox := grid_set ai.detox city_x city_y r1.1 }
  let r2 := ai_calc_fallout e.toEnv r1.2 pcity pplayer city_x city_y best map_x map_y
  let a2 := { a1 with derad := grid_set a1.derad city_x city_y r2.1 }
  let r3 := ai_calc_mine e.toEnv r2.2 pcity city_x city_y map_x map_y
  let a3 := { a2 with mine := grid_set a2.mine city_x city_y r3.1 }
  let r4 := ai_calc_irrigate e.toEnv r3.2 pcity pplayer city_x city_y map_x map_y
  let a4 := { a3 with irrigate := grid_set a3.irrigate city_x city_y r4.1 }
  let r5 := ai_calc_transform e.toEnv r4.2 pcity city_x city_y map_x map_y
  let a5 := { a4 with transform := grid_set a4.transform city_x city_y r5.1 }
  let r6 := ai_calc_road e.toEnv r5.2 pcity pplayer city_x city_y map_x map_y
  let a6 := { a5 with road := grid_set a5.road city_x city_y r6.1 }
  let r7 := ai_calc_railroad e.toEnv r6.2 pcity pplayer city_x city_y map_x map_y
  let a7 := { a6 with railroad := grid_set a6.railroad city_x city_y r7.1 }
  (a7, r7.2,
    decide (old_terrain = (map_get_tile r7.2 map_x map_y).terrain
      ∧ old_special = (map_get_tile r7.2 map_x map_y).special))

/-- The body of the city loop of `initialize_infrastructure_cache` for one city
(settlers.c:1224-1265): the city with its new cache, the map after the calls, and
whether every closing assertion held. -/
def infrastructure_cache_city (e : GameEnv) (m : civ_map) (pplayer : player)
    (c : cached_city) : cached_city × civ_map × Bool :=
  let best := best_worker_tile_value e m c.pcity
  let r := (e.city_map_checked_iterate c.pcity.x c.pcity.y).foldl
    (fun (s : ai_cache × civ_map × Bool) p =>
      let t := infrastructure_cache_tile e s.2.1 c.pcity pplayer best s.1
        p.1.1 p.1.2 p.2.1 p.2.2
      (t.1, t.2.1, s.2.2 && t.2.2))
    (infrastructure_cache_reset e c.ai, m, true)
  ({ pcity := c.pcity, ai := r.1 }, r.2.1, r.2.2)

/-- The function `initialize_infrastructure_cache(pplayer)` (settlers.c:1221-1267) on
the list `pplayer->cities`: the cities with their new caches, the map after the call,
and whether every assertion held. -/
def initialize_infrastructure_cache (e : GameEnv) (m : civ_map) (pplayer : player) :
    List cached_city → List cached_city × civ_map × Bool
  | [] => ([], m, true)
  | c :: cs =>
    let r := infrastructure_cache_city e m pplayer c
    let rest := initialize_infrastructure_cache e r.2.1 pplayer cs
    (r.1 :: rest.1, rest.2.1, r.2.2 && rest.2.2)

/-! ### The cache rebuild read as a list of writes

A second reading of the rebuild, used to reason about it: the values stored for one
cell, and the list of cell writes made for one city.  `infrastructure_cache_city_eq`
below shows that the rebuild of a city performs exactly these writes. -/

/-- The seven values stored in one cell of the cache. -/
structure ai_cell where
  detox : Int
  derad : Int
  mine : Int
  irrigate : Int
  transform : Int
  road : Int
  railroad : Int

/-- Writing the seven values of a cell into the seven grids. -/
def ai_cache_store (ai : ai_cache) (x y : Int) (c : ai_cell) : ai_cache :=
  { detox := grid_set ai.detox x y c.detox,
    derad := grid_set ai.derad x y c.derad,
    mine := grid_set ai.mine x y c.mine,
    irrigate := grid_set ai.irrigate x y c.irrigate,
    transform := grid_set ai.transform x y c.transform,
    road := grid_set ai.road x y c.road,
    railroad := grid_set ai.railroad x y c.railroad }

/-- A list of cell writes, made in order. -/
def ai_cache_store_all (l : List (Int × Int × ai_cell)) (ai : ai_cache) : ai_cache :=
  l.foldl (fun a q => ai_cache_store a q.1 q.2.1 q.2.2) ai

/-- A list of writes into one grid, made in order. -/
def grid_store_all (l : List (Int × Int × Int)) (grid : Int → Int → Int) : Int → Int → Int :=
  l.foldl (fun g q => grid_set g q.1 q.2.1 q.2.2) grid

/-- The cell of sentinels written by the first loop. -/
def ai_cell_unset : ai_cell :=
  { detox := -1, derad := -1, mine := -1, irrigate := -1, transform := -1, road := -1,
    railroad := -1 }

/-- The results of the seven simulators for one tile, each on the map `m`. -/
def infrastructure_cache_values (e : GameEnv) (m : civ_map) (pcity : city) (pplayer : player)
    (best : Int) (city_x city_y map_x map_y : Int) : ai_cell :=
  { detox := (ai_calc_pollution e.toEnv m pcity city_x city_y best map_x map_y).1,
    derad := (ai_calc_fallout e.toEnv m pcity pplayer city_x city_y best map_x map_y).1,
    mine := (ai_calc_mine e.toEnv m pcity city_x city_y map_x map_y).1,
    irrigate := (ai_calc_irrigate e.toEnv m pcity pplayer city_x city_y map_x map_y).1,
    transform := (ai_calc_transform e.toEnv m pcity city_x city_y map_x map_y).1,
    road := (ai_calc_road e.toEnv m pcity pplayer city_x city_y map_x map_y).1,
    railroad := (ai_calc_railroad e.toEnv m pcity pplayer city_x city_y map_x map_y).1 }

/-- The writes of the rebuild for one city: the sentinel in every cell of
`city_map_iterate`, then the simulator results in every cell of
`city_map_checked_iterate`. -/
def infrastructure_cache_writes (e : GameEnv) (m : civ_map) (pplayer : player) (pcity : city) :
    List (Int × Int × ai_cell) :=
  e.city_map_iterate.map (fun p => (p.1, p.2, ai_cell_unset))
    ++ (e.city_map_checked_iterate pcity.x pcity.y).map (fun p =>
      (p.1.1, p.1.2, infrastructure_cache_values e m pcity pplayer
        (best_worker_tile_value e m pcity) p.1.1 p.1.2 p.2.1 p.2.2))

/-- The seven grids of a cache, as a list. -/
def ai_cache_grids (ai : ai_cache) : List (Int → Int → Int) :=
  [ai.detox, ai.derad, ai.mine, ai.irrigate, ai.transform, ai.road, ai.railroad]

/-- Tile yields, weights and bonuses are non-negative. -/
def yields_nonneg (g : Env) : Prop :=
  (∀ m x y c, 0 ≤ g.city_get_food_tile m x y c) ∧
  (∀ m x y c, 0 ≤ g.city_get_shields_tile m x y c) ∧
  (∀ m x y c, 0 ≤ g.city_get_trade_tile m x y c) ∧
  (∀ c, 0 ≤ g.city_shield_bonus c) ∧
  (∀ c, 0 ≤ g.city_tax_bonus c) ∧
  (∀ c, 0 ≤ g.city_luxury_bonus c) ∧
  (∀ c, 0 ≤ g.city_science_bonus c) ∧
  0 ≤ g.FOOD_WEIGHTING ∧ 0 ≤ g.SHIELD_WEIGHTING ∧
  (∀ size, 0 ≤ g.city_granary_size size) ∧ 0 ≤ g.foodbox

/-- The trade weight of the city and the rates of its owner are non-negative. -/
def rates_nonneg (c : city) : Prop :=
  0 ≤ c.trade_want ∧ 0 ≤ c.owner.tax ∧ 0 ≤ c.owner.luxury ∧ 0 ≤ c.owner.science

/-! ## Choosing the best improvement -/

/-- Modelled from the spec: macro `BV_CHECK_MASK(vec1, vec2)` of `utility/shared.h`, not
at hand; whether the two bit vectors have a bit in common.  The spec asks that the
target is "not claimed by a hostile player's territory". -/
def BV_CHECK_MASK (vec1 vec2 : Nat) : Bool := (vec1 &&& vec2) != 0

/-- Modelled from the spec: macro `TEST_BIT(val, bit)` of `utility/shared.h`, not at
hand; whether bit number `bit` of `val` is set. -/
def TEST_BIT (val bit : Nat) : Bool := val.testBit bit

/-- Modelled from the spec: `same_pos(x1, y1, x2, y2)` of `common/map.c`, not at hand;
positions are held in normal form, so two positions are the same when their coordinates
are equal. -/
def same_pos (x1 y1 x2 y2 : Int) : Bool := decide (x1 = x2 ∧ y1 = y2)

/-- The loop of `is_already_assigned` over the units of the tile (settlers.c:167-174).
The comparison of pointers `myunit == punit` is the comparison of the unit ids. -/
def is_already_assigned_scan (e : GameEnv) (myunit : unit) (pplayer : player) :
    List unit → Bool
  | [] => false
  | punit :: rest =>
    if punit.id = myunit.id then is_already_assigned_scan e myunit pplayer rest
    else if !e.pplayers_allied punit.owner pplayer then true
    else if e.unit_flag punit unit_flag_id.F_SETTLERS
        && e.unit_flag myunit unit_flag_id.F_SETTLERS then true
    else is_already_assigned_scan e myunit pplayer rest

/-- The function `is_already_assigned` (settlers.c:160-177). -/
def is_already_assigned (e : GameEnv) (st : settlers_state) (myunit : unit) (pplayer : player)
    (x y : Int) : Bool :=
  if same_pos myunit.x myunit.y x y
      || (match myunit.goto_dest with
          | some d => same_pos d.1 d.2 x y
          | none => false) then
    is_already_assigned_scan e myunit pplayer (st.units x y)
  else TEST_BIT (st.assigned x y) pplayer.player_no

/-- The eight rules of `road_bonus` (settlers.c:621-676) on the arrays `has_road` and
`is_slow`, indexed `0 .. 11`. -/
def road_bonus_rules (has_road is_slow : Nat → Bool) : Int :=
  (if has_road 0
      && !has_road 1 && !has_road 3
      && (!has_road 2 || !has_road 8)
      && (!is_slow 2 || !is_slow 4 || !is_slow 7 || !is_slow 6 || !is_slow 5)
    then 1 else 0)
  + (if has_road 2
      && !has_road 1 && !has_road 4
      && (!has_road 7 || !has_road 10)
      && (!is_slow 0 || !is_slow 3 || !is_slow 7 || !is_slow 6 || !is_slow 5)
    then 1 else 0)
  + (if has_road 5
      && !has_road 6 && !has_road 3
      && (!has_road 5 || !has_road 11)
      && (!is_slow 2 || !is_slow 4 || !is_slow 7 || !is_slow 1 || !is_slow 0)
    then 1 else 0)
  + (if has_road 7
      && !has_road 6 && !has_road 4
      && (!has_road 0 || !has_road 9)
      && (!is_slow 2 || !is_slow 3 || !is_slow 0 || !is_slow 1 || !is_slow 5)
    then 1 else 0)
  + (if has_road 1 && !has_road 4 && !has_road 3
      && (!is_slow 5 || !is_slow 6 || !is_slow 7)
    then 1 else 0)
  + (if has_road 3 && !has_road 1 && !has_road 6
      && (!is_slow 2 || !is_slow 4 || !is_slow 7)
    then 1 else 0)
  + (if has_road 4 && !has_road 1 && !has_road 6
      && (!is_slow 0 || !is_slow 3 || !is_slow 5)
    then 1 else 0)
  + (if has_road 6 && !has_road 4 && !has_road 3
      && (!is_slow 0 || !is_slow 1 || !is_slow 2)
    then 1 else 0)

/-- The array `dx` of `road_bonus`. -/
def road_bonus_dx : List Int := [-1, 0, 1, -1, 1, -1, 0, 1, 0, -2, 2, 0]

/-- The array `dy` of `road_bonus`. -/
def road_bonus_dy : List Int := [-1, -1, -1, 0, 0, 1, 1, 1, -2, 0, 0, 2]

/-- The values `(has_road[i], is_slow[i])` that `road_bonus` computes from the tile at
`(x1, y1)` (settlers.c:580-599). -/
def road_bonus_tile (e : GameEnv) (m : civ_map) (st : settlers_state) (x1 y1 : Int)
    (special : Nat) : Bool × Bool :=
  let ptile := map_get_tile m x1 y1
  let has_road := tile_has_special ptile special
  let is_slow := decide (e.road_time ptile.terrain = 0 ∨ e.road_time ptile.terrain > 5)
  let building := (st.units x1 y1).any (fun punit =>
    decide (punit.activity = unit_activity.ACTIVITY_ROAD
      ∨ punit.activity = unit_activity.ACTIVITY_RAILROAD))
  (if !has_road then building else has_road, is_slow)

/-- The function `road_bonus(map_x, map_y, special)` (settlers.c:559-677). -/
def road_bonus (e : GameEnv) (m : civ_map) (st : settlers_state) (map_x map_y : Int)
    (special : Nat) : Int :=
  let is_border := e.IS_BORDER_MAP_POS map_x map_y 2
  match e.normalize_map_pos map_x map_y with
  | none => 0
  | some pos =>
    let neighbour (i : Nat) : Bool × Bool :=
      let x1 := pos.1 + road_bonus_dx.getD i 0
      let y1 := pos.2 + road_bonus_dy.getD i 0
      if is_border then
        match e.normalize_map_pos x1 y1 with
        | none => (false, false)
        | some pos1 => road_bonus_tile e m st pos1.1 pos1.2 special
      else road_bonus_tile e m st x1 y1 special
    road_bonus_rules (fun i => (neighbour i).1) (fun i => (neighbour i).2)

/-- The function `unit_foodbox_cost` (settlers.c:878-892); `none` when the virtual unit
does not stand in a city (`assert(pcity != NULL)`). -/
def unit_foodbox_cost (e : GameEnv) (m : civ_map) (punit : unit) : Option Int :=
  if punit.id = 0 then
    match e.map_get_city m punit.x punit.y with
    | none => none
    | some pcity =>
      let cost := e.city_granary_size pcity.size
      some (if e.city_got_effect pcity Impr_Type_id.B_GRANARY then Int.tdiv cost 2 else cost)
  else some 30

/-- The function `unit_food_upkeep` (settlers.c:897-906). -/
def unit_food_upkeep (e : GameEnv) (punit : unit) : Int :=
  let upkeep := e.utype_food_cost punit
  if punit.id ≠ 0 ∧ punit.homecity = 0 then 0 else upkeep

/-- The condition under which `evaluate_improvements` considers the tile `(x, y)`, apart
from `is_already_assigned` (settlers.c:949-951): same continent as the unit, warmap cost
within `THRESHOLD * mv_rate`, and no territory bit of an enemy of the owner. -/
def legal_destination (e : GameEnv) (st : settlers_state) (punit : unit) (x y : Int) : Prop :=
  e.map_get_continent x y = e.map_get_continent punit.x punit.y
    ∧ e.WARMAP_COST punit x y ≤ e.THRESHOLD * punit.move_rate
    ∧ BV_CHECK_MASK (st.territory x y) (st.enemies punit.owner.player_no) = false

instance (e : GameEnv) (st : settlers_state) (punit : unit) (x y : Int) :
    Decidable (legal_destination e st punit x y) := by
  unfold legal_destination
  infer_instance

/-- The calls of `consider_settler_action` that the tile loop of `evaluate_improvements`
makes for a legal destination (settlers.c:961-1034): the city-relative position `(i, j)`
of the city `c`, at map position `(x, y)`; `best` holds `best_newv`, `best_oldv`,
`*best_act`, `*gx`, `*gy`.  The delay of each call is `mv_turns`, that is
`WARMAP_COST(x, y) / mv_rate`, plus the turns of the activity.  The calls are chained by
`Option.bind`: the next one starts from the state the one before left. -/
def evaluate_improvements_considers (e : GameEnv) (m : civ_map) (st : settlers_state)
    (punit : unit) (c : cached_city) (in_use : Bool) (best : settler_best) (i j x y : Int) :
    Option settler_best :=
  (consider_settler_action unit_activity.ACTIVITY_IRRIGATE (-1)
      (c.ai.irrigate i j) (city_tile_value e.toEnv m c.pcity i j 0 0) in_use
      (Int.tdiv (e.WARMAP_COST punit x y) punit.move_rate
        + e.get_turns_for_activity_at punit unit_activity.ACTIVITY_IRRIGATE x y)
      best x y).bind fun b1 =>
  (if e.unit_flag punit unit_flag_id.F_TRANSFORM then
      consider_settler_action unit_activity.ACTIVITY_TRANSFORM (-1)
        (c.ai.transform i j) (city_tile_value e.toEnv m c.pcity i j 0 0) in_use
        (Int.tdiv (e.WARMAP_COST punit x y) punit.move_rate
          + e.get_turns_for_activity_at punit unit_activity.ACTIVITY_TRANSFORM x y)
        b1 x y
    else some b1).bind fun b2 =>
  (consider_settler_action unit_activity.ACTIVITY_MINE (-1)
      (c.ai.mine i j) (city_tile_value e.toEnv m c.pcity i j 0 0) in_use
      (Int.tdiv (e.WARMAP_COST punit x y) punit.move_rate
        + e.get_turns_for_activity_at punit unit_activity.ACTIVITY_MINE x y)
      b2 x y).bind fun b3 =>
  (if !map_has_special m x y S_ROAD then
      (consider_settler_action unit_activity.ACTIVITY_ROAD
          (road_bonus e m st x y S_ROAD * 5) (c.ai.road i j)
          (city_tile_value e.toEnv m c.pcity i j 0 0) in_use
          (Int.tdiv (e.WARMAP_COST punit x y) punit.move_rate
            + e.get_turns_for_activity_at punit unit_activity.ACTIVITY_ROAD x y)
          b3 x y).bind fun b =>
        if e.player_knows_techs_with_flag punit.owner tech_flag_id.TF_RAILROAD then
          consider_settler_action unit_activity.ACTIVITY_ROAD
            (road_bonus e m st x y S_RAILROAD * 3) (c.ai.railroad i j)
            (city_tile_value e.toEnv m c.pcity i j 0 0) in_use
            (Int.tdiv (e.WARMAP_COST punit x y) punit.move_rate
              + e.get_turns_for_activity_at punit unit_activity.ACTIVITY_ROAD x y
              + e.get_turns_for_activity_at punit unit_activity.ACTIVITY_RAILROAD x y)
            b x y
        else some b
    else if !map_has_special m x y S_RAILROAD
        ∧ e.player_knows_techs_with_flag punit.owner tech_flag_id.TF_RAILROAD then
      consider_settler_action unit_activity.ACTIVITY_RAILROAD
        (road_bonus e m st x y S_RAILROAD * 3) (c.ai.railroad i j)
        (city_tile_value e.toEnv m c.pcity i j 0 0) in_use
        (Int.tdiv (e.WARMAP_COST punit x y) punit.move_rate
          + e.get_turns_for_activity_at punit unit_activity.ACTIVITY_RAILROAD x y)
        b3 x y
    else some b3).bind fun b4 =>
  (if map_has_special m x y S_POLLUTION then
      consider_settler_action unit_activity.ACTIVITY_POLLUTION punit.owner.warmth
        (c.ai.detox i j) (city_tile_value e.toEnv m c.pcity i j 0 0) in_use
        (Int.tdiv (e.WARMAP_COST punit x y) punit.move_rate
          + e.get_turns_for_activity_at punit unit_activity.ACTIVITY_POLLUTION x y)
        b4 x y
    else some b4).bind fun b5 =>
  if map_has_special m x y S_FALLOUT then
    consider_settler_action unit_activity.ACTIVITY_FALLOUT punit.owner.warmth
      (c.ai.derad i j) (city_tile_value e.toEnv m c.pcity i j 0 0) in_use
      (Int.tdiv (e.WARMAP_COST punit x y) punit.move_rate
        + e.get_turns_for_activity_at punit unit_activity.ACTIVITY_FALLOUT x y)
      b5 x y
  else some b5

/-- The part of the tile loop of `evaluate_improvements` for a legal destination
(settlers.c:957-1034).  It starts with the division `WARMAP_COST(x, y) / mv_rate`, which
traps when `mv_rate` is `0`: the result is then `none`. -/
def evaluate_improvements_actions (e : GameEnv) (m : civ_map) (st : settlers_state)
    (punit : unit) (c : cached_city) (in_use : Bool) (best : settler_best) (i j x y : Int) :
    Option settler_best :=
  if punit.move_rate = 0 then none
  else evaluate_improvements_considers e m st punit c in_use best i j x y

/-- The body of the tile loop of `evaluate_improvements` (settlers.c:946-1045): a tile
that the city cannot use is passed over, and so is a tile that is not a legal
destination or is already assigned. -/
def evaluate_improvements_tile (e : GameEnv) (m : civ_map) (st : settlers_state)
    (punit : unit) (c : cached_city) (best : settler_best) (i j x y : Int) :
    Option settler_best :=
  if e.get_worker_city c.pcity i j = city_tile_type.C_TILE_UNAVAILABLE then some best
  else if legal_destination e st punit x y
      ∧ !is_already_assigned e st punit punit.owner x y then
    evaluate_improvements_actions e m st punit c
      (decide (e.get_worker_city c.pcity i j = city_tile_type.C_TILE_WORKER)) best i j x y
  else some best

/-- The tile loop of `evaluate_improvements` for one city (settlers.c:945-1046). -/
def evaluate_improvements_city (e : GameEnv) (m : civ_map) (st : settlers_state)
    (punit : unit) (c : cached_city) (best : settler_best) : Option settler_best :=
  (e.city_map_checked_iterate c.pcity.x c.pcity.y).foldlM
    (fun b p => evaluate_improvements_tile e m st punit c b p.1.1 p.1.2 p.2.1 p.2.2) best

/-- The function `evaluate_improvements(punit, &best_act, &gx, &gy)`
(settlers.c:916-1066) on the list `cities` of the cities of the owner.  `best_act0`,
`gx0`, `gy0` are the values that the caller left in the three output variables.  The
result is the returned value with the final `*best_act`, `*gx`, `*gy`; it is `none`
when a call of `amortize` returns no value, a division traps (`mv_rate` or
`40 + food_cost` being `0`) or `unit_foodbox_cost` fails.  The closing
`(best_newv - food_upkeep * FOOD_WEIGHTING) * 100` is `int` arithmetic and is kept to 32
bits (wrapping once at the end gives what wrapping after each operation gives). -/
def evaluate_improvements (e : GameEnv) (m : civ_map) (st : settlers_state)
    (cities : List cached_city) (punit : unit) (best_act0 : unit_activity) (gx0 gy0 : Int) :
    Option (Int × unit_activity × Int × Int) := do
  let food_upkeep := unit_food_upkeep e punit
  let food_cost ← unit_foodbox_cost e m punit
  let best ← cities.foldlM (fun b c => evaluate_improvements_city e m st punit c b)
    { best_value := 0, best_old_tile_value := 9999, best_act := best_act0,
      gx := gx0, gy := gy0 }
  if 40 + food_cost = 0 then none
  else
    let best_newv := Int.tdiv
      (wrap32 ((best.best_value - food_upkeep * e.FOOD_WEIGHTING) * 100)) (40 + food_cost)
    let best_newv := if best_newv < 0 then 0 else best_newv
    if best_newv > 0 then some (best_newv, best.best_act, best.gx, best.gy)
    else some (best_newv, unit_activity.ACTIVITY_IDLE, -1, -1)

/-! ## A small concrete world for the settlers

The world of `sample_env` with a city at `(2, 2)`, so that the city-relative position
`(i, j)` is the map position `(i, j)`.  Two tiles of the city are visited: `(0, 0)`,
polluted and irradiated, and `(1, 0)`, which lies in the territory of an enemy. -/

/-- The ruleset `sample_env`, its granary size kept positive for sizes below zero, with
the collaborators of the later functions.  Positions with a negative coordinate are off
the map and on no continent. -/
def sample_game_env : GameEnv where
  toEnv := { sample_env with city_granary_size := fun size => (max size 0 + 1) * 10 }
  city_map_iterate := [(0, 0), (1, 0)]
  city_map_checked_iterate := fun x0 y0 =>
    [((0, 0), (x0 - 2, y0 - 2)), ((1, 0), (x0 - 1, y0 - 2))]
  is_city_center := fun x y => decide (x = 2 ∧ y = 2)
  get_worker_city := fun _ _ _ => city_tile_type.C_TILE_EMPTY
  map_get_continent := fun x y => if 0 ≤ x ∧ 0 ≤ y then 1 else 0
  WARMAP_COST := fun u x y => 3 * (((x - u.x).natAbs : Int) + ((y - u.y).natAbs : Int))
  THRESHOLD := 12
  get_turns_for_activity_at := fun _ _ _ _ => 2
  unit_flag := fun _ _ => false
  pplayers_allied := fun _ _ => false
  utype_food_cost := fun _ => 1
  map_get_city := fun _ _ _ => none
  city_got_effect := fun _ _ => false
  IS_BORDER_MAP_POS := fun x y dist => decide (x < dist ∨ y < dist)
  normalize_map_pos := fun x y => if 0 ≤ x ∧ 0 ≤ y then some (x, y) else none
  road_time := fun _ => 1

/-- No units on the tiles and no assignments; player 0 holds every tile of the map but
`(1, 0)`, which player 1 holds; the two players are enemies of each other. -/
def sample_state : settlers_state where
  units := fun _ _ => []
  assigned := fun _ _ => 0
  territory := fun x y => if x = 1 ∧ y = 0 then 2 else if 0 ≤ x ∧ 0 ≤ y then 1 else 0
  enemies := fun n => if n = 0 then 2 else 1

/-- A real settler of the human player, standing at `(2, 2)`, supported by a city. -/
def sample_settler : unit :=
  { id := 7, x := 2, y := 2, owner := human_player, homecity := 1, move_rate := 3,
    activity := unit_activity.ACTIVITY_IDLE, goto_dest := none }

/-- A cache with `0` in every cell. -/
def blank_ai_cache : ai_cache :=
  { detox := fun _ _ => 0, derad := fun _ _ => 0, mine := fun _ _ => 0,
    irrigate := fun _ _ => 0, transform := fun _ _ => 0, road := fun _ _ => 0,
    railroad := fun _ _ => 0 }

/-- The city `sample_city` at `(2, 2)`, with a blank cache. -/
def sample_cached_city : cached_city :=
  { pcity := { sample_city with x := 2, y := 2 }, ai := blank_ai_cache }

/-- The cities of the human player after `initialize_infrastructure_cache`. -/
def sample_cities : List cached_city :=
  (initialize_infrastructure_cache sample_game_env sample_map human_player
    [sample_cached_city]).1

/-! ## A river tile next to a road

A world in which no improvement changes what a tile gives, with a river at `(1, 1)` and
a road on the tile north of it; nobody knows how to build bridges. -/

/-- The ruleset `sample_game_env` where every tile gives one shield and nothing else,
the city works the tile `(1, 1)` only, and the unit type costs no food. -/
def barren_game_env : GameEnv :=
  { sample_game_env with
    toEnv := { sample_game_env.toEnv with
               city_get_food_tile := fun _ _ _ _ => 0
               city_get_shields_tile := fun _ _ _ _ => 1 }
    city_map_iterate := [(1, 1)]
    city_map_checked_iterate := fun x0 y0 => [((1, 1), (x0 - 1, y0 - 1))]
    utype_food_cost := fun _ => 0 }

/-- A map with a river at `(1, 1)` and a road at `(1, 0)`; every other tile is bare. -/
def river_map : civ_map where
  tiles := fun x y =>
    if x = 1 ∧ y = 1 then { terrain := 1, special := S_RIVER, city := none }
    else if x = 1 ∧ y = 0 then { terrain := 1, special := S_ROAD, city := none }
    else { terrain := 1, special := 0, city := none }

/-- The cities of the human player in the barren world, after
`initialize_infrastructure_cache`. -/
def barren_cities : List cached_city :=
  (initialize_infrastructure_cache barren_game_env river_map human_player
    [sample_cached_city]).1

/-- The state `sample_state` with every tile in the territory of player 1, an enemy of
player 0. -/
def hostile_state : settlers_state :=
  { sample_state with territory := fun _ _ => 2 }

/-- The ruleset `sample_env` where a tile gives 2 food, and 4 food when irrigated. -/
def irrigable_env : Env :=
  { sample_env with
    city_get_food_tile := fun m x y _ =>
      if contains_special (m.tiles x y).special S_IRRIGATION then 4 else 2 }

/-- A city of size 1 of the human player. -/
def hamlet : city :=
  { sample_city with size := 1 }

/-! ## A rich tile under pollution

A world in which pollution halves the food of a tile, with the settler standing on the
polluted tile and activities that take no time. -/

/-- The ruleset `sample_game_env` where a tile gives 8 food, and 4 food under pollution,
the city works every tile, and an activity takes no turns. -/
def rich_game_env : GameEnv :=
  { sample_game_env with
    toEnv := { sample_game_env.toEnv with
               city_get_food_tile := fun m x y _ =>
                 if contains_special (m.tiles x y).special S_POLLUTION then 4 else 8 }
    get_worker_city := fun _ _ _ => city_tile_type.C_TILE_WORKER
    get_turns_for_activity_at := fun _ _ _ _ => 0 }

/-- A map with pollution at `(0, 0)`; every other tile is bare. -/
def polluted_map : civ_map where
  tiles := fun x y =>
    if x = 0 ∧ y = 0 then { terrain := 1, special := S_POLLUTION, city := none }
    else { terrain := 1, special := 0, city := none }

/-- The settler `sample_settler`, standing at `(0, 0)`. -/
def near_settler : unit :=
  { sample_settler with x := 0, y := 0 }

/-- The cities of the human player in the rich world, after
`initialize_infrastructure_cache`. -/
def rich_cities : List cached_city :=
  (initialize_infrastructure_cache rich_game_env polluted_map human_player
    [sample_cached_city]).1

/-- The ruleset `sample_game_env` where all players are allied and the units 7 and 9
are settlers. -/
def allied_game_env : GameEnv :=
  { sample_game_env with
    pplayers_allied := fun _ _ => true
    unit_flag := fun u f => decide (f = unit_flag_id.F_SETTLERS ∧ (u.id = 7 ∨ u.id = 9)) }

/-- A unit of the AI player at `(2, 2)` that is not a settler. -/
def allied_warrior : unit :=
  { id := 8, x := 2, y := 2, owner := ai_player, homecity := 2, move_rate := 3,
    activity := unit_activity.ACTIVITY_IDLE, goto_dest := none }

/-- A settler of the AI player at `(2, 2)`. -/
def allied_settler : unit :=
  { id := 9, x := 2, y := 2, owner := ai_player, homecity := 2, move_rate := 3,
    activity := unit_activity.ACTIVITY_IDLE, goto_dest := none }

/-- The settler of the human player and the warrior of the AI player share the tile
`(2, 2)`; every tile has all its assigned bits set. -/
def crowded_state : settlers_state :=
  { sample_state with
    units := fun x y => if x = 2 ∧ y = 2 then [sample_settler, allied_warrior] else []
    assigned := fun _ _ => 4294967295 }

/-- The settlers of the two players share the tile `(2, 2)`; no assigned bit is set. -/
def settled_state : settlers_state :=
  { sample_state with
    units := fun x y => if x = 2 ∧ y = 2 then [sample_settler, allied_settler] else [] }

/-! ## The enemy masks -/

/-- Modelled from the spec: macro `BV_SET(bv, bit)` of `utility/shared.h`, not at hand;
the bit vector with bit number `bit` set.  The spec "sets the hostility bit for the row
player". -/
def BV_SET (bv bit : Nat) : Nat := bv ||| 2 ^ bit

/-- Modelled from the spec: macro `BV_CLR_ALL(bv)` of `utility/shared.h`, not at hand;
the bit vector with no bit set. -/
def BV_CLR_ALL (_bv : Nat) : Nat := 0

/-- The assignment `a[i] = v` to an array indexed by player number. -/
def array_set (a : Nat → Nat) (i v : Nat) : Nat → Nat :=
  fun n => if n = i then v else a n

/-- The inner loop of `recount_enemy_masks` for `player1` (settlers.c:1437-1440) over
the players `l`, on the array `enemies`. -/
def recount_enemy_masks_row (e : GameEnv) (player1 : player) (l : List player)
    (enemies : Nat → Nat) : Nat → Nat :=
  l.foldl (fun en player2 =>
    if !e.pplayers_allied player1 player2 then
      array_set en player1.player_no (BV_SET (en player1.player_no) player2.player_no)
    else en) enemies

/-- The function `recount_enemy_masks` (settlers.c:1433-1442) on the array `enemies`;
`players` is the list that `players_iterate` runs through. -/
def recount_enemy_masks (e : GameEnv) (players : List player) (enemies : Nat → Nat) :
    Nat → Nat :=
  players.foldl (fun en player1 =>
    recount_enemy_masks_row e player1 players
      (array_set en player1.player_no (BV_CLR_ALL (en player1.player_no)))) enemies

/-- The mask that `recount_enemy_masks` computes for `player1`: the bits of the players
of `l` that are not allied with `player1`, added to `bv`. -/
def enemy_mask_of (e : GameEnv) (player1 : player) (l : List player) (bv : Nat) : Nat :=
  l.foldl (fun b player2 =>
    if !e.pplayers_allied player1 player2 then BV_SET b player2.player_no else b) bv

/-- The ruleset `sample_game_env` where a player is allied with itself only. -/
def war_game_env : GameEnv :=
  { sample_game_env with pplayers_allied := fun p q => decide (p.player_no = q.player_no) }

/-! ## Territory -/

/-- Further items that the territory code takes from headers and modules that are not
at hand, added to those of `GameEnv`. -/
structure TerritoryEnv extends GameEnv where
  /-- The field `attack_strength` of `unit_type(punit)`. -/
  attack_strength : unit → Int
  /-- Function `is_sailing_unit(punit)`. -/
  is_sailing_unit : unit → Bool
  /-- Function `is_ground_unit(punit)`. -/
  is_ground_unit : unit → Bool
  /-- Macro `SINGLE_MOVE`. -/
  SINGLE_MOVE : Int
  /-- The map positions visited by `square_iterate(x, y, dist, x1, y1)`, in order: the
  positions of the map within the square of radius `dist` around `(x, y)`. -/
  square_iterate : Int → Int → Int → List (Int × Int)
  /-- Function `is_ocean_near_tile(x, y)`. -/
  is_ocean_near_tile : Int → Int → Bool

/-- A player with the lists `pplayer->units` and `pplayer->cities`. -/
structure player_lists where
  pplayer : player
  units : List unit
  cities : List city

/-- The assignment of the bit vector `v` to the entry of the tile `(x, y)` of a grid of
bit vectors. -/
def bv_grid_set (t : Int → Int → Nat) (x y : Int) (v : Nat) : Int → Int → Nat :=
  fun a b => if a = x ∧ b = y then v else t a b

/-- The function `assign_region` (settlers.c:1367-1374) on the array `territory`. -/
def assign_region (e : TerritoryEnv) (x y : Int) (player_no : Nat) (distance s : Int)
    (territory : Int → Int → Nat) : Int → Int → Nat :=
  (e.square_iterate x y distance).foldl (fun t p =>
    if s = 0 ∨ e.is_ocean_near_tile p.1 p.2 then
      bv_grid_set t p.1 p.2 (BV_SET (t p.1 p.2) player_no)
    else t) territory

/-- The body of the unit loop of `assign_territory_player` (settlers.c:1392-1407). -/
def assign_territory_unit (e : TerritoryEnv) (n : Nat) (territory : Int → Int → Nat)
    (punit : unit) : Int → Int → Nat :=
  if e.attack_strength punit ≠ 0 then
    if e.is_sailing_unit punit then
      assign_region e punit.x punit.y n (1 + Int.tdiv punit.move_rate e.SINGLE_MOVE) 1
        territory
    else if e.is_ground_unit punit then
      assign_region e punit.x punit.y n
        (1 + Int.tdiv punit.move_rate
          (if e.unit_flag punit unit_flag_id.F_IGTER then 1 else 3)) 0 territory
    else
      assign_region e punit.x punit.y n (1 + Int.tdiv punit.move_rate e.SINGLE_MOVE) 0
        territory
  else territory

/-- The function `assign_territory_player` (settlers.c:1388-1412). -/
def assign_territory_player (e : TerritoryEnv) (pl : player_lists)
    (territory : Int → Int → Nat) : Int → Int → Nat :=
  let n := pl.pplayer.player_no
  let t1 := pl.units.foldl (assign_territory_unit e n) territory
  pl.cities.foldl (fun t pcity => assign_region e pcity.x pcity.y n 3 0 t) t1

/-- The function `assign_territory` (settlers.c:1418-1428): the array `territory` after
the call; `memset` clears every entry, then `players_iterate` runs through `players`. -/
def assign_territory (e : TerritoryEnv) (players : List player_lists) : Int → Int → Nat :=
  players.foldl (fun t pl => assign_territory_player e pl t) (fun _ _ => 0)

/-- The radius of the square that `assign_territory_player` marks around a unit. -/
def territory_radius (e : TerritoryEnv) (punit : unit) : Int :=
  if e.is_sailing_unit punit then 1 + Int.tdiv punit.move_rate e.SINGLE_MOVE
  else if e.is_ground_unit punit then
    (if e.unit_flag punit unit_flag_id.F_IGTER then 1 + Int.tdiv punit.move_rate 1
     else 1 + Int.tdiv punit.move_rate 3)
  else 1 + Int.tdiv punit.move_rate e.SINGLE_MOVE

/-! ## Assigned tiles -/

/-- The body of the unit loop of `assign_settlers_player` (settlers.c:1332-1346) on the
grid of the fields `assigned`, each held as the natural number of its 32 bits; `i` is
`1 << pplayer->player_no`.  The result is `none` when a unit in `ACTIVITY_GOTO` has no
goto destination set, which `goto_dest_x` asserts. -/
def assign_settlers_unit (e : GameEnv) (i : Nat) (assigned : Int → Int → Nat)
    (punit : unit) : Option (Int → Int → Nat) :=
  if e.unit_flag punit unit_flag_id.F_SETTLERS ∨ e.unit_flag punit unit_flag_id.F_CITIES then
    if punit.activity = unit_activity.ACTIVITY_GOTO then
      match punit.goto_dest with
      | some d => some (bv_grid_set assigned d.1 d.2 (assigned d.1 d.2 ||| i))
      | none => none
    else some (bv_grid_set assigned punit.x punit.y 0xFFFFFFFF)
  else
    some (bv_grid_set assigned punit.x punit.y
      (assigned punit.x punit.y ||| (0xFFFFFFFF ^^^ i)))

/-- The function `assign_settlers_player` (settlers.c:1327-1347).  The shift
`1 << pplayer->player_no` is kept to 32 bits. -/
def assign_settlers_player (e : GameEnv) (pl : player_lists)
    (assigned : Int → Int → Nat) : Option (Int → Int → Nat) :=
  let i := (1 <<< pl.pplayer.player_no) % 2 ^ 32
  pl.units.foldlM (assign_settlers_unit e i) assigned

/-- The function `assign_settlers` (settlers.c:1353-1362): the fields `assigned` after
the call; every field is cleared, then `shuffled_players_iterate` runs through
`players`, in whatever order it has them. -/
def assign_settlers (e : GameEnv) (players : List player_lists) :
    Option (Int → Int → Nat) :=
  players.foldlM (fun a pl => assign_settlers_player e pl a) (fun _ _ => 0)

/-- What the unit `punit` of the player with number `p` adds to bit `k` of the tile
`(x, y)`: every bit if it is a settler (or city founder) standing there and not in
`ACTIVITY_GOTO`; the bit `p` if it is a settler in `ACTIVITY_GOTO` with the tile as
goto destination; every bit but `p` if it is another unit standing there. -/
def assigns_bit (e : GameEnv) (p : Nat) (punit : unit) (x y : Int) (k : Nat) : Prop :=
  if e.unit_flag punit unit_flag_id.F_SETTLERS ∨ e.unit_flag punit unit_flag_id.F_CITIES then
    if punit.activity = unit_activity.ACTIVITY_GOTO then
      punit.goto_dest = some (x, y) ∧ p = k
    else punit.x = x ∧ punit.y = y
  else punit.x = x ∧ punit.y = y ∧ p ≠ k

/-- The human player with its settler and the AI player with its warrior, both units at
`(2, 2)`; no cities. -/
def two_players : List player_lists :=
  [{ pplayer := human_player, units := [sample_settler], cities := [] },
   { pplayer := ai_player, units := [allied_warrior], cities := [] }]

/-! ## Finding work for a settler -/

/-- The values of `enum ai_unit_task` used by settlers.c. -/
inductive ai_unit_task where
  | AIUNIT_NONE
  | AIUNIT_AUTO_SETTLER
  | AIUNIT_BUILD_CITY
  deriving DecidableEq

/-- The fields of `struct cityresult` that settlers.c reads or writes. -/
structure cityresult where
  total : Int
  result : Int
  x : Int
  y : Int
  other_x : Int
  other_y : Int

/-- The state that `auto_settler_findwork` works on: the unit `punit` with its role
`punit->ai.ai_role` and `punit->moves_left`, the map, the state kept beside it, the
cities of the player with their caches, and whatever else the other modules keep. -/
structure settler_world (W : Type) where
  punit : unit
  ai_role : ai_unit_task
  moves_left : Int
  m : civ_map
  st : settlers_state
  cities : List cached_city
  rest : W

/-- The functions of other modules called by `auto_settler_findwork` and
`ai_do_build_city`, added to those of `GameEnv`; each one that changes the game returns
the state after the call.  Calls that only log or send packets (`UNIT_LOG`, `freelog`,
`print_cityresult`, `send_unit_info`) leave the state alone and are left out. -/
structure FindworkEnv (W : Type) extends GameEnv where
  /-- Function `city_can_be_built_here(x, y, punit)`. -/
  city_can_be_built_here : settler_world W → Int → Int → Bool
  /-- Function `ai_unit_new_role(punit, task, x, y)`. -/
  ai_unit_new_role : settler_world W → ai_unit_task → Int → Int → settler_world W
  /-- Function `ai_gothere(pplayer, punit, x, y)`. -/
  ai_gothere : settler_world W → Int → Int → Bool × settler_world W
  /-- Whether `find_unit_by_id(id)` finds a unit. -/
  find_unit_by_id : settler_world W → Int → Bool
  /-- Function `handle_unit_activity_request(punit, activity)`. -/
  handle_unit_activity_request : settler_world W → unit_activity → settler_world W
  /-- The call `handle_unit_build_city(pplayer, punit->id, city_name_suggestion(...))`. -/
  handle_unit_build_city : settler_world W → settler_world W
  /-- The call `find_best_city_placement(punit, &result, TRUE, FALSE)` on a result with
  `total` and `result` set to `0`: the result after the call, and the state. -/
  find_best_city_placement : settler_world W → cityresult × settler_world W
  /-- Function `citymap_reserve_tile(x, y, id)`. -/
  citymap_reserve_tile : settler_world W → Int → Int → Int → settler_world W
  /-- The call `do_unit_goto(punit, GOTO_MOVE_ANY, FALSE)`: whether it returned
  `GR_DIED`, and the state. -/
  do_unit_goto : settler_world W → Bool × settler_world W

/-- How one pass through the body of `auto_settler_findwork` ends: it returns, or it
reaches the call of itself at its end, or it does not get that far (an assertion fails,
or `evaluate_improvements` does not return). -/
inductive findwork_outcome (W : Type) where
  | returned : settler_world W → findwork_outcome W
  | recurse : settler_world W → findwork_outcome W
  | aborted : findwork_outcome W

/-- Macro `set_goto_dest(punit, x, y)`. -/
def set_goto_dest {W : Type} (s : settler_world W) (x y : Int) : settler_world W :=
  { s with punit := { s.punit with goto_dest := some (x, y) } }

/-- The function `ai_do_build_city` (settlers.c:60-88): whether a city was built, and
the state after the call. -/
def ai_do_build_city {W : Type} (e : FindworkEnv W) (pplayer : player)
    (s : settler_world W) : Bool × settler_world W :=
  let x := s.punit.x
  let y := s.punit.y
  let s1 := e.handle_unit_activity_request s unit_activity.ACTIVITY_IDLE
  let s2 := e.ai_unit_new_role s1 ai_unit_task.AIUNIT_NONE (-1) (-1)
  let s3 := e.handle_unit_build_city s2
  match e.map_get_city s3.m x y with
  | none => (false, s3)
  | some _ =>
    let r := initialize_infrastructure_cache e.toGameEnv s3.m pplayer s3.cities
    (true, { s3 with cities := r.1, m := r.2.1 })

/-- The end of `auto_settler_findwork` (settlers.c:1183-1189): the call of itself when
the role is `AIUNIT_BUILD_CITY`. -/
def findwork_recursion {W : Type} (s : settler_world W) : findwork_outcome W :=
  if s.ai_role = ai_unit_task.AIUNIT_BUILD_CITY then findwork_outcome.recurse s
  else findwork_outcome.returned s

/-- The part "Run the autosettler program" of `auto_settler_findwork`
(settlers.c:1160-1181) and what follows it. -/
def findwork_autosettler {W : Type} (e : FindworkEnv W) (pplayer : player)
    (s : settler_world W) (best_act : unit_activity) (gx gy : Int) : findwork_outcome W :=
  if s.ai_role = ai_unit_task.AIUNIT_AUTO_SETTLER then
    if gx ≠ -1 ∧ gy ≠ -1 then
      let s1 := { s with
        st := { s.st with
          assigned := bv_grid_set s.st.assigned gx gy
            (s.st.assigned gx gy ||| (1 <<< pplayer.player_no) % 2 ^ 32) } }
      let s2 := set_goto_dest s1 gx gy
      let r := e.do_unit_goto s2
      if r.1 then findwork_outcome.returned r.2
      else if r.2.moves_left > 0 ∧ same_pos gx gy r.2.punit.x r.2.punit.y then
        findwork_outcome.returned (e.handle_unit_activity_request r.2 best_act)
      else findwork_recursion r.2
    else findwork_outcome.returned s
  else findwork_recursion s

/-- The part "Try find some work" of `auto_settler_findwork` (settlers.c:1122-1158) and
what follows it.  When the unit has no `F_SETTLERS`, `best_act` is not initialised in
the C code; it is then read by no statement that is reached with `gx`, `gy` other than
`-1`, and stands as `ACTIVITY_IDLE` here. -/
def findwork_find_work {W : Type} (e : FindworkEnv W) (pplayer : player)
    (s : settler_world W) : findwork_outcome W :=
  match (if e.unit_flag s.punit unit_flag_id.F_SETTLERS then
      evaluate_improvements e.toGameEnv s.m s.st s.cities s.punit
        unit_activity.ACTIVITY_IDLE (-1) (-1)
    else some (0, unit_activity.ACTIVITY_IDLE, -1, -1)) with
  | none => findwork_outcome.aborted
  | some (best_impr, best_act, gx, gy) =>
    if e.unit_flag s.punit unit_flag_id.F_CITIES ∧ pplayer.ai_control then
      let r := e.find_best_city_placement s
      if r.1.result > best_impr then
        let s1 := e.ai_unit_new_role r.2 ai_unit_task.AIUNIT_BUILD_CITY r.1.x r.1.y
        let s2 := e.citymap_reserve_tile s1 r.1.other_x r.1.other_y s1.punit.id
        let s3 := set_goto_dest s2 r.1.x r.1.y
        findwork_autosettler e pplayer s3 best_act gx gy
      else if best_impr > 0 then
        findwork_autosettler e pplayer
          (e.ai_unit_new_role r.2 ai_unit_task.AIUNIT_AUTO_SETTLER gx gy) best_act gx gy
      else
        findwork_outcome.returned (e.ai_unit_new_role r.2 ai_unit_task.AIUNIT_NONE (-1) (-1))
    else
      findwork_autosettler e pplayer
        (e.ai_unit_new_role s ai_unit_task.AIUNIT_AUTO_SETTLER gx gy) best_act gx gy

/-- One pass through the body of `auto_settler_findwork(pplayer, punit)`
(settlers.c:1072-1190), up to its return or to the call of itself.  The goto
destination is read by `goto_dest_x`, `goto_dest_y`, which assert that it is set. -/
def auto_settler_findwork_body {W : Type} (e : FindworkEnv W) (pplayer : player)
    (s : settler_world W) : findwork_outcome W :=
  if s.ai_role = ai_unit_task.AIUNIT_BUILD_CITY then
    match s.punit.goto_dest with
    | none => findwork_outcome.aborted
    | some (x, y) =>
      let sanity := s.punit.id
      if !e.city_can_be_built_here s x y then
        findwork_outcome.returned (e.ai_unit_new_role s ai_unit_task.AIUNIT_NONE (-1) (-1))
      else
        let r := e.ai_gothere s x y
        if (!r.1 && !e.find_unit_by_id r.2 sanity) || decide (r.2.moves_left ≤ 0) then
          findwork_outcome.returned r.2
        else if same_pos r.2.punit.x r.2.punit.y x y then
          let b := ai_do_build_city e pplayer r.2
          if !b.1 then
            findwork_find_work e pplayer
              (e.ai_unit_new_role b.2 ai_unit_task.AIUNIT_NONE (-1) (-1))
          else findwork_outcome.returned b.2
        else findwork_outcome.returned r.2
  else findwork_find_work e pplayer s

/-- The function `auto_settler_findwork(pplayer, punit)`: the state when the call
returns.  `fuel` bounds the depth of the calls of itself; the result is `none` when the
call does not return within that depth. -/
def auto_settler_findwork {W : Type} (e : FindworkEnv W) (pplayer : player) :
    Nat → settler_world W → Option (settler_world W)
  | 0, _ => none
  | fuel + 1, s =>
    match auto_settler_findwork_body e pplayer s with
    | findwork_outcome.returned s2 => some s2
    | findwork_outcome.recurse s2 => auto_settler_findwork e pplayer fuel s2
    | findwork_outcome.aborted => none

/-! ### A city that cannot be founded -/

/-- The collaborators of a game in which the unit is a settler that can found cities,
the spot of the unit is judged the best city site, with want `100`, and a city may be
built there, but `handle_unit_build_city` founds no city; the unit is where it is sent,
so moving it changes nothing. -/
def stuck_env : FindworkEnv Unit where
  toGameEnv := { sample_game_env with
    unit_flag := fun _ f =>
      decide (f = unit_flag_id.F_SETTLERS ∨ f = unit_flag_id.F_CITIES) }
  city_can_be_built_here := fun _ _ _ => true
  ai_unit_new_role := fun s task _ _ => { s with ai_role := task }
  ai_gothere := fun s _ _ => (true, s)
  find_unit_by_id := fun _ _ => true
  handle_unit_activity_request := fun s a => { s with punit := { s.punit with activity := a } }
  handle_unit_build_city := fun s => s
  find_best_city_placement := fun s =>
    ({ total := 100, result := 100, x := s.punit.x, y := s.punit.y,
       other_x := s.punit.x + 1, other_y := s.punit.y }, s)
  citymap_reserve_tile := fun s _ _ _ => s
  do_unit_goto := fun s => (false, s)

/-- The first settler of the AI player, which has no city yet: it stands at `(2, 2)`
with moves left, on a mission to found a city on that very tile. -/
def stuck_world : settler_world Unit :=
  { punit := { id := 7, x := 2, y := 2, owner := ai_player, homecity := 0, move_rate := 3,
               activity := unit_activity.ACTIVITY_IDLE, goto_dest := some (2, 2) }
    ai_role := ai_unit_task.AIUNIT_BUILD_CITY
    moves_left := 3
    m := sample_map
    st := sample_state
    cities := []
    rest := () }

/-- The game of `stuck_env` in which `handle_unit_build_city` does found the city: the
tile of the unit then holds a city. -/
def founding_env : FindworkEnv Unit :=
  { stuck_env with
    map_get_city := fun m x y => (m.tiles x y).city.map (fun _ => sample_city)
    handle_unit_build_city := fun s =>
      { s with m := set_tile s.m s.punit.x s.punit.y
                 { (map_get_tile s.m s.punit.x s.punit.y) with city := some 1 } } }

/-! ## The rules of `road_bonus` taken apart -/

/-- The values `(has_road[i], is_slow[i])` that the loop of `road_bonus` computes for
the neighbour `i` of the normalized position `pos` (settlers.c:574-601); `is_border` is
`IS_BORDER_MAP_POS(map_x, map_y, 2)`. -/
def road_bonus_neighbour (e : GameEnv) (m : civ_map) (st : settlers_state)
    (is_border : Bool) (pos : Int × Int) (special : Nat) (i : Nat) : Bool × Bool :=
  let x1 := pos.1 + road_bonus_dx.getD i 0
  let y1 := pos.2 + road_bonus_dy.getD i 0
  if is_border then
    match e.normalize_map_pos x1 y1 with
    | none => (false, false)
    | some pos1 => road_bonus_tile e m st pos1.1 pos1.2 special
  else road_bonus_tile e m st x1 y1 special

/-- The first four rules of `road_bonus` (settlers.c:621-648), triggered by the
diagonal neighbours 0, 2, 5 and 7. -/
def road_bonus_diagonal (has_road is_slow : Nat → Bool) : Int :=
  (if has_road 0
      && !has_road 1 && !has_road 3
      && (!has_road 2 || !has_road 8)
      && (!is_slow 2 || !is_slow 4 || !is_slow 7 || !is_slow 6 || !is_slow 5)
    then 1 else 0)
  + (if has_road 2
      && !has_road 1 && !has_road 4
      && (!has_road 7 || !has_road 10)
      && (!is_slow 0 || !is_slow 3 || !is_slow 7 || !is_slow 6 || !is_slow 5)
    then 1 else 0)
  + (if has_road 5
      && !has_road 6 && !has_road 3
      && (!has_road 5 || !has_road 11)
      && (!is_slow 2 || !is_slow 4 || !is_slow 7 || !is_slow 1 || !is_slow 0)
    then 1 else 0)
  + (if has_road 7
      && !has_road 6 && !has_road 4
      && (!has_road 0 || !has_road 9)
      && (!is_slow 2 || !is_slow 3 || !is_slow 0 || !is_slow 1 || !is_slow 5)
    then 1 else 0)

/-- The last four rules of `road_bonus` (settlers.c:659-674), triggered by the
orthogonal neighbours 1, 3, 4 and 6. -/
def road_bonus_orthogonal (has_road is_slow : Nat → Bool) : Int :=
  (if has_road 1 && !has_road 4 && !has_road 3
      && (!is_slow 5 || !is_slow 6 || !is_slow 7)
    then 1 else 0)
  + (if has_road 3 && !has_road 1 && !has_road 6
      && (!is_slow 2 || !is_slow 4 || !is_slow 7)
    then 1 else 0)
  + (if has_road 4 && !has_road 1 && !has_road 6
      && (!is_slow 0 || !is_slow 3 || !is_slow 5)
    then 1 else 0)
  + (if has_road 6 && !has_road 4 && !has_road 3
      && (!is_slow 0 || !is_slow 1 || !is_slow 2)
    then 1 else 0)

/-- The pattern of the eight adjacent neighbours turned by 90 degrees about the centre
tile: with the neighbours numbered
`0 1 2 / 3 * 4 / 5 6 7`, what was at 0 comes to 2, 1 to 4, 2 to 7, 4 to 6, 7 to 5, 6 to
3, 5 to 0 and 3 to 1. -/
def rotate_neighbours (f : Nat → Bool) : Nat → Bool :=
  fun i =>
    match i with
    | 0 => f 5
    | 1 => f 3
    | 2 => f 0
    | 3 => f 6
    | 4 => f 1
    | 5 => f 7
    | 6 => f 4
    | 7 => f 2
    | n => f n

/-! ## The want for a worker -/

/-- The items that `contemplate_terrain_improvements` takes from other modules, added to
those of `GameEnv`. -/
structure ContemplateEnv extends GameEnv where
  /-- Function `best_role_unit(pcity, flag)`; `none` stands for `U_LAST`. -/
  best_role_unit : city → unit_flag_id → Option Nat
  /-- The call `create_unit_virtual(pplayer, pcity, unit_type, 0)`. -/
  create_unit_virtual : player → city → Nat → unit
  /-- The entry `ai->stats.workers[continent]` of `ai_data_get(pplayer)`. -/
  stats_workers : player → Int → Int
  /-- The entry `ai->stats.cities[continent]` of `ai_data_get(pplayer)`. -/
  stats_cities : player → Int → Int

/-- The function `contemplate_terrain_improvements(pcity)` (settlers.c:1504-1537): the
field `pcity->ai.settler_want` after the call, and whether `assert(want >= 0)` holds;
`none` when `evaluate_improvements` does not return.  `settler_want` is the field before
the call; `best_act0`, `gx0`, `gy0` are what the uninitialised locals `best_act`, `gx`,
`gy` hold; the continent of the city tile is read by `map_get_continent`. -/
def contemplate_terrain_improvements (e : ContemplateEnv) (m : civ_map)
    (st : settlers_state) (cities : List cached_city) (pcity : city) (settler_want : Int)
    (best_act0 : unit_activity) (gx0 gy0 : Int) : Option (Int × Bool) :=
  match e.best_role_unit pcity unit_flag_id.F_SETTLERS with
  | none => some (settler_want, true)
  | some unit_type =>
    let virtualunit : unit :=
      { e.create_unit_virtual pcity.owner pcity unit_type with x := pcity.x, y := pcity.y }
    (evaluate_improvements e.toGameEnv m st cities virtualunit best_act0 gx0 gy0).map
      fun r =>
        let continent := e.map_get_continent pcity.x pcity.y
        let want := Int.tdiv r.1
          (max 1 (Int.tdiv (e.stats_workers pcity.owner continent)
            (max 1 (e.stats_cities pcity.owner continent))))
        (want, decide (want ≥ 0))

/-- The world of `sample_game_env` seen from the city at `(2, 2)`: the city stands on
its tile, a worker type can be built, and the continent has five workers for two
cities. -/
def sample_contemplate_env : ContemplateEnv where
  toGameEnv := { sample_game_env with
    map_get_city := fun _ x y => if x = 2 ∧ y = 2 then some sample_cached_city.pcity else none }
  best_role_unit := fun _ _ => some 1
  create_unit_virtual := fun pplayer _ _ =>
    { id := 0, x := 0, y := 0, owner := pplayer, homecity := 1, move_rate := 3,
      activity := unit_activity.ACTIVITY_IDLE, goto_dest := none }
  stats_workers := fun _ _ => 5
  stats_cities := fun _ _ => 2

/-! ## Dispatching the settlers of a player -/

/-- The items that `auto_settlers_player` takes from other modules, added to those of
`FindworkEnv`.  The timer and the log calls are left out. -/
structure PlayerEnv (W : Type) extends FindworkEnv W where
  /-- The field `punit->ai.control`. -/
  unit_ai_control : settler_world W → Bool
  /-- Function `unit_has_orders(punit)`. -/
  unit_has_orders : settler_world W → Bool
  /-- The call `ai_handicap(pplayer, H_EXPERIMENTAL)`. -/
  ai_handicap_experimental : player → Bool
  /-- Function `citymap_turn_init(pplayer)`. -/
  citymap_turn_init : settler_world W → settler_world W
  /-- Macro `WARMING_FACTOR`. -/
  WARMING_FACTOR : Int
  /-- The field `game.heating`. -/
  heating : Int
  /-- The field `game.warminglevel`. -/
  warminglevel : Int
  /-- The state in which `punit` is the unit with the given id of the list
  `pplayer->units`, owned by `pplayer`: what `unit_list_iterate` steps to. -/
  select_unit : settler_world W → Int → player → settler_world W

/-- The body of the unit loop of `auto_settlers_player` (settlers.c:1296-1313) for the
unit `punit` of the state. -/
def auto_settlers_unit {W : Type} (e : PlayerEnv W) (pplayer : player) (fuel : Nat)
    (s : settler_world W) : Option (settler_world W) :=
  if (e.unit_ai_control s ∨ pplayer.ai_control)
      ∧ (e.unit_flag s.punit unit_flag_id.F_SETTLERS ∨ e.unit_flag s.punit unit_flag_id.F_CITIES)
      ∧ !e.unit_has_orders s then
    let s1 := if s.punit.activity = unit_activity.ACTIVITY_SENTRY then
        e.handle_unit_activity_request s unit_activity.ACTIVITY_IDLE
      else s
    let s2 := if s1.punit.activity = unit_activity.ACTIVITY_GOTO ∧ s1.moves_left > 0 then
        e.handle_unit_activity_request s1 unit_activity.ACTIVITY_IDLE
      else s1
    if s2.punit.activity = unit_activity.ACTIVITY_IDLE then
      auto_settler_findwork e.toFindworkEnv pplayer fuel s2
    else some s2
  else some s

/-- The function `auto_settlers_player(pplayer)` (settlers.c:1272-1320); `units` holds
the ids of the list `pplayer->units`, and `fuel` bounds the depth of the calls of
`auto_settler_findwork`. -/
def auto_settlers_player {W : Type} (e : PlayerEnv W) (pplayer : player) (fuel : Nat)
    (units : List Int) (s : settler_world W) : Option (settler_world W) :=
  let s1 := if pplayer.ai_control ∧ e.ai_handicap_experimental pplayer then
      e.citymap_turn_init s
    else s
  let r := initialize_infrastructure_cache e.toGameEnv s1.m pplayer s1.cities
  let s2 := { s1 with cities := r.1, m := r.2.1 }
  let pplayer2 : player :=
    { pplayer with
      warmth := e.WARMING_FACTOR * (if e.heating > e.warminglevel then 2 else 1) }
  units.foldlM (fun s3 id => auto_settlers_unit e pplayer2 fuel (e.select_unit s3 id pplayer2))
    s2

/-- The game of `stuck_env` in which no city may be built on the tile of the mission. -/
def blocked_env : FindworkEnv Unit :=
  { stuck_env with city_can_be_built_here := fun _ _ _ => false }

/-- The settler of `stuck_world` without a mission. -/
def idle_world : settler_world Unit :=
  { stuck_world with ai_role := ai_unit_task.AIUNIT_NONE }

/-- The settler of `stuck_world` sent to improve terrain. -/
def improving_world : settler_world Unit :=
  { stuck_world with ai_role := ai_unit_task.AIUNIT_AUTO_SETTLER }

/-- The settler of `stuck_world` on sentry duty. -/
def sentried_world : settler_world Unit :=
  { stuck_world with
    punit := { stuck_world.punit with activity := unit_activity.ACTIVITY_SENTRY } }

/-- The game of `founding_env` for the loop over the units of a player. -/
def founding_player_env : PlayerEnv Unit where
  toFindworkEnv := founding_env
  unit_ai_control := fun _ => false
  unit_has_orders := fun _ => false
  ai_handicap_experimental := fun _ => false
  citymap_turn_init := fun s => s
  WARMING_FACTOR := 50
  heating := 0
  warminglevel := 8
  select_unit := fun s _ _ => s

/-! ### Basic facts about the machine arithmetic -/

theorem wrap32_eq {x : Int} (h1 : -2147483648 ≤ x) (h2 : x < 2147483648) : wrap32 x = x := by
  unfold wrap32; omega

theorem shr25_eq_zero (x : Int) : x >>> (25 : Nat) = 0 ↔ 0 ≤ x ∧ x < 33554432 := by
  rw [Int.shiftRight_eq_div_pow]; norm_num; omega

theorem shr27_eq_zero (x : Int) : x >>> (27 : Nat) = 0 ↔ 0 ≤ x ∧ x < 134217728 := by
  rw [Int.shiftRight_eq_div_pow]; norm_num; omega

theorem shr28_eq_zero (x : Int) : x >>> (28 : Nat) = 0 ↔ 0 ≤ x ∧ x < 268435456 := by
  rw [Int.shiftRight_eq_div_pow]; norm_num; omega

/-! ### Progress of the loops -/

theorem amortize_batch_loop_progress (benefit denom : Int) (delay : Nat) :
    (amortize_batch_loop benefit denom delay).2.2 ≤ delay ∧
    ((amortize_batch_loop benefit denom delay).2.2 = delay →
      amortize_batch_loop benefit denom delay = (benefit, denom, delay)) := by
  induction benefit, denom, delay using amortize_batch_loop.induct with
  | case1 b dn d h ih =>
    rw [amortize_batch_loop, if_pos h]
    exact ⟨by omega, fun e => by omega⟩
  | case2 b dn d h =>
    rw [amortize_batch_loop, if_neg h]
    exact ⟨le_refl _, fun _ => rfl⟩
  | case3 b dn d h =>
    rw [amortize_batch_loop.eq_2 _ _ _ h]
    exact ⟨le_refl _, fun _ => rfl⟩

theorem amortize_step_loop_progress (benefit denom : Int) (delay : Nat) :
    (amortize_step_loop benefit denom delay).2.2 ≤ delay ∧
    ((amortize_step_loop benefit denom delay).2.2 = delay →
      amortize_step_loop benefit denom delay = (benefit, denom, delay)) := by
  induction benefit, denom, delay using amortize_step_loop.induct with
  | case1 b dn d h ih =>
    rw [amortize_step_loop, if_pos h]
    exact ⟨by omega, fun e => by omega⟩
  | case2 b dn d h =>
    rw [amortize_step_loop, if_neg h]
    exact ⟨le_refl _, fun _ => rfl⟩
  | case3 b dn =>
    rw [amortize_step_loop]
    exact ⟨le_refl _, fun _ => rfl⟩

/-- A pass of the outer loop either lowers `delay` or leaves the whole state as it
was. -/
theorem amortize_body_progress (benefit : Int) (delay : Nat) :
    (amortize_body benefit delay).2 ≤ delay ∧
    ((amortize_body benefit delay).2 = delay → amortize_body benefit delay = (benefit, delay)) := by
  have h1 := amortize_batch_loop_progress benefit 1 delay
  have h2 := amortize_step_loop_progress (amortize_batch_loop benefit 1 delay).1
    (amortize_batch_loop benefit 1 delay).2.1 (amortize_batch_loop benefit 1 delay).2.2
  have hd : (amortize_body benefit delay).2 =
      (amortize_step_loop (amortize_batch_loop benefit 1 delay).1
        (amortize_batch_loop benefit 1 delay).2.1 (amortize_batch_loop benefit 1 delay).2.2).2.2 := by
    unfold amortize_body; dsimp only; split <;> rfl
  refine ⟨by rw [hd]; omega, fun e => ?_⟩
  rw [hd] at e
  have e1 : (amortize_batch_loop benefit 1 delay).2.2 = delay := by omega
  have e2 := h1.2 e1
  have e3 := h2.2 (by omega)
  unfold amortize_body
  dsimp only
  rw [e3]
  simp [e2]

/-- A pass that changes nothing is repeated for ever: no budget is enough. -/
theorem amortize_loop_stuck (benefit : Int) (delay : Nat)
    (hc : delay > 0 ∧ benefit ≠ 0) (hs : amortize_body benefit delay = (benefit, delay)) :
    ∀ fuel, amortize_loop fuel benefit delay = none := by
  intro fuel
  induction fuel with
  | zero => rfl
  | succ n ih => rw [amortize_loop, if_pos hc, hs]; exact ih

/-- Budget adequacy: `delay + 1` tests of the loop condition decide the outcome; any
larger budget gives the same answer. -/
theorem amortize_loop_fuel (delay : Nat) :
    ∀ (benefit : Int) (fuel : Nat), delay + 1 ≤ fuel →
      amortize_loop fuel benefit delay = amortize_loop (delay + 1) benefit delay := by
  induction delay using Nat.strong_induction_on with
  | _ d ih =>
    intro b fuel hf
    obtain ⟨f, rfl⟩ : ∃ f, fuel = f + 1 := ⟨fuel - 1, by omega⟩
    rw [amortize_loop, amortize_loop]
    by_cases hc : d > 0 ∧ b ≠ 0
    · rw [if_pos hc, if_pos hc]
      have hp := amortize_body_progress b d
      by_cases he : (amortize_body b d).2 = d
      · have hs := hp.2 he
        rw [hs, amortize_loop_stuck b d hc hs, amortize_loop_stuck b d hc hs]
      · have hlt : (amortize_body b d).2 < d := by omega
        rw [ih _ hlt _ f (by omega), ih _ hlt _ d (by omega)]
    · rw [if_neg hc, if_neg hc]

/-! ### Bounds kept by the loops

`B` is the value of `benefit` at the top of the outer body; the loops keep
`benefit ≤ B * denom`, that is `benefit / denom ≤ B`. -/

theorem amortize_batch_loop_bounds (B : Int) (hB : 0 ≤ B) (benefit denom : Int) (delay : Nat) :
    0 ≤ benefit → benefit ≤ 805306368 → 1 ≤ denom → denom ≤ 671088640 →
    benefit ≤ B * denom →
    benefit ≤ (amortize_batch_loop benefit denom delay).1 ∧
    (amortize_batch_loop benefit denom delay).1 ≤ 805306368 ∧
    1 ≤ (amortize_batch_loop benefit denom delay).2.1 ∧
    (amortize_batch_loop benefit denom delay).2.1 ≤ 671088640 ∧
    (amortize_batch_loop benefit denom delay).1 ≤ B * (amortize_batch_loop benefit denom delay).2.1 := by
  induction benefit, denom, delay using amortize_batch_loop.induct with
  | case1 b dn d h ih =>
    intro h0 _ h1 _ hr
    rw [amortize_batch_loop, if_pos h]
    obtain ⟨hb, hd⟩ := h
    rw [shr28_eq_zero] at hb
    rw [shr27_eq_zero] at hd
    rw [wrap32_eq (x := b * 3) (by omega) (by omega),
      wrap32_eq (x := dn * 5) (by omega) (by omega)] at ih ⊢
    have hnn : 0 ≤ B * dn := mul_nonneg hB (by omega)
    have := ih (by omega) (by omega) (by omega) (by omega) (by linarith)
    exact ⟨by omega, this.2⟩
  | case2 b dn d h =>
    intro h0 h0' h1 h1' hr
    rw [amortize_batch_loop, if_neg h]
    exact ⟨le_refl _, h0', h1, h1', hr⟩
  | case3 b dn d h =>
    intro h0 h0' h1 h1' hr
    rw [amortize_batch_loop.eq_2 _ _ _ h]
    exact ⟨le_refl _, h0', h1, h1', hr⟩

theorem amortize_step_loop_bounds (B : Int) (hB : 0 ≤ B) (benefit denom : Int) (delay : Nat) :
    0 ≤ benefit → benefit ≤ 805306368 → 1 ≤ denom → denom ≤ 805306368 →
    benefit ≤ B * denom →
    benefit ≤ (amortize_step_loop benefit denom delay).1 ∧
    (amortize_step_loop benefit denom delay).1 ≤ 805306368 ∧
    1 ≤ (amortize_step_loop benefit denom delay).2.1 ∧
    (amortize_step_loop benefit denom delay).2.1 ≤ 805306368 ∧
    (amortize_step_loop benefit denom delay).1 ≤ B * (amortize_step_loop benefit denom delay).2.1 := by
  induction benefit, denom, delay using amortize_step_loop.induct with
  | case1 b dn d h ih =>
    intro h0 _ h1 _ hr
    rw [amortize_step_loop, if_pos h]
    obtain ⟨hb, hd⟩ := h
    rw [shr25_eq_zero] at hb hd
    have e1 : wrap32 (b * (MORT - 1)) = b * 23 := by
      rw [wrap32_eq] <;> simp only [MORT] <;> omega
    have e2 : wrap32 (dn * MORT) = dn * 24 := by
      rw [wrap32_eq] <;> simp only [MORT] <;> omega
    rw [e1, e2] at ih ⊢
    have hnn : 0 ≤ B * dn := mul_nonneg hB (by omega)
    have := ih (by omega) (by omega) (by omega) (by omega) (by linarith)
    exact ⟨by omega, this.2⟩
  | case2 b dn d h =>
    intro h0 h0' h1 h1' hr
    rw [amortize_step_loop, if_neg h]
    exact ⟨le_refl _, h0', h1, h1', hr⟩
  | case3 b dn =>
    intro h0 h0' h1 h1' hr
    rw [amortize_step_loop]
    exact ⟨le_refl _, h0', h1, h1', hr⟩

/-- The rounding division `(benefit + denom/2) / denom` of the body, on operands in the
range the loops keep, is the mathematical one and gives a value between `0` and `B`. -/
theorem amortize_round_bounds (B b dn : Int) (h0 : 0 ≤ b) (hb : b ≤ 805306368)
    (h1 : 1 ≤ dn) (hd : dn ≤ 805306368) (hr : b ≤ B * dn) :
    wrap32 (Int.tdiv (wrap32 (b + Int.tdiv dn 2)) dn) = (b + dn / 2) / dn ∧
    0 ≤ (b + dn / 2) / dn ∧ (b + dn / 2) / dn ≤ B := by
  have t1 : Int.tdiv dn 2 = dn / 2 := Int.tdiv_eq_ediv (by omega) (by omega)
  have hq0 : 0 ≤ (b + dn / 2) / dn := Int.ediv_nonneg (by omega) (by omega)
  have hqB : (b + dn / 2) / dn < B + 1 := by
    apply Int.ediv_lt_of_lt_mul (by omega)
    have : dn / 2 < dn := by omega
    linarith
  have hqb : (b + dn / 2) / dn ≤ b + dn / 2 :=
    Int.ediv_le_self _ (by omega)
  rw [t1, wrap32_eq (x := b + dn / 2) (by omega) (by omega),
    Int.tdiv_eq_ediv (by omega) (by omega), wrap32_eq (by omega) (by omega)]
  exact ⟨rfl, hq0, by omega⟩

theorem amortize_body_bounds (benefit : Int) (delay : Nat)
    (h0 : 0 ≤ benefit) (hb : benefit < 268435456) :
    0 ≤ (amortize_body benefit delay).1 ∧ (amortize_body benefit delay).1 ≤ benefit := by
  have b1 := amortize_batch_loop_bounds benefit h0 benefit 1 delay h0 (by omega) (by omega)
    (by omega) (by omega)
  have b2 := amortize_step_loop_bounds benefit h0 (amortize_batch_loop benefit 1 delay).1
    (amortize_batch_loop benefit 1 delay).2.1 (amortize_batch_loop benefit 1 delay).2.2
    (by omega) (by omega) (by omega) (by omega) b1.2.2.2.2
  unfold amortize_body
  dsimp only
  split
  · have r := amortize_round_bounds benefit _ _ (by omega) b2.2.1 b2.2.2.1 b2.2.2.2.1 b2.2.2.2.2
    rw [r.1]
    exact r.2
  · rename_i hdn
    have e : (amortize_step_loop (amortize_batch_loop benefit 1 delay).1
      (amortize_batch_loop benefit 1 delay).2.1 (amortize_batch_loop benefit 1 delay).2.2).2.1 = 1 := by
      omega
    have := b2.2.2.2.2
    rw [e] at this
    exact ⟨by omega, by omega⟩

theorem amortize_body_delay (benefit : Int) (delay : Nat) :
    (amortize_body benefit delay).2 =
      (amortize_step_loop (amortize_batch_loop benefit 1 delay).1
        (amortize_batch_loop benefit 1 delay).2.1 (amortize_batch_loop benefit 1 delay).2.2).2.2 := by
  unfold amortize_body; dsimp only; split <;> rfl

/-- Below `2^25` the second inner loop is entered whenever the first one was not, so a
pass of the outer loop lowers `delay`. -/
theorem amortize_body_delay_lt (benefit : Int) (delay : Nat)
    (h0 : 0 ≤ benefit) (hb : benefit < 33554432) (hd : 0 < delay) :
    (amortize_body benefit delay).2 < delay := by
  rw [amortize_body_delay]
  have p1 := amortize_batch_loop_progress benefit 1 delay
  have p2 := amortize_step_loop_progress (amortize_batch_loop benefit 1 delay).1
    (amortize_batch_loop benefit 1 delay).2.1 (amortize_batch_loop benefit 1 delay).2.2
  by_cases e : (amortize_batch_loop benefit 1 delay).2.2 = delay
  · rw [p1.2 e]
    dsimp only
    obtain ⟨d, rfl⟩ : ∃ d, delay = d + 1 := ⟨delay - 1, by omega⟩
    have g : benefit >>> (25 : Nat) = 0 ∧ (1 : Int) >>> (25 : Nat) = 0 := by
      rw [shr25_eq_zero, shr25_eq_zero]; omega
    rw [amortize_step_loop, if_pos g]
    have := (amortize_step_loop_progress (wrap32 (benefit * (MORT - 1))) (wrap32 (1 * MORT)) d).1
    omega
  · omega

/-- For a benefit in `[0, 2^25)` the outer loop ends, with a value between `0` and the
benefit it started from. -/
theorem amortize_loop_bounded (delay : Nat) :
    ∀ benefit : Int, 0 ≤ benefit → benefit < 33554432 →
      ∃ v, amortize_loop (delay + 1) benefit delay = some v ∧ 0 ≤ v ∧ v ≤ benefit := by
  induction delay using Nat.strong_induction_on with
  | _ d ih =>
    intro b h0 hb
    rw [amortize_loop]
    by_cases hc : d > 0 ∧ b ≠ 0
    · rw [if_pos hc]
      have hlt := amortize_body_delay_lt b d h0 hb hc.1
      have hbd := amortize_body_bounds b d h0 (by omega)
      rw [amortize_loop_fuel _ _ d (by omega)]
      obtain ⟨v, hv, hv0, hvb⟩ := ih _ hlt _ hbd.1 (by omega)
      exact ⟨v, hv, hv0, by omega⟩
    · rw [if_neg hc]
      exact ⟨b, rfl, h0, le_refl _⟩

theorem amortize_of_nonneg (benefit : Int) (delay : Nat) (h0 : 0 ≤ benefit) :
    amortize benefit delay =
      (amortize_loop (delay + 1) benefit delay).map (fun r => wrap32 (r * 1)) := by
  unfold amortize
  simp only [if_neg (not_lt.mpr h0)]

theorem amortize_bounded (benefit : Int) (delay : Nat)
    (h0 : 0 ≤ benefit) (hb : benefit < 33554432) :
    ∃ v, amortize benefit delay = some v ∧
      amortize_loop (delay + 1) benefit delay = some v ∧ 0 ≤ v ∧ v ≤ benefit := by
  obtain ⟨v, hv, hv0, hvb⟩ := amortize_loop_bounded delay benefit h0 hb
  refine ⟨v, ?_, hv, hv0, hvb⟩
  rw [amortize_of_nonneg _ _ h0, hv]
  simp only [Option.map_some', mul_one]
  rw [wrap32_eq (by omega) (by omega)]

/-! ### The claims about `amortize` -/

/-- With fewer than twelve turns left and a benefit outside `[0, 2^25)` neither inner
loop is entered and the pass changes nothing. -/
theorem amortize_body_blocked (benefit : Int) (delay : Nat)
    (hb : ¬ (benefit >>> (25 : Nat) = 0)) (hd : delay < 12) :
    amortize_body benefit delay = (benefit, delay) := by
  unfold amortize_body
  rw [amortize_batch_loop.eq_2 _ _ _ (by omega)]
  dsimp only
  rw [show amortize_step_loop benefit 1 delay = (benefit, 1, delay) from by
    cases delay with
    | zero => rw [amortize_step_loop]
    | succ d => rw [amortize_step_loop, if_neg (fun c => hb c.1)]]
  simp

/-- The outer loop never ends for a benefit of `2^25` or more and a delay between one
and eleven turns. -/
theorem amortize_loop_diverges (benefit : Int) (delay : Nat)
    (hb : 33554432 ≤ benefit) (h0 : 0 < delay) (hd : delay < 12) :
    ∀ fuel, amortize_loop fuel benefit delay = none :=
  amortize_loop_stuck benefit delay ⟨h0, by omega⟩
    (amortize_body_blocked benefit delay (by rw [shr25_eq_zero]; omega) hd)

/-- C2 (the failing input).  `amortize(33554432, 1)` never returns: with
`benefit = 2^25` and `delay = 1` neither inner loop is entered (`delay < 12` and
`benefit >> 25 = 1`), `denom` stays `1`, and the pass leaves `benefit` and `delay` as
they were; so the outer loop runs out of every budget. -/
theorem amortize_never_returns :
    amortize_body 33554432 1 = (33554432, 1) ∧
    (∀ fuel, amortize_loop fuel 33554432 1 = none) ∧
    amortize 33554432 1 = none := by
  have hs : amortize_body 33554432 1 = (33554432, 1) := by decide
  refine ⟨hs, amortize_loop_stuck _ _ (by decide) hs, ?_⟩
  unfold amortize
  simp only [amortize_loop_stuck _ _ (by decide) hs]
  decide

/-- C3.  For every 32-bit `benefit` (negative ones and `INT_MIN` included),
`amortize(benefit, 0)` returns `benefit`. -/
theorem amortize_zero_delay (benefit : Int)
    (hlo : -2147483648 ≤ benefit) (hhi : benefit < 2147483648) :
    amortize benefit 0 = some benefit := by
  unfold amortize
  simp only [amortize_loop, Nat.lt_irrefl, false_and, if_false, Option.map_some',
    gt_iff_lt]
  congr 1
  unfold wrap32
  split <;> omega

theorem amortize_zero_delay_witness :
    amortize (-2147483648) 0 = some (-2147483648) :=
  amortize_zero_delay (-2147483648) (by decide) (by decide)

/-- C4.  For `0 ≤ b < 2^25` and every delay both calls return, and
`amortize(-b, d) = -amortize(b, d)`. -/
theorem amortize_neg (b : Int) (d : Nat) (h0 : 0 ≤ b) (hb : b < 33554432) :
    ∃ v, amortize b d = some v ∧ amortize (-b) d = some (-v) := by
  obtain ⟨v, hv, hl, hv0, hvb⟩ := amortize_bounded b d h0 hb
  refine ⟨v, hv, ?_⟩
  by_cases hz : b = 0
  · subst hz
    have : v = 0 := by omega
    subst this
    simpa using hv
  · have hneg : -b < 0 := by omega
    unfold amortize
    simp only [if_pos hneg]
    have e : wrap32 (-b * -1) = b := by
      rw [wrap32_eq] <;> omega
    rw [e, hl]
    simp only [Option.map_some']
    rw [wrap32_eq] <;> [skip; omega; omega]
    congr 1
    omega

theorem amortize_neg_witness :
    ∃ v, amortize 1000 30 = some v ∧ amortize (-1000) 30 = some (-v) :=
  amortize_neg 1000 30 (by decide) (by decide)

/-- C6.  For `0 ≤ b < 2^25`: one turn of delay gives `(23*b + 12) / 24` and twelve turns
(one batch) give `(3*b + 2) / 5`. -/
theorem amortize_one_and_twelve (b : Int) (h0 : 0 ≤ b) (hb : b < 33554432) :
    amortize b 1 = some ((23 * b + 12) / 24) ∧ amortize b 12 = some ((3 * b + 2) / 5) := by
  rw [amortize_of_nonneg _ _ h0, amortize_of_nonneg _ _ h0]
  by_cases hz : b = 0
  · subst hz
    decide
  · have g25 : b >>> (25 : Nat) = 0 ∧ (1 : Int) >>> (25 : Nat) = 0 := by
      rw [shr25_eq_zero, shr25_eq_zero]; omega
    have g28 : b >>> (28 : Nat) = 0 ∧ (1 : Int) >>> (27 : Nat) = 0 := by
      rw [shr28_eq_zero, shr27_eq_zero]; omega
    have r1 := amortize_round_bounds b (b * 23) 24 (by omega) (by omega) (by omega)
      (by omega) (by omega)
    have r12 := amortize_round_bounds b (b * 3) 5 (by omega) (by omega) (by omega)
      (by omega) (by omega)
    have s1 : amortize_step_loop b 1 1 = (b * 23, 24, 0) := by
      have e1 : wrap32 (b * (MORT - 1)) = b * 23 := by
        rw [wrap32_eq] <;> simp only [MORT] <;> omega
      have e2 : wrap32 (1 * MORT) = 24 := by decide
      rw [amortize_step_loop, if_pos g25, amortize_step_loop, e1, e2]
    have s12 : amortize_batch_loop b 1 12 = (b * 3, 5, 0) := by
      rw [show (12 : Nat) = 0 + 12 from rfl, amortize_batch_loop, if_pos g28,
        amortize_batch_loop.eq_2 _ _ _ (by omega)]
      have e1 : wrap32 (b * 3) = b * 3 := by
        rw [wrap32_eq] <;> omega
      have e2 : wrap32 (1 * 5) = 5 := by decide
      rw [e1, e2]
    have b1 : amortize_body b 1 = ((23 * b + 12) / 24, 0) := by
      unfold amortize_body
      rw [show amortize_batch_loop b 1 1 = (b, 1, 1) from
        amortize_batch_loop.eq_2 _ _ _ (by omega)]
      dsimp only
      rw [s1]
      dsimp only
      rw [if_pos (by decide), r1.1]
      congr 2
      omega
    have b12 : amortize_body b 12 = ((3 * b + 2) / 5, 0) := by
      unfold amortize_body
      rw [s12]
      dsimp only
      rw [show amortize_step_loop (b * 3) 5 0 = (b * 3, 5, 0) by rw [amortize_step_loop]]
      dsimp only
      rw [if_pos (by decide), r12.1]
      congr 2
      omega
    constructor
    · rw [amortize_loop, if_pos ⟨by decide, hz⟩, b1]
      dsimp only
      rw [amortize_loop, if_neg (by simp)]
      simp only [Option.map_some', mul_one]
      rw [wrap32_eq] <;> omega
    · rw [amortize_loop, if_pos ⟨by decide, hz⟩, b12]
      dsimp only
      rw [amortize_loop, if_neg (by simp)]
      simp only [Option.map_some', mul_one]
      rw [wrap32_eq] <;> omega

theorem amortize_one_and_twelve_witness :
    amortize 1000 1 = some ((23 * 1000 + 12) / 24) ∧
    amortize 1000 12 = some ((3 * 1000 + 2) / 5) :=
  amortize_one_and_twelve 1000 (by decide) (by decide)

/-! ### The 32-bit run against the run over the integers -/

theorem amortize_exact_batch_loop_sim (benefit denom : Int) (delay : Nat) :
    0 ≤ benefit → benefit ≤ 805306368 → 1 ≤ denom → denom ≤ 671088640 →
    (amortize_exact_batch_loop benefit denom delay).1 = amortize_batch_loop benefit denom delay ∧
    ∀ x ∈ (amortize_exact_batch_loop benefit denom delay).2, 0 ≤ x ∧ x ≤ 805306368 := by
  induction benefit, denom, delay using amortize_batch_loop.induct with
  | case1 b dn d h ih =>
    intro h0 _ h1 _
    rw [amortize_batch_loop, if_pos h, amortize_exact_batch_loop, if_pos h]
    obtain ⟨hb, hd⟩ := h
    rw [shr28_eq_zero] at hb
    rw [shr27_eq_zero] at hd
    rw [wrap32_eq (x := b * 3) (by omega) (by omega),
      wrap32_eq (x := dn * 5) (by omega) (by omega)] at ih ⊢
    have := ih (by omega) (by omega) (by omega) (by omega)
    refine ⟨this.1, ?_⟩
    intro x hx
    simp only [List.mem_cons] at hx
    rcases hx with rfl | rfl | hx
    · omega
    · omega
    · exact this.2 x hx
  | case2 b dn d h =>
    intro _ _ _ _
    rw [amortize_batch_loop, if_neg h, amortize_exact_batch_loop, if_neg h]
    exact ⟨rfl, by simp⟩
  | case3 b dn d h =>
    intro _ _ _ _
    rw [amortize_batch_loop.eq_2 _ _ _ h, amortize_exact_batch_loop.eq_2 _ _ _ h]
    exact ⟨rfl, by simp⟩

theorem amortize_exact_step_loop_sim (benefit denom : Int) (delay : Nat) :
    0 ≤ benefit → benefit ≤ 805306368 → 1 ≤ denom → denom ≤ 805306368 →
    (amortize_exact_step_loop benefit denom delay).1 = amortize_step_loop benefit denom delay ∧
    ∀ x ∈ (amortize_exact_step_loop benefit denom delay).2, 0 ≤ x ∧ x ≤ 805306368 := by
  induction benefit, denom, delay using amortize_step_loop.induct with
  | case1 b dn d h ih =>
    intro h0 _ h1 _
    rw [amortize_step_loop, if_pos h, amortize_exact_step_loop, if_pos h]
    obtain ⟨hb, hd⟩ := h
    rw [shr25_eq_zero] at hb hd
    have e1 : wrap32 (b * (MORT - 1)) = b * (MORT - 1) := by
      rw [wrap32_eq] <;> simp only [MORT] <;> omega
    have e2 : wrap32 (dn * MORT) = dn * MORT := by
      rw [wrap32_eq] <;> simp only [MORT] <;> omega
    rw [e1, e2] at ih ⊢
    have := ih (by simp only [MORT]; omega) (by simp only [MORT]; omega)
      (by simp only [MORT]; omega) (by simp only [MORT]; omega)
    refine ⟨this.1, ?_⟩
    intro x hx
    simp only [List.mem_cons] at hx
    rcases hx with rfl | rfl | hx
    · simp only [MORT]; omega
    · simp only [MORT]; omega
    · exact this.2 x hx
  | case2 b dn d h =>
    intro _ _ _ _
    rw [amortize_step_loop, if_neg h, amortize_exact_step_loop, if_neg h]
    exact ⟨rfl, by simp⟩
  | case3 b dn =>
    intro _ _ _ _
    rw [amortize_step_loop, amortize_exact_step_loop]
    exact ⟨rfl, by simp⟩

theorem amortize_exact_body_sim (benefit : Int) (delay : Nat)
    (h0 : 0 ≤ benefit) (hb : benefit < 268435456) :
    (amortize_exact_body benefit delay).1 = amortize_body benefit delay ∧
    ∀ x ∈ (amortize_exact_body benefit delay).2, 0 ≤ x ∧ x ≤ 1207959552 := by
  have s1 := amortize_exact_batch_loop_sim benefit 1 delay h0 (by omega) (by omega) (by omega)
  have b1 := amortize_batch_loop_bounds benefit h0 benefit 1 delay h0 (by omega) (by omega)
    (by omega) (by omega)
  have s2 := amortize_exact_step_loop_sim (amortize_batch_loop benefit 1 delay).1
    (amortize_batch_loop benefit 1 delay).2.1 (amortize_batch_loop benefit 1 delay).2.2
    (by omega) (by omega) (by omega) (by omega)
  have b2 := amortize_step_loop_bounds benefit h0 (amortize_batch_loop benefit 1 delay).1
    (amortize_batch_loop benefit 1 delay).2.1 (amortize_batch_loop benefit 1 delay).2.2
    (by omega) (by omega) (by omega) (by omega) b1.2.2.2.2
  have r := amortize_round_bounds benefit _ _ (by omega) b2.2.1 b2.2.2.1 b2.2.2.2.1 b2.2.2.2.2
  have t1 : ∀ x ∈ (amortize_exact_batch_loop benefit 1 delay).2, 0 ≤ x ∧ x ≤ 1207959552 :=
    fun x hx => ⟨(s1.2 x hx).1, by have := (s1.2 x hx).2; omega⟩
  have t2 : ∀ x ∈ (amortize_exact_step_loop (amortize_batch_loop benefit 1 delay).1
      (amortize_batch_loop benefit 1 delay).2.1 (amortize_batch_loop benefit 1 delay).2.2).2,
      0 ≤ x ∧ x ≤ 1207959552 :=
    fun x hx => ⟨(s2.2 x hx).1, by have := (s2.2 x hx).2; omega⟩
  unfold amortize_exact_body amortize_body
  dsimp only
  rw [s1.1, s2.1]
  split
  · rename_i hdn
    dsimp only
    have e1 : Int.tdiv (amortize_step_loop (amortize_batch_loop benefit 1 delay).1
        (amortize_batch_loop benefit 1 delay).2.1 (amortize_batch_loop benefit 1 delay).2.2).2.1 2
        = (amortize_step_loop (amortize_batch_loop benefit 1 delay).1
        (amortize_batch_loop benefit 1 delay).2.1 (amortize_batch_loop benefit 1 delay).2.2).2.1 / 2 :=
      Int.tdiv_eq_ediv (by omega) (by omega)
    rw [r.1, e1, Int.tdiv_eq_ediv (by omega) (by omega)]
    refine ⟨rfl, ?_⟩
    intro x hx
    simp only [List.mem_cons, List.mem_append, List.mem_singleton, List.not_mem_nil,
      or_false] at hx
    rcases hx with ((rfl | hx) | hx) | rfl | rfl
    · omega
    · exact t1 x hx
    · exact t2 x hx
    · omega
    · omega
  · refine ⟨rfl, ?_⟩
    intro x hx
    simp only [List.mem_cons, List.mem_append] at hx
    rcases hx with (rfl | hx) | hx
    · omega
    · exact t1 x hx
    · exact t2 x hx

theorem amortize_exact_loop_sim (fuel : Nat) :
    ∀ (benefit : Int) (delay : Nat), 0 ≤ benefit → benefit < 268435456 →
      (amortize_exact_loop fuel benefit delay).map Prod.fst = amortize_loop fuel benefit delay ∧
      ∀ q, amortize_exact_loop fuel benefit delay = some q →
        ∀ x ∈ q.2, 0 ≤ x ∧ x ≤ 1207959552 := by
  induction fuel with
  | zero =>
    intro b d _ _
    exact ⟨rfl, fun q hq => by simp [amortize_exact_loop] at hq⟩
  | succ n ih =>
    intro b d h0 hb
    rw [amortize_exact_loop, amortize_loop]
    by_cases hc : d > 0 ∧ b ≠ 0
    · rw [if_pos hc, if_pos hc]
      have sb := amortize_exact_body_sim b d h0 hb
      have bb := amortize_body_bounds b d h0 hb
      dsimp only
      rw [sb.1]
      have := ih (amortize_body b d).1 (amortize_body b d).2 bb.1 (by omega)
      refine ⟨?_, ?_⟩
      · rw [← this.1, Option.map_map]
        rfl
      · intro q hq x hx
        cases hr : amortize_exact_loop n (amortize_body b d).1 (amortize_body b d).2 with
        | none => rw [hr] at hq; simp at hq
        | some q1 =>
          rw [hr] at hq
          simp only [Option.map_some', Option.some.injEq] at hq
          subst hq
          simp only [List.mem_append] at hx
          rcases hx with hx | hx
          · exact sb.2 x hx
          · exact this.2 q1 hr x hx
    · rw [if_neg hc, if_neg hc]
      refine ⟨rfl, ?_⟩
      intro q hq x hx
      simp only [Option.some.injEq] at hq
      subst hq
      simp at hx

/-- C5.  For `0 ≤ b < 2^25` and every delay, the run over unbounded integers returns a
value `v`; every value of `benefit`, `denom` and `benefit + denom/2` it meets lies in
`[0, 2^31 - 1]`; and the 32-bit `amortize` returns the same `v`. -/
theorem amortize_no_overflow (b : Int) (d : Nat) (h0 : 0 ≤ b) (hb : b < 33554432) :
    ∃ v tr, amortize_exact b d = some (v, tr) ∧
      (∀ x ∈ tr, 0 ≤ x ∧ x ≤ 2147483647) ∧ amortize b d = some v := by
  obtain ⟨v, hv, hl, hv0, hvb⟩ := amortize_bounded b d h0 hb
  have sim := amortize_exact_loop_sim (d + 1) b d h0 (by omega)
  rw [hl] at sim
  cases hr : amortize_exact_loop (d + 1) b d with
  | none => rw [hr] at sim; simp at sim
  | some q =>
    rw [hr] at sim
    have hq1 : q.1 = v := by simpa using sim.1
    refine ⟨v, b :: q.2 ++ [v], ?_, ?_, hv⟩
    · unfold amortize_exact
      simp only [if_neg (not_lt.mpr h0), hr, Option.map_some', mul_one, hq1]
    · intro x hx
      simp only [List.mem_cons, List.mem_append, List.mem_singleton, List.not_mem_nil,
        or_false] at hx
      rcases hx with (rfl | hx) | rfl
      · omega
      · have := sim.2 q rfl x hx
        omega
      · omega

theorem amortize_no_overflow_witness :
    ∃ v tr, amortize_exact 33554431 40 = some (v, tr) ∧
      (∀ x ∈ tr, 0 ≤ x ∧ x ≤ 2147483647) ∧ amortize 33554431 40 = some v :=
  amortize_no_overflow 33554431 40 (by decide) (by decide)

/-! ### One more turn of delay inside a block of twelve never gives more -/

/-- The second inner loop started with one more turn of delay: either it was stopped
by its bit tests and the extra turn is left over, or it used the whole delay and
performs exactly one more multiplication. -/
theorem amortize_step_loop_succ (benefit denom : Int) (delay : Nat) :
    amortize_step_loop benefit denom (delay + 1) =
      ((amortize_step_loop benefit denom delay).1, (amortize_step_loop benefit denom delay).2.1,
        (amortize_step_loop benefit denom delay).2.2 + 1) ∨
    ((amortize_step_loop benefit denom delay).2.2 = 0 ∧
      ((amortize_step_loop benefit denom delay).1 >>> (25 : Nat) = 0 ∧
        (amortize_step_loop benefit denom delay).2.1 >>> (25 : Nat) = 0) ∧
      amortize_step_loop benefit denom (delay + 1) =
        (wrap32 ((amortize_step_loop benefit denom delay).1 * (MORT - 1)),
          wrap32 ((amortize_step_loop benefit denom delay).2.1 * MORT), 0)) := by
  induction benefit, denom, delay using amortize_step_loop.induct with
  | case1 b dn d h ih =>
    rw [amortize_step_loop, if_pos h, amortize_step_loop.eq_1 b dn d, if_pos h]
    exact ih
  | case2 b dn d h =>
    rw [amortize_step_loop, if_neg h, amortize_step_loop.eq_1 b dn d, if_neg h]
    exact Or.inl rfl
  | case3 b dn =>
    rw [amortize_step_loop.eq_2]
    by_cases h : b >>> (25 : Nat) = 0 ∧ dn >>> (25 : Nat) = 0
    · rw [amortize_step_loop, if_pos h, amortize_step_loop.eq_2]
      exact Or.inr ⟨rfl, h, rfl⟩
    · rw [amortize_step_loop, if_neg h]
      exact Or.inl rfl

/-- The second inner loop is not entered when its bit tests fail. -/
theorem amortize_step_loop_blocked (benefit denom : Int) (delay : Nat)
    (h : ¬ (benefit >>> (25 : Nat) = 0 ∧ denom >>> (25 : Nat) = 0)) :
    amortize_step_loop benefit denom delay = (benefit, denom, delay) := by
  cases delay with
  | zero => rw [amortize_step_loop]
  | succ d => rw [amortize_step_loop, if_neg h]

theorem amortize_batch_loop_small (benefit denom : Int) (delay : Nat) (hd : delay < 12) :
    amortize_batch_loop benefit denom delay = (benefit, denom, delay) :=
  amortize_batch_loop.eq_2 _ _ _ (by omega)

/-- The first inner loop takes whole batches: the delay it leaves is the delay it got,
modulo twelve. -/
theorem amortize_batch_loop_mod (benefit denom : Int) (delay : Nat) :
    (amortize_batch_loop benefit denom delay).2.2 % 12 = delay % 12 := by
  induction benefit, denom, delay using amortize_batch_loop.induct with
  | case1 b dn d h ih =>
    rw [amortize_batch_loop, if_pos h, ih]
    omega
  | case2 b dn d h =>
    rw [amortize_batch_loop, if_neg h]
  | case3 b dn d h =>
    rw [amortize_batch_loop.eq_2 _ _ _ h]

/-- When the first inner loop is left, fewer than twelve turns remain or its bit tests
fail. -/
theorem amortize_batch_loop_exit (benefit denom : Int) (delay : Nat) :
    (amortize_batch_loop benefit denom delay).2.2 < 12 ∨
    ¬ ((amortize_batch_loop benefit denom delay).1 >>> (28 : Nat) = 0 ∧
      (amortize_batch_loop benefit denom delay).2.1 >>> (27 : Nat) = 0) := by
  induction benefit, denom, delay using amortize_batch_loop.induct with
  | case1 b dn d h ih =>
    rw [amortize_batch_loop, if_pos h]
    exact ih
  | case2 b dn d h =>
    rw [amortize_batch_loop, if_neg h]
    exact Or.inr h
  | case3 b dn d h =>
    rw [amortize_batch_loop.eq_2 _ _ _ h]
    refine Or.inl ?_
    show d < 12
    by_contra hc
    exact h (d - 12) (by omega)

/-- One more turn of delay that does not complete a batch is left over by the first
inner loop. -/
theorem amortize_batch_loop_succ (benefit denom : Int) (delay : Nat)
    (hd : (delay + 1) % 12 ≠ 0) :
    amortize_batch_loop benefit denom (delay + 1) =
      ((amortize_batch_loop benefit denom delay).1, (amortize_batch_loop benefit denom delay).2.1,
        (amortize_batch_loop benefit denom delay).2.2 + 1) := by
  induction benefit, denom, delay using amortize_batch_loop.induct with
  | case1 b dn d h ih =>
    have e : amortize_batch_loop b dn (d + 12 + 1) =
        amortize_batch_loop (wrap32 (b * 3)) (wrap32 (dn * 5)) (d + 1) := by
      rw [show d + 12 + 1 = (d + 1) + 12 from by omega, amortize_batch_loop, if_pos h]
    show amortize_batch_loop b dn (d + 12 + 1) =
      ((amortize_batch_loop b dn (d + 12)).1, (amortize_batch_loop b dn (d + 12)).2.1,
        (amortize_batch_loop b dn (d + 12)).2.2 + 1)
    rw [e, amortize_batch_loop.eq_1 b dn d, if_pos h]
    exact ih (by omega)
  | case2 b dn d h =>
    have e : amortize_batch_loop b dn (d + 12 + 1) = (b, dn, d + 12 + 1) := by
      rw [show d + 12 + 1 = (d + 1) + 12 from by omega, amortize_batch_loop, if_neg h]
    show amortize_batch_loop b dn (d + 12 + 1) =
      ((amortize_batch_loop b dn (d + 12)).1, (amortize_batch_loop b dn (d + 12)).2.1,
        (amortize_batch_loop b dn (d + 12)).2.2 + 1)
    rw [e, amortize_batch_loop.eq_1 b dn d, if_neg h]
  | case3 b dn d h =>
    have hlt : d < 12 := by
      by_contra hc
      exact h (d - 12) (by omega)
    rw [amortize_batch_loop_small _ _ _ hlt, amortize_batch_loop_small _ _ _ (by omega)]

/-- For a benefit in `[0, 2^28)` the body is the two loops followed by the rounding
division (which for `denom = 1` returns `benefit` itself). -/
theorem amortize_body_eq (b : Int) (d : Nat) (h0 : 0 ≤ b) (hb : b < 268435456) :
    amortize_body b d =
      (((amortize_step_loop (amortize_batch_loop b 1 d).1 (amortize_batch_loop b 1 d).2.1
            (amortize_batch_loop b 1 d).2.2).1 +
          (amortize_step_loop (amortize_batch_loop b 1 d).1 (amortize_batch_loop b 1 d).2.1
            (amortize_batch_loop b 1 d).2.2).2.1 / 2) /
        (amortize_step_loop (amortize_batch_loop b 1 d).1 (amortize_batch_loop b 1 d).2.1
            (amortize_batch_loop b 1 d).2.2).2.1,
        (amortize_step_loop (amortize_batch_loop b 1 d).1 (amortize_batch_loop b 1 d).2.1
            (amortize_batch_loop b 1 d).2.2).2.2) := by
  have b1 := amortize_batch_loop_bounds b h0 b 1 d h0 (by omega) (by omega) (by omega) (by omega)
  have b2 := amortize_step_loop_bounds b h0 (amortize_batch_loop b 1 d).1
    (amortize_batch_loop b 1 d).2.1 (amortize_batch_loop b 1 d).2.2
    (by omega) (by omega) (by omega) (by omega) b1.2.2.2.2
  have r := amortize_round_bounds b _ _ (by omega) b2.2.1 b2.2.2.1 b2.2.2.2.1 b2.2.2.2.2
  unfold amortize_body
  dsimp only
  split
  · rw [r.1]
  · rename_i hdn
    have e : (amortize_step_loop (amortize_batch_loop b 1 d).1 (amortize_batch_loop b 1 d).2.1
        (amortize_batch_loop b 1 d).2.2).2.1 = 1 := by omega
    rw [e]
    simp

/-- Rounding after one more multiplication by `23/24` never gives more. -/
theorem amortize_round_step_le (x dn : Int) (hx : 0 ≤ x) (hdn : 1 ≤ dn) :
    (x * 23 + dn * 24 / 2) / (dn * 24) ≤ (x + dn / 2) / dn := by
  have hq0 : 0 ≤ (x + dn / 2) / dn := Int.ediv_nonneg (by omega) (by omega)
  have hlt : x + dn / 2 < ((x + dn / 2) / dn + 1) * dn :=
    Int.lt_ediv_add_one_mul_self _ (by omega)
  have hqd : 0 ≤ (x + dn / 2) / dn * dn := mul_nonneg hq0 (by omega)
  have e : dn * 24 / 2 = dn * 12 := by omega
  have hh : dn ≤ 2 * (dn / 2) + 1 := by omega
  rw [e]
  apply Int.lt_add_one_iff.mp
  apply Int.ediv_lt_of_lt_mul (by omega)
  nlinarith

theorem amortize_loop_zero_delay (fuel : Nat) (b : Int) :
    amortize_loop (fuel + 1) b 0 = some b := by
  rw [amortize_loop, if_neg (by simp)]

/-- One more turn of delay, when it does not complete a batch of twelve, never gives a
larger result. -/
theorem amortize_loop_succ_le (delay : Nat) :
    ∀ b : Int, (delay + 1) % 12 ≠ 0 → 0 ≤ b → b < 33554432 →
      ∀ v v2, amortize_loop (delay + 1) b delay = some v →
        amortize_loop (delay + 2) b (delay + 1) = some v2 → v2 ≤ v := by
  induction delay using Nat.strong_induction_on with
  | _ d ih =>
    intro b hd h0 hb v v2 hv hv2
    by_cases hz : b = 0
    · subst hz
      rw [amortize_loop, if_neg (by simp)] at hv hv2
      simp only [Option.some.injEq] at hv hv2
      omega
    rcases Nat.eq_zero_or_pos d with rfl | hpos
    · rw [amortize_loop_zero_delay] at hv
      obtain ⟨w, hw, _, hwb⟩ := amortize_loop_bounded 1 b h0 hb
      rw [hw] at hv2
      simp only [Option.some.injEq] at hv hv2
      omega
    · have hlt := amortize_body_delay_lt b d h0 hb hpos
      have hbd := amortize_body_bounds b d h0 (by omega)
      rw [amortize_loop, if_pos ⟨hpos, hz⟩] at hv
      rw [amortize_loop, if_pos ⟨by omega, hz⟩] at hv2
      rw [amortize_body_eq b d h0 (by omega)] at hv hlt hbd
      rw [amortize_body_eq b (d + 1) h0 (by omega), amortize_batch_loop_succ b 1 d hd] at hv2
      dsimp only at hv hv2 hlt hbd
      have hm := amortize_batch_loop_mod b 1 d
      have hx := amortize_batch_loop_exit b 1 d
      have b1 := amortize_batch_loop_bounds b h0 b 1 d h0 (by omega) (by omega) (by omega)
        (by omega)
      have p2 := (amortize_step_loop_progress (amortize_batch_loop b 1 d).1
        (amortize_batch_loop b 1 d).2.1 (amortize_batch_loop b 1 d).2.2).1
      have b2 := amortize_step_loop_bounds b h0 (amortize_batch_loop b 1 d).1
        (amortize_batch_loop b 1 d).2.1 (amortize_batch_loop b 1 d).2.2
        (by omega) (by omega) (by omega) (by omega) b1.2.2.2.2
      rcases amortize_step_loop_succ (amortize_batch_loop b 1 d).1
        (amortize_batch_loop b 1 d).2.1 (amortize_batch_loop b 1 d).2.2 with e | ⟨e0, g, e⟩
      · rw [e] at hv2
        dsimp only at hv2
        rw [amortize_loop_fuel _ _ d (by omega)] at hv
        rw [amortize_loop_fuel _ _ (d + 1) (by omega)] at hv2
        have hmod : ((amortize_step_loop (amortize_batch_loop b 1 d).1
            (amortize_batch_loop b 1 d).2.1 (amortize_batch_loop b 1 d).2.2).2.2 + 1) % 12 ≠ 0 := by
          rcases hx with hx | hx
          · omega
          · have hblk : ¬ ((amortize_batch_loop b 1 d).1 >>> (25 : Nat) = 0 ∧
                (amortize_batch_loop b 1 d).2.1 >>> (25 : Nat) = 0) := by
              intro c
              apply hx
              rw [shr25_eq_zero, shr25_eq_zero] at c
              rw [shr28_eq_zero, shr27_eq_zero]
              omega
            rw [amortize_step_loop_blocked _ _ _ hblk]
            dsimp only
            omega
        exact ih _ hlt _ hmod hbd.1 (by omega) v v2 hv hv2
      · rw [shr25_eq_zero, shr25_eq_zero] at g
        have e1 : wrap32 ((amortize_step_loop (amortize_batch_loop b 1 d).1
            (amortize_batch_loop b 1 d).2.1 (amortize_batch_loop b 1 d).2.2).1 * (MORT - 1)) =
            (amortize_step_loop (amortize_batch_loop b 1 d).1
            (amortize_batch_loop b 1 d).2.1 (amortize_batch_loop b 1 d).2.2).1 * 23 := by
          rw [wrap32_eq] <;> simp only [MORT] <;> omega
        have e2 : wrap32 ((amortize_step_loop (amortize_batch_loop b 1 d).1
            (amortize_batch_loop b 1 d).2.1 (amortize_batch_loop b 1 d).2.2).2.1 * MORT) =
            (amortize_step_loop (amortize_batch_loop b 1 d).1
            (amortize_batch_loop b 1 d).2.1 (amortize_batch_loop b 1 d).2.2).2.1 * 24 := by
          rw [wrap32_eq] <;> simp only [MORT] <;> omega
        rw [e, e1, e2] at hv2
        dsimp only at hv2
        rw [amortize_loop_zero_delay] at hv2
        rw [e0] at hv
        obtain ⟨n, rfl⟩ : ∃ n, d = n + 1 := ⟨d - 1, by omega⟩
        rw [amortize_loop_zero_delay] at hv
        simp only [Option.some.injEq] at hv hv2
        rw [← hv, ← hv2]
        exact amortize_round_step_le _ _ (by omega) (by omega)

theorem amortize_loop_antitone_block (b : Int) (h0 : 0 ≤ b) (hb : b < 33554432)
    (d1 d2 : Nat) (hle : d1 ≤ d2) :
    d1 / 12 = d2 / 12 → ∀ v1 v2, amortize_loop (d1 + 1) b d1 = some v1 →
      amortize_loop (d2 + 1) b d2 = some v2 → v2 ≤ v1 := by
  induction d2, hle using Nat.le_induction with
  | base =>
    intro _ v1 v2 h1 h2
    rw [h1] at h2
    simp only [Option.some.injEq] at h2
    omega
  | succ n hn ih =>
    intro hd v1 v2 h1 h2
    obtain ⟨w, hw, _, _⟩ := amortize_loop_bounded n b h0 hb
    have s1 := amortize_loop_succ_le n b (by omega) h0 hb w v2 hw h2
    have s2 := ih (by omega) v1 w h1 hw
    omega

/-- C1 (counterexample).  With benefit `7`, `amortize(7, 23) = 2` but
`amortize(7, 24) = 3`: the longer delay gives the larger value. -/
theorem amortize_not_antitone :
    (0 : Int) ≤ 7 ∧ (7 : Int) < 2 ^ 25 ∧ 23 < 24 ∧
    amortize 7 23 = some 2 ∧ amortize 7 24 = some 3 ∧
    ¬ (∃ v1 v2, amortize 7 23 = some v1 ∧ amortize 7 24 = some v2 ∧ v2 ≤ v1) := by
  have h23 : amortize 7 23 = some 2 := by decide
  have h24 : amortize 7 24 = some 3 := by decide
  refine ⟨by decide, by decide, by decide, h23, h24, ?_⟩
  rintro ⟨v1, v2, e1, e2, hle⟩
  rw [h23] at e1
  rw [h24] at e2
  simp only [Option.some.injEq] at e1 e2
  omega

/-- C1 (amended).  For `0 ≤ b < 2^25` and delays `d1 < d2` with `d1 = 0`, or with `d1`
and `d2` in the same block of twelve turns (`d1 / 12 = d2 / 12`, so that both runs take
the same batches), both calls return and `amortize(b, d2) ≤ amortize(b, d1)`. -/
theorem amortize_antitone_block (b : Int) (d1 d2 : Nat) (h0 : 0 ≤ b) (hb : b < 33554432)
    (hlt : d1 < d2) (hd : d1 = 0 ∨ d1 / 12 = d2 / 12) :
    ∃ v1 v2, amortize b d1 = some v1 ∧ amortize b d2 = some v2 ∧ v2 ≤ v1 := by
  obtain ⟨v1, hv1, hl1, _, _⟩ := amortize_bounded b d1 h0 hb
  obtain ⟨v2, hv2, hl2, _, hv2b⟩ := amortize_bounded b d2 h0 hb
  refine ⟨v1, v2, hv1, hv2, ?_⟩
  rcases hd with rfl | hd
  · rw [amortize_loop_zero_delay] at hl1
    simp only [Option.some.injEq] at hl1
    omega
  · exact amortize_loop_antitone_block b h0 hb d1 d2 (by omega) hd v1 v2 hl1 hl2

theorem amortize_antitone_block_witness :
    ∃ v1 v2, amortize 7 12 = some v1 ∧ amortize 7 23 = some v2 ∧ v2 ≤ v1 :=
  amortize_antitone_block 7 12 23 (by decide) (by decide) (by decide) (Or.inr (by decide))

/-! ## The simulators

### Bitmasks and the map -/

theorem and_not_testBit (a b i : Nat) :
    (and_not a b).testBit i = (a.testBit i && !b.testBit i) := by
  unfold and_not
  rw [Nat.testBit_xor, Nat.testBit_and]
  cases a.testBit i <;> cases b.testBit i <;> rfl

theorem contains_special_two_pow (s k : Nat) :
    contains_special s (2 ^ k) = s.testBit k := by
  unfold contains_special
  rw [Nat.and_two_pow]
  have hp : 0 < 2 ^ k := Nat.two_pow_pos k
  cases s.testBit k
  · simp only [Bool.toNat_false, zero_mul, beq_eq_false_iff_ne, ne_eq]
    omega
  · simp

/-- Clearing a flag that is present and setting it again gives the bitmask back. -/
theorem and_not_or_self (s f : Nat) (h : contains_special s f = true) :
    and_not s f ||| f = s := by
  unfold contains_special at h
  have hf : s &&& f = f := by simpa using h
  apply Nat.eq_of_testBit_eq
  intro i
  have hi : (s.testBit i && f.testBit i) = f.testBit i := by
    rw [← Nat.testBit_and, hf]
  rw [Nat.testBit_or, and_not_testBit]
  revert hi
  cases s.testBit i <;> cases f.testBit i <;> simp

/-- Setting a one-bit flag that is absent and clearing it again gives the bitmask
back. -/
theorem or_and_not_self (s k : Nat) (h : contains_special s (2 ^ k) = false) :
    and_not (s ||| 2 ^ k) (2 ^ k) = s := by
  rw [contains_special_two_pow] at h
  apply Nat.eq_of_testBit_eq
  intro i
  rw [and_not_testBit, Nat.testBit_or, Nat.testBit_two_pow]
  by_cases e : k = i
  · subst e
    simp [h]
  · simp [e]

theorem map_get_tile_set_tile (m : civ_map) (x y : Int) (t : tile) :
    map_get_tile (set_tile m x y t) x y = t := by
  simp [map_get_tile, set_tile]

theorem set_tile_set_tile (m : civ_map) (x y : Int) (t t2 : tile) :
    set_tile (set_tile m x y t) x y t2 = set_tile m x y t2 := by
  unfold set_tile
  congr 1
  funext a b
  dsimp only
  split <;> rfl

theorem set_tile_self (m : civ_map) (x y : Int) :
    set_tile m x y (map_get_tile m x y) = m := by
  cases m with
  | mk tiles =>
    unfold set_tile map_get_tile
    congr 1
    funext a b
    dsimp only
    split
    · rename_i h
      rw [h.1, h.2]
    · rfl

/-- Writing back the saved terrain and the saved flags, after any number of writes to
the same tile that did not touch its `city` field, restores the map. -/
theorem set_tile_restore (m : civ_map) (x y : Int) (ter : Terrain_type_id) (spe : Nat)
    (ht : ter = (map_get_tile m x y).terrain) (hs : spe = (map_get_tile m x y).special) :
    set_tile m x y { terrain := ter, special := spe, city := (map_get_tile m x y).city } = m := by
  subst ht hs
  exact set_tile_self m x y

theorem or_and_not_flag (s f k : Nat) (hf : f = 2 ^ k) (h : contains_special s f = false) :
    and_not (s ||| f) f = s := by
  subst hf
  exact or_and_not_self s k h

/-! ### Every simulator leaves the map as it found it -/

theorem ai_calc_pollution_map (g : Env) (m : civ_map) (pcity : city)
    (city_x city_y best map_x map_y : Int) :
    (ai_calc_pollution g m pcity city_x city_y best map_x map_y).2 = m := by
  unfold ai_calc_pollution
  split
  · rfl
  · rename_i h
    have hp : contains_special (map_get_tile m map_x map_y).special S_POLLUTION = true := by
      simpa [map_has_special] using h
    simp only [map_set_special, map_clear_special, set_special, map_get_tile_set_tile,
      set_tile_set_tile]
    rw [and_not_or_self _ _ hp]
    exact set_tile_self m map_x map_y

theorem ai_calc_fallout_map (g : Env) (m : civ_map) (pcity : city) (pplayer : player)
    (city_x city_y best map_x map_y : Int) :
    (ai_calc_fallout g m pcity pplayer city_x city_y best map_x map_y).2 = m := by
  unfold ai_calc_fallout
  split
  · rfl
  · rename_i h
    have hp : contains_special (map_get_tile m map_x map_y).special S_FALLOUT = true := by
      simpa [map_has_special] using h
    have e : map_set_special (map_clear_special m map_x map_y S_FALLOUT) map_x map_y S_FALLOUT
        = m := by
      simp only [map_set_special, map_clear_special, set_special, map_get_tile_set_tile,
        set_tile_set_tile]
      rw [and_not_or_self _ _ hp]
      exact set_tile_self m map_x map_y
    dsimp only
    split <;> exact e

theorem ai_calc_irrigate_map (g : Env) (m : civ_map) (pcity : city) (pplayer : player)
    (city_x city_y map_x map_y : Int) :
    (ai_calc_irrigate g m pcity pplayer city_x city_y map_x map_y).2 = m := by
  unfold ai_calc_irrigate
  dsimp only
  split
  · split
    · rfl
    · simp only [map_clear_special, set_special, set_terrain, map_get_tile_set_tile,
        set_tile_set_tile]
      exact set_tile_self m map_x map_y
  · split
    · simp only [map_set_special, map_clear_special, set_special, map_get_tile_set_tile,
        set_tile_set_tile]
      exact set_tile_self m map_x map_y
    · split
      · rename_i h
        have hf : contains_special (map_get_tile m map_x map_y).special S_FARMLAND = false := by
          have := h.2.2.1
          simpa [tile_has_special] using this
        simp only [map_set_special, map_clear_special, set_special, map_get_tile_set_tile,
          set_tile_set_tile]
        rw [or_and_not_flag _ S_FARMLAND 10 (by decide) hf]
        exact set_tile_self m map_x map_y
      · rfl

theorem ai_calc_mine_map (g : Env) (m : civ_map) (pcity : city)
    (city_x city_y map_x map_y : Int) :
    (ai_calc_mine g m pcity city_x city_y map_x map_y).2 = m := by
  unfold ai_calc_mine
  dsimp only
  split
  · split
    · rfl
    · simp only [map_clear_special, set_special, set_terrain, map_get_tile_set_tile,
        set_tile_set_tile]
      exact set_tile_self m map_x map_y
  · split
    · simp only [map_set_special, map_clear_special, set_special, map_get_tile_set_tile,
        set_tile_set_tile]
      exact set_tile_self m map_x map_y
    · rfl

theorem ai_calc_transform_map (g : Env) (m : civ_map) (pcity : city)
    (city_x city_y map_x map_y : Int) :
    (ai_calc_transform g m pcity city_x city_y map_x map_y).2 = m := by
  unfold ai_calc_transform
  dsimp only
  split
  · rfl
  · split
    · rfl
    · split
      · rfl
      · split
        · rfl
        · simp only [set_special, set_terrain, set_tile_set_tile]
          split <;> split <;>
            simp only [map_clear_special, set_special, set_terrain, map_get_tile_set_tile,
              set_tile_set_tile] <;>
            exact set_tile_self m map_x map_y

theorem ai_calc_road_map (g : Env) (m : civ_map) (pcity : city) (pplayer : player)
    (city_x city_y map_x map_y : Int) :
    (ai_calc_road g m pcity pplayer city_x city_y map_x map_y).2 = m := by
  unfold ai_calc_road
  dsimp only
  split
  · rename_i h
    have hr : contains_special (map_get_tile m map_x map_y).special S_ROAD = false := by
      have := h.2.2
      simpa [tile_has_special] using this
    simp only [set_special, map_get_tile_set_tile, set_tile_set_tile]
    rw [or_and_not_flag _ S_ROAD 1 (by decide) hr]
    exact set_tile_self m map_x map_y
  · rfl

theorem ai_calc_railroad_map (g : Env) (m : civ_map) (pcity : city) (pplayer : player)
    (city_x city_y map_x map_y : Int) :
    (ai_calc_railroad g m pcity pplayer city_x city_y map_x map_y).2 = m := by
  unfold ai_calc_railroad
  dsimp only
  split
  · simp only [set_special, map_get_tile_set_tile, set_tile_set_tile]
    exact set_tile_self m map_x map_y
  · rfl

/-! ### The claims about the simulators -/

/-- C7.  Each of the seven simulators (irrigate, mine, transform, road, railroad,
pollution, fallout), on every map and every tile state, leaves the map it was given:
the terrain and the feature flags of the tile (and of every other tile) after the call
are those before the call, whether the call returned the sentinel or a goodness. -/
theorem simulators_restore_map (g : Env) (m : civ_map) (pcity : city) (pplayer : player)
    (city_x city_y best map_x map_y : Int) :
    (ai_calc_irrigate g m pcity pplayer city_x city_y map_x map_y).2 = m ∧
    (ai_calc_mine g m pcity city_x city_y map_x map_y).2 = m ∧
    (ai_calc_transform g m pcity city_x city_y map_x map_y).2 = m ∧
    (ai_calc_road g m pcity pplayer city_x city_y map_x map_y).2 = m ∧
    (ai_calc_railroad g m pcity pplayer city_x city_y map_x map_y).2 = m ∧
    (ai_calc_pollution g m pcity city_x city_y best map_x map_y).2 = m ∧
    (ai_calc_fallout g m pcity pplayer city_x city_y best map_x map_y).2 = m :=
  ⟨ai_calc_irrigate_map g m pcity pplayer city_x city_y map_x map_y,
    ai_calc_mine_map g m pcity city_x city_y map_x map_y,
    ai_calc_transform_map g m pcity city_x city_y map_x map_y,
    ai_calc_road_map g m pcity pplayer city_x city_y map_x map_y,
    ai_calc_railroad_map g m pcity pplayer city_x city_y map_x map_y,
    ai_calc_pollution_map g m pcity city_x city_y best map_x map_y,
    ai_calc_fallout_map g m pcity pplayer city_x city_y best map_x map_y⟩

/-- C8 (counterexample).  On the sample tile, which carries fallout, the post-removal
tile value is `v = 19` and `best = 10`.  For the player who is not AI-controlled
`ai_calc_fallout` returns the boosted `2 * (v + best + 50) = 158`, not `v`; for the
AI-controlled player it returns the plain `v = 19`. -/
theorem ai_calc_fallout_boost_reversed :
    human_player.ai_control = false ∧ ai_player.ai_control = true ∧
    map_has_special sample_map 0 0 S_FALLOUT = true ∧
    city_tile_value sample_env (map_clear_special sample_map 0 0 S_FALLOUT)
      sample_city 0 0 0 0 = 19 ∧
    (ai_calc_fallout sample_env sample_map sample_city human_player 0 0 10 0 0).1 = 158 ∧
    (ai_calc_fallout sample_env sample_map sample_city ai_player 0 0 10 0 0).1 = 19 ∧
    (ai_calc_fallout sample_env sample_map sample_city human_player 0 0 10 0 0).1 ≠
      city_tile_value sample_env (map_clear_special sample_map 0 0 S_FALLOUT)
        sample_city 0 0 0 0 ∧
    (ai_calc_fallout sample_env sample_map sample_city ai_player 0 0 10 0 0).1 ≠
      2 * (city_tile_value sample_env (map_clear_special sample_map 0 0 S_FALLOUT)
        sample_city 0 0 0 0 + 10 + 50) := by
  decide

/-- C8 (amended).  On a tile with fallout `ai_calc_fallout` returns the boosted value
`2 * (v + best + 50)` when the player is NOT AI-controlled and the plain post-removal
tile value `v` when the player is AI-controlled. -/
theorem ai_calc_fallout_value (g : Env) (m : civ_map) (pcity : city) (pplayer : player)
    (city_x city_y best map_x map_y : Int)
    (hf : map_has_special m map_x map_y S_FALLOUT = true) :
    (ai_calc_fallout g m pcity pplayer city_x city_y best map_x map_y).1 =
      if pplayer.ai_control then
        city_tile_value g (map_clear_special m map_x map_y S_FALLOUT) pcity city_x city_y 0 0
      else
        2 * (city_tile_value g (map_clear_special m map_x map_y S_FALLOUT) pcity city_x city_y 0 0
          + best + 50) := by
  unfold ai_calc_fallout
  simp only [hf, Bool.not_true, Bool.false_eq_true, if_false]
  cases pplayer.ai_control <;> simp [mul_comm]

theorem ai_calc_fallout_value_witness :
    (ai_calc_fallout sample_env sample_map sample_city human_player 0 0 10 0 0).1 =
      if human_player.ai_control then
        city_tile_value sample_env (map_clear_special sample_map 0 0 S_FALLOUT)
          sample_city 0 0 0 0
      else
        2 * (city_tile_value sample_env (map_clear_special sample_map 0 0 S_FALLOUT)
          sample_city 0 0 0 0 + 10 + 50) :=
  ai_calc_fallout_value sample_env sample_map sample_city human_player 0 0 10 0 0 (by decide)

/-- C9.  `ai_calc_pollution` returns `-1` exactly when the tile has no pollution;
on a polluted tile it returns `2 * (v + best + 50)`, `v` being `city_tile_value` of the
tile with the pollution removed, and then for `v ≥ 0` and `best ≥ 0` the result is at
least `2 * best + 100` and greater than `best`. -/
theorem ai_calc_pollution_value (g : Env) (m : civ_map) (pcity : city)
    (city_x city_y best map_x map_y : Int) :
    ((ai_calc_pollution g m pcity city_x city_y best map_x map_y).1 = -1 ↔
      map_has_special m map_x map_y S_POLLUTION = false) ∧
    (map_has_special m map_x map_y S_POLLUTION = true →
      (ai_calc_pollution g m pcity city_x city_y best map_x map_y).1 =
        2 * (city_tile_value g (map_clear_special m map_x map_y S_POLLUTION)
          pcity city_x city_y 0 0 + best + 50) ∧
      (0 ≤ city_tile_value g (map_clear_special m map_x map_y S_POLLUTION)
          pcity city_x city_y 0 0 → 0 ≤ best →
        2 * best + 100 ≤ (ai_calc_pollution g m pcity city_x city_y best map_x map_y).1 ∧
        best < (ai_calc_pollution g m pcity city_x city_y best map_x map_y).1)) := by
  unfold ai_calc_pollution
  cases hp : map_has_special m map_x map_y S_POLLUTION
  · simp
  · simp only [Bool.not_true, Bool.false_eq_true, if_false]
    refine ⟨⟨fun h => by omega, fun h => by simp at h⟩, fun _ => ⟨by omega, fun _ _ => by omega⟩⟩

theorem ai_calc_pollution_value_witness :
    (ai_calc_pollution sample_env sample_map sample_city 0 0 10 0 0).1 =
        2 * (city_tile_value sample_env (map_clear_special sample_map 0 0 S_POLLUTION)
          sample_city 0 0 0 0 + 10 + 50) ∧
    2 * 10 + 100 ≤ (ai_calc_pollution sample_env sample_map sample_city 0 0 10 0 0).1 ∧
    10 < (ai_calc_pollution sample_env sample_map sample_city 0 0 10 0 0).1 :=
  have h := (ai_calc_pollution_value sample_env sample_map sample_city 0 0 10 0 0).2 (by decide)
  ⟨h.1, h.2 (by decide) (by decide)⟩

/-- C10.  With `t` the tile, `new` the irrigation result of its terrain and "wet" the
test `is_wet_or_is_wet_cardinal_around`, `ai_calc_irrigate` returns
(a) the value of the tile with terrain `new` and the mine cleared, when `new` differs
from the terrain, is not `T_LAST`, and the tile is not a city tile whose new terrain has
`TER_NO_CITIES`;
(b) the value of the tile with irrigation set and the mine cleared, when `new` is the
terrain, there is no irrigation and the tile is wet;
(c) the value of the tile with farmland set, when `new` is the terrain, irrigation is
present, farmland is not, the player knows a `TF_FARMLAND` tech and the tile is wet;
and `-1` in every other case.  So a result other than `-1` occurs only in the three
cases, and in each of them whenever tile values are not `-1` themselves.  The tile is
wet when `is_wet` holds on it or on one of its cardinal neighbours. -/
theorem ai_calc_irrigate_cases (g : Env) (m : civ_map) (pcity : city) (pplayer : player)
    (city_x city_y map_x map_y : Int) :
    let t := map_get_tile m map_x map_y
    let new := (g.get_tile_type t.terrain).irrigation_result
    let wet := is_wet_or_is_wet_cardinal_around g m pplayer map_x map_y
    let r := (ai_calc_irrigate g m pcity pplayer city_x city_y map_x map_y).1
    let A := t.terrain ≠ new ∧ new ≠ g.T_LAST ∧
      ¬ (t.city.isSome = true ∧ g.terrain_has_flag new terrain_flag_id.TER_NO_CITIES = true)
    let B := t.terrain = new ∧ tile_has_special t S_IRRIGATION = false ∧ wet = true
    let C := t.terrain = new ∧ tile_has_special t S_IRRIGATION = true ∧
      tile_has_special t S_FARMLAND = false ∧
      g.player_knows_techs_with_flag pplayer tech_flag_id.TF_FARMLAND = true ∧ wet = true
    (A → r = city_tile_value g
      (set_tile m map_x map_y
        { terrain := new, special := and_not t.special S_MINE, city := t.city })
      pcity city_x city_y 0 0) ∧
    (B → r = city_tile_value g
      (set_tile m map_x map_y
        { terrain := t.terrain, special := and_not t.special S_MINE ||| S_IRRIGATION,
          city := t.city })
      pcity city_x city_y 0 0) ∧
    (C → r = city_tile_value g
      (set_tile m map_x map_y
        { terrain := t.terrain, special := t.special ||| S_FARMLAND, city := t.city })
      pcity city_x city_y 0 0) ∧
    (¬ A ∧ ¬ B ∧ ¬ C → r = -1) ∧
    (r ≠ -1 → A ∨ B ∨ C) ∧
    ((∀ m2, city_tile_value g m2 pcity city_x city_y 0 0 ≠ -1) → (r ≠ -1 ↔ A ∨ B ∨ C)) ∧
    (wet = true ↔ is_wet g m pplayer map_x map_y = true ∨
      ∃ p ∈ g.cardinal_adjc map_x map_y, is_wet g m pplayer p.1 p.2 = true) := by
  intro t new wet r A B C
  have hW : wet = true ↔ is_wet g m pplayer map_x map_y = true ∨
      ∃ p ∈ g.cardinal_adjc map_x map_y, is_wet g m pplayer p.1 p.2 = true := by
    show is_wet_or_is_wet_cardinal_around g m pplayer map_x map_y = true ↔ _
    unfold is_wet_or_is_wet_cardinal_around
    cases hw : is_wet g m pplayer map_x map_y <;> simp [List.any_eq_true]
  have hA : A → r = city_tile_value g
      (set_tile m map_x map_y
        { terrain := new, special := and_not t.special S_MINE, city := t.city })
      pcity city_x city_y 0 0 := by
    intro h
    show (ai_calc_irrigate g m pcity pplayer city_x city_y map_x map_y).1 = _
    unfold ai_calc_irrigate
    dsimp only
    rw [if_pos ⟨h.1, h.2.1⟩, if_neg h.2.2]
    simp only [map_clear_special, set_special, set_terrain, map_get_tile_set_tile,
      set_tile_set_tile]
  have hB : B → r = city_tile_value g
      (set_tile m map_x map_y
        { terrain := t.terrain, special := and_not t.special S_MINE ||| S_IRRIGATION,
          city := t.city })
      pcity city_x city_y 0 0 := by
    intro h
    show (ai_calc_irrigate g m pcity pplayer city_x city_y map_x map_y).1 = _
    unfold ai_calc_irrigate
    dsimp only
    rw [if_neg (fun c => c.1 h.1), if_pos ⟨h.1, by rw [h.2.1]; rfl, h.2.2⟩]
    simp only [map_set_special, map_clear_special, set_special, map_get_tile_set_tile,
      set_tile_set_tile]
  have hC : C → r = city_tile_value g
      (set_tile m map_x map_y
        { terrain := t.terrain, special := t.special ||| S_FARMLAND, city := t.city })
      pcity city_x city_y 0 0 := by
    intro h
    show (ai_calc_irrigate g m pcity pplayer city_x city_y map_x map_y).1 = _
    unfold ai_calc_irrigate
    dsimp only
    rw [if_neg (fun c => c.1 h.1),
      if_neg (fun c => by have := c.2.1; rw [h.2.1] at this; exact absurd this (by decide)),
      if_pos ⟨h.1, h.2.1, by rw [h.2.2.1]; rfl, h.2.2.2.1, h.2.2.2.2⟩]
    simp only [map_set_special, set_special]
  have hN : ¬ A ∧ ¬ B ∧ ¬ C → r = -1 := by
    rintro ⟨nA, nB, nC⟩
    show (ai_calc_irrigate g m pcity pplayer city_x city_y map_x map_y).1 = _
    unfold ai_calc_irrigate
    dsimp only
    split
    · rename_i h1
      split
      · rfl
      · rename_i h2
        exact absurd ⟨h1.1, h1.2, h2⟩ nA
    · split
      · rename_i h2
        exact absurd ⟨h2.1, by simpa using h2.2.1, h2.2.2⟩ nB
      · split
        · rename_i h3
          exact absurd ⟨h3.1, h3.2.1, by simpa using h3.2.2.1, h3.2.2.2.1, h3.2.2.2.2⟩ nC
        · rfl
  have hO : r ≠ -1 → A ∨ B ∨ C := by
    intro hr
    by_contra hn
    simp only [not_or] at hn
    exact hr (hN hn)
  refine ⟨hA, hB, hC, hN, hO, fun hv => ⟨hO, ?_⟩, hW⟩
  rintro (h | h | h)
  · rw [hA h]; exact hv _
  · rw [hB h]; exact hv _
  · rw [hC h]; exact hv _

/-- The sample tile has a river, no irrigation and an unchanged irrigation result:
case (b) applies and the result is the value of the irrigated tile. -/
theorem ai_calc_irrigate_cases_witness :
    (ai_calc_irrigate sample_env sample_map sample_city human_player 0 0 0 0).1 =
      city_tile_value sample_env
        (set_tile sample_map 0 0
          { terrain := (map_get_tile sample_map 0 0).terrain,
            special := and_not (map_get_tile sample_map 0 0).special S_MINE ||| S_IRRIGATION,
            city := (map_get_tile sample_map 0 0).city })
        sample_city 0 0 0 0 :=
  (ai_calc_irrigate_cases sample_env sample_map sample_city human_player 0 0 0 0).2.1
    ⟨by decide, by decide, by decide⟩

/-- C11.  With `t` the tile and `new` the mining result of its terrain, `ai_calc_mine`
returns `-1` when `new` is `T_LAST` and differs from the terrain, or `new` differs from
the terrain and the tile holds a city while `new` has `TER_NO_CITIES`, or `new` is the
terrain and a mine is present.  In every other case it returns `city_tile_value` of the
tile with irrigation and farmland cleared and, when `new` differs from the terrain, the
terrain changed to `new`, else the mine flag set.  So `-1` is returned exactly in the
three cases whenever tile values are not `-1` themselves. -/
theorem ai_calc_mine_cases (g : Env) (m : civ_map) (pcity : city)
    (city_x city_y map_x map_y : Int) :
    let t := map_get_tile m map_x map_y
    let new := (g.get_tile_type t.terrain).mining_result
    let r := (ai_calc_mine g m pcity city_x city_y map_x map_y).1
    let S := (new = g.T_LAST ∧ t.terrain ≠ new) ∨
      (t.terrain ≠ new ∧ t.city.isSome = true ∧
        g.terrain_has_flag new terrain_flag_id.TER_NO_CITIES = true) ∨
      (t.terrain = new ∧ tile_has_special t S_MINE = true)
    (S → r = -1) ∧
    (¬ S → t.terrain ≠ new → r = city_tile_value g
      (set_tile m map_x map_y
        { terrain := new, special := and_not (and_not t.special S_IRRIGATION) S_FARMLAND,
          city := t.city })
      pcity city_x city_y 0 0) ∧
    (¬ S → t.terrain = new → r = city_tile_value g
      (set_tile m map_x map_y
        { terrain := t.terrain,
          special := and_not (and_not t.special S_IRRIGATION) S_FARMLAND ||| S_MINE,
          city := t.city })
      pcity city_x city_y 0 0) ∧
    ((∀ m2, city_tile_value g m2 pcity city_x city_y 0 0 ≠ -1) → (r = -1 ↔ S)) := by
  intro t new r S
  have hS : S → r = -1 := by
    intro h
    show (ai_calc_mine g m pcity city_x city_y map_x map_y).1 = _
    unfold ai_calc_mine
    dsimp only
    rcases h with h | h | h
    · rw [if_neg (fun c => c.2 h.1), if_neg (fun c => h.2 c.1)]
    · split
      · rw [if_pos ⟨h.2.1, h.2.2⟩]
      · rw [if_neg (fun c => h.1 c.1)]
    · rw [if_neg (fun c => c.1 h.1),
        if_neg (fun c => by have := c.2; rw [h.2] at this; exact absurd this (by decide))]
  have hA : ¬ S → t.terrain ≠ new → r = city_tile_value g
      (set_tile m map_x map_y
        { terrain := new, special := and_not (and_not t.special S_IRRIGATION) S_FARMLAND,
          city := t.city })
      pcity city_x city_y 0 0 := by
    intro hn hne
    show (ai_calc_mine g m pcity city_x city_y map_x map_y).1 = _
    unfold ai_calc_mine
    dsimp only
    have h1 : new ≠ g.T_LAST := fun c => hn (Or.inl ⟨c, hne⟩)
    have h2 : ¬ (t.city.isSome = true ∧
        g.terrain_has_flag new terrain_flag_id.TER_NO_CITIES = true) :=
      fun c => hn (Or.inr (Or.inl ⟨hne, c.1, c.2⟩))
    rw [if_pos ⟨hne, h1⟩, if_neg h2]
    simp only [map_clear_special, set_special, set_terrain, map_get_tile_set_tile,
      set_tile_set_tile]
  have hB : ¬ S → t.terrain = new → r = city_tile_value g
      (set_tile m map_x map_y
        { terrain := t.terrain,
          special := and_not (and_not t.special S_IRRIGATION) S_FARMLAND ||| S_MINE,
          city := t.city })
      pcity city_x city_y 0 0 := by
    intro hn he
    show (ai_calc_mine g m pcity city_x city_y map_x map_y).1 = _
    unfold ai_calc_mine
    dsimp only
    have h3 : tile_has_special t S_MINE = false := by
      cases hm : tile_has_special t S_MINE
      · rfl
      · exact absurd (Or.inr (Or.inr ⟨he, hm⟩)) hn
    rw [if_neg (fun c => c.1 he), if_pos ⟨he, by rw [h3]; rfl⟩]
    simp only [map_set_special, map_clear_special, set_special, map_get_tile_set_tile,
      set_tile_set_tile]
  refine ⟨hS, hA, hB, fun hv => ⟨fun hr => ?_, hS⟩⟩
  by_contra hn
  by_cases he : t.terrain = new
  · exact hv _ ((hB hn he).symm.trans hr)
  · exact hv _ ((hA hn he).symm.trans hr)

/-- On the sample tile the mining result is the terrain itself and no mine is present:
the in-place case applies. -/
theorem ai_calc_mine_cases_witness :
    (ai_calc_mine sample_env sample_map sample_city 0 0 0 0).1 =
      city_tile_value sample_env
        (set_tile sample_map 0 0
          { terrain := (map_get_tile sample_map 0 0).terrain,
            special := and_not (and_not (map_get_tile sample_map 0 0).special S_IRRIGATION)
              S_FARMLAND ||| S_MINE,
            city := (map_get_tile sample_map 0 0).city })
        sample_city 0 0 0 0 :=
  (ai_calc_mine_cases sample_env sample_map sample_city 0 0 0 0).2.2.1
    (by decide) (by decide)

/-- C12.  With `t` the tile and `new` the transform result of its terrain,
`ai_calc_transform` returns `-1` when `new` is the terrain, or is `T_LAST`, or the
change is ocean to land without `can_reclaim_ocean`, or land to ocean without
`can_channel_land`, or the tile holds a city and `new` has `TER_NO_CITIES`.  Otherwise
it returns `city_tile_value` of the tile with terrain `new`, the mine cleared when the
mining result of `new` is not `new`, and farmland and irrigation cleared when the
irrigation result of `new` is not `new`.  So `-1` is returned exactly in the five cases
whenever tile values are not `-1` themselves. -/
theorem ai_calc_transform_cases (g : Env) (m : civ_map) (pcity : city)
    (city_x city_y map_x map_y : Int) :
    let t := map_get_tile m map_x map_y
    let new := (g.get_tile_type t.terrain).transform_result
    let r := (ai_calc_transform g m pcity city_x city_y map_x map_y).1
    let S := t.terrain = new ∨ new = g.T_LAST ∨
      (g.is_ocean t.terrain = true ∧ g.is_ocean new = false ∧
        g.can_reclaim_ocean m map_x map_y = false) ∨
      (g.is_ocean new = true ∧ g.is_ocean t.terrain = false ∧
        g.can_channel_land m map_x map_y = false) ∨
      (t.city.isSome = true ∧ g.terrain_has_flag new terrain_flag_id.TER_NO_CITIES = true)
    let s1 := if (g.get_tile_type new).mining_result ≠ new then and_not t.special S_MINE
      else t.special
    let s2 := if (g.get_tile_type new).irrigation_result ≠ new then
        and_not (and_not s1 S_FARMLAND) S_IRRIGATION
      else s1
    (S → r = -1) ∧
    (¬ S → r = city_tile_value g
      (set_tile m map_x map_y { terrain := new, special := s2, city := t.city })
      pcity city_x city_y 0 0) ∧
    ((∀ m2, city_tile_value g m2 pcity city_x city_y 0 0 ≠ -1) → (r = -1 ↔ S)) := by
  intro t new r S s1 s2
  have hS : S → r = -1 := by
    intro h
    show (ai_calc_transform g m pcity city_x city_y map_x map_y).1 = _
    unfold ai_calc_transform
    dsimp only
    split
    · rfl
    · split
      · rfl
      · split
        · rfl
        · split
          · rfl
          · rename_i n1 n2 n3 n4
            exfalso
            rcases h with h | h | h | h | h
            · exact n1 (Or.inl h)
            · exact n1 (Or.inr h)
            · exact n2 ⟨h.1, by simp [h.2.1], by simp [h.2.2]⟩
            · exact n3 ⟨h.1, by simp [h.2.1], by simp [h.2.2]⟩
            · exact n4 h
  have hN : ¬ S → r = city_tile_value g
      (set_tile m map_x map_y { terrain := new, special := s2, city := t.city })
      pcity city_x city_y 0 0 := by
    intro hn
    show (ai_calc_transform g m pcity city_x city_y map_x map_y).1 = _
    unfold ai_calc_transform
    dsimp only
    have n1 : ¬ (t.terrain = new ∨ new = g.T_LAST) := by
      rintro (c | c)
      · exact hn (Or.inl c)
      · exact hn (Or.inr (Or.inl c))
    have n2 : ¬ (g.is_ocean t.terrain = true ∧ (!g.is_ocean new) = true ∧
        (!g.can_reclaim_ocean m map_x map_y) = true) := by
      rintro ⟨c1, c2, c3⟩
      exact hn (Or.inr (Or.inr (Or.inl ⟨c1, by simpa using c2, by simpa using c3⟩)))
    have n3 : ¬ (g.is_ocean new = true ∧ (!g.is_ocean t.terrain) = true ∧
        (!g.can_channel_land m map_x map_y) = true) := by
      rintro ⟨c1, c2, c3⟩
      exact hn (Or.inr (Or.inr (Or.inr (Or.inl ⟨c1, by simpa using c2, by simpa using c3⟩))))
    have n4 : ¬ (t.city.isSome = true ∧
        g.terrain_has_flag new terrain_flag_id.TER_NO_CITIES = true) :=
      fun c => hn (Or.inr (Or.inr (Or.inr (Or.inr c))))
    rw [if_neg n1, if_neg n2, if_neg n3, if_neg n4]
    show city_tile_value g _ pcity city_x city_y 0 0 = city_tile_value g _ pcity city_x city_y 0 0
    congr 1
    show _ = set_tile m map_x map_y { terrain := new, special := s2, city := t.city }
    simp only [s2, s1]
    split <;> split <;>
      simp only [map_clear_special, set_special, set_terrain, map_get_tile_set_tile,
        set_tile_set_tile]
  refine ⟨hS, hN, fun hv => ⟨fun hr => ?_, hS⟩⟩
  by_contra hn
  exact hv _ ((hN hn).symm.trans hr)

/-- On the sample tile the transform result is the terrain itself: the sentinel. -/
theorem ai_calc_transform_cases_witness :
    (ai_calc_transform sample_env sample_map sample_city 0 0 0 0).1 = -1 :=
  (ai_calc_transform_cases sample_env sample_map sample_city 0 0 0 0).1
    (Or.inl (by decide))

/-- C13.  `ai_calc_road` returns the value of the tile with the road flag set when the
terrain is not ocean, the tile has no road, and the tile has no river or the player
knows a `TF_BRIDGE` tech; otherwise `-1`.  `ai_calc_railroad` returns the value of the
tile with both the road and the railroad flags set when the terrain is not ocean, the
tile has no railroad and the player knows a `TF_RAILROAD` tech; otherwise `-1`.  So each
returns a value other than `-1` only under its condition, and always under it when tile
values are not `-1` themselves. -/
theorem ai_calc_road_railroad_cases (g : Env) (m : civ_map) (pcity : city) (pplayer : player)
    (city_x city_y map_x map_y : Int) :
    let t := map_get_tile m map_x map_y
    let r := (ai_calc_road g m pcity pplayer city_x city_y map_x map_y).1
    let rr := (ai_calc_railroad g m pcity pplayer city_x city_y map_x map_y).1
    let R := g.is_ocean t.terrain = false ∧ tile_has_special t S_ROAD = false ∧
      (tile_has_special t S_RIVER = false ∨
        g.player_knows_techs_with_flag pplayer tech_flag_id.TF_BRIDGE = true)
    let RR := g.is_ocean t.terrain = false ∧ tile_has_special t S_RAILROAD = false ∧
      g.player_knows_techs_with_flag pplayer tech_flag_id.TF_RAILROAD = true
    (R → r = city_tile_value g
      (set_tile m map_x map_y
        { terrain := t.terrain, special := t.special ||| S_ROAD, city := t.city })
      pcity city_x city_y 0 0) ∧
    (¬ R → r = -1) ∧
    (RR → rr = city_tile_value g
      (set_tile m map_x map_y
        { terrain := t.terrain, special := t.special ||| (S_ROAD ||| S_RAILROAD),
          city := t.city })
      pcity city_x city_y 0 0) ∧
    (¬ RR → rr = -1) ∧
    ((∀ m2, city_tile_value g m2 pcity city_x city_y 0 0 ≠ -1) →
      (r ≠ -1 ↔ R) ∧ (rr ≠ -1 ↔ RR)) := by
  intro t r rr R RR
  have hR : R → r = city_tile_value g
      (set_tile m map_x map_y
        { terrain := t.terrain, special := t.special ||| S_ROAD, city := t.city })
      pcity city_x city_y 0 0 := by
    intro h
    show (ai_calc_road g m pcity pplayer city_x city_y map_x map_y).1 = _
    unfold ai_calc_road
    dsimp only
    rw [if_pos ⟨by rw [h.1]; rfl, by
      rcases h.2.2 with c | c
      · exact Or.inl (by rw [c]; rfl)
      · exact Or.inr c, by rw [h.2.1]; rfl⟩]
    simp only [set_special]
  have hnR : ¬ R → r = -1 := by
    intro hn
    show (ai_calc_road g m pcity pplayer city_x city_y map_x map_y).1 = _
    unfold ai_calc_road
    dsimp only
    split
    · rename_i c
      exfalso
      apply hn
      refine ⟨by simpa using c.1, by simpa using c.2.2, ?_⟩
      rcases c.2.1 with c1 | c1
      · exact Or.inl (by simpa using c1)
      · exact Or.inr c1
    · rfl
  have hRR : RR → rr = city_tile_value g
      (set_tile m map_x map_y
        { terrain := t.terrain, special := t.special ||| (S_ROAD ||| S_RAILROAD),
          city := t.city })
      pcity city_x city_y 0 0 := by
    intro h
    show (ai_calc_railroad g m pcity pplayer city_x city_y map_x map_y).1 = _
    unfold ai_calc_railroad
    dsimp only
    rw [if_pos ⟨by rw [h.1]; rfl, h.2.2, by rw [h.2.1]; rfl⟩]
    simp only [set_special]
  have hnRR : ¬ RR → rr = -1 := by
    intro hn
    show (ai_calc_railroad g m pcity pplayer city_x city_y map_x map_y).1 = _
    unfold ai_calc_railroad
    dsimp only
    split
    · rename_i c
      exact absurd ⟨by simpa using c.1, by simpa using c.2.2, c.2.1⟩ hn
    · rfl
  refine ⟨hR, hnR, hRR, hnRR, fun hv => ⟨⟨fun hr => ?_, fun h => ?_⟩, ⟨fun hr => ?_, fun h => ?_⟩⟩⟩
  · by_contra hn
    exact hr (hnR hn)
  · rw [hR h]
    exact hv _
  · by_contra hn
    exact hr (hnRR hn)
  · rw [hRR h]
    exact hv _

/-- The sample tile is land with a river and no road, and the player knows no tech:
neither a road nor a railroad can be built. -/
theorem ai_calc_road_railroad_cases_witness :
    (ai_calc_road sample_env sample_map sample_city human_player 0 0 0 0).1 = -1 ∧
    (ai_calc_railroad sample_env sample_map sample_city human_player 0 0 0 0).1 = -1 :=
  ⟨(ai_calc_road_railroad_cases sample_env sample_map sample_city human_player 0 0 0 0).2.1
      (by decide),
    (ai_calc_road_railroad_cases sample_env sample_map sample_city human_player 0 0 0 0).2.2.2.1
      (by decide)⟩

/-! ## Weighing a candidate action -/

theorem settler_action_base_value_nonneg (extra new_tile_value old_tile_value : Int)
    (in_use : Bool) : 0 ≤ settler_action_base_value extra new_tile_value old_tile_value in_use := by
  unfold settler_action_base_value
  exact le_max_left _ _

theorem settler_action_total_value_considered (extra new_tile_value old_tile_value : Int)
    (in_use : Bool) (delay : Int) (hc : extra ≥ 0 ∨ new_tile_value > old_tile_value)
    (hdelay : 0 ≤ delay) :
    settler_action_total_value extra new_tile_value old_tile_value in_use delay =
      (amortize (settler_action_base_value extra new_tile_value old_tile_value in_use)
        delay.toNat).map (fun d =>
          Int.tdiv (Int.tdiv
            (wrap32 (d * settler_action_base_value extra new_tile_value old_tile_value in_use))
            (max 1 (settler_action_base_value extra new_tile_value old_tile_value in_use - d)))
            64) := by
  unfold settler_action_total_value
  have h : (if extra ≥ 0 then true else decide (new_tile_value > old_tile_value)) = true := by
    split
    · rfl
    · rename_i hn
      rcases hc with c | c
      · exact absurd c hn
      · exact decide_eq_true c
  simp only [h, if_true]
  rw [if_neg (by omega)]

/-- A considered candidate with a negative delay: `amortize` stops on its assertion and
no total value is computed. -/
theorem settler_action_total_value_negative_delay
    (extra new_tile_value old_tile_value : Int) (in_use : Bool) (delay : Int)
    (hc : extra ≥ 0 ∨ new_tile_value > old_tile_value) (hdelay : delay < 0) :
    settler_action_total_value extra new_tile_value old_tile_value in_use delay = none := by
  unfold settler_action_total_value
  have h : (if extra ≥ 0 then true else decide (new_tile_value > old_tile_value)) = true := by
    split
    · rfl
    · rename_i hn
      rcases hc with c | c
      · exact absurd c hn
      · exact decide_eq_true c
  simp only [h, if_true]
  rw [if_pos hdelay]

theorem settler_action_total_value_skipped (extra new_tile_value old_tile_value : Int)
    (in_use : Bool) (delay : Int) (hc : extra < 0 ∧ new_tile_value ≤ old_tile_value) :
    settler_action_total_value extra new_tile_value old_tile_value in_use delay = some 0 := by
  unfold settler_action_total_value
  have h : (if extra ≥ 0 then true else decide (new_tile_value > old_tile_value)) = false := by
    rw [if_neg (by omega)]
    exact decide_eq_false (by omega)
  simp [h]

theorem amortize_zero_delay_nonneg (b : Int) (h0 : 0 ≤ b) (hb : b < 2147483648) :
    amortize b 0 = some b := by
  rw [amortize_of_nonneg _ _ h0, amortize_loop_zero_delay]
  simp only [Option.map_some', mul_one]
  rw [wrap32_eq (by omega) hb]

/-- C18.  When the total value of the candidate is `total`, `consider_settler_action`
sets all five outputs to the candidate's (`total`, the old tile value, the activity and
the tile) if `total` is greater than the best value, or equal to it with a greater old
tile value; otherwise it leaves the five outputs as they were, in particular for a
candidate equal in both total value and old tile value.  So the outputs become the
candidate's exactly under that condition (unless they already were the candidate's). -/
theorem consider_settler_action_replaces (act : unit_activity)
    (extra new_tile_value old_tile_value : Int) (in_use : Bool) (delay : Int)
    (best : settler_best) (x y total : Int)
    (ht : settler_action_total_value extra new_tile_value old_tile_value in_use delay
      = some total) :
    let cand : settler_best :=
      { best_value := total, best_old_tile_value := old_tile_value, best_act := act,
        gx := x, gy := y }
    let better := total > best.best_value
      ∨ (total = best.best_value ∧ old_tile_value > best.best_old_tile_value)
    let r := consider_settler_action act extra new_tile_value old_tile_value in_use delay
      best x y
    (better → r = some cand) ∧
    (¬ better → r = some best) ∧
    (total = best.best_value ∧ old_tile_value = best.best_old_tile_value → r = some best) ∧
    (cand ≠ best → (r = some cand ↔ better)) := by
  intro cand better r
  have h1 : better → r = some cand := by
    intro hb
    show consider_settler_action act extra new_tile_value old_tile_value in_use delay
      best x y = _
    unfold consider_settler_action
    rw [ht]
    simp only [Option.map_some']
    rw [if_pos hb]
  have h2 : ¬ better → r = some best := by
    intro hb
    show consider_settler_action act extra new_tile_value old_tile_value in_use delay
      best x y = _
    unfold consider_settler_action
    rw [ht]
    simp only [Option.map_some']
    rw [if_neg hb]
  refine ⟨h1, h2, fun h => h2 ?_, fun hne => ⟨fun hr => ?_, h1⟩⟩
  · rintro (c | c) <;> omega
  · by_contra hb
    rw [h2 hb] at hr
    exact hne (Option.some.inj hr).symm

theorem consider_settler_action_replaces_witness :
    consider_settler_action unit_activity.ACTIVITY_IRRIGATE 0 15 5 true 0
      { best_value := 0, best_old_tile_value := 9999,
        best_act := unit_activity.ACTIVITY_IDLE, gx := -1, gy := -1 } 3 4 =
    some { best_value := 6400, best_old_tile_value := 5,
           best_act := unit_activity.ACTIVITY_IRRIGATE, gx := 3, gy := 4 } :=
  (consider_settler_action_replaces unit_activity.ACTIVITY_IRRIGATE 0 15 5 true 0
    { best_value := 0, best_old_tile_value := 9999,
      best_act := unit_activity.ACTIVITY_IDLE, gx := -1, gy := -1 } 3 4 6400
    (by decide)).1 (Or.inl (by decide))

/-- The total value of a considered candidate (`extra ≥ 0`, or the new tile value above
the old one) whose base value is at most `46340`, for a delay that is not negative:
`amortize` returns a value `discounted` with `0 ≤ discounted ≤ base`, the product
`discounted * base` is within the `int` range, and the total value is
`(discounted * base) / max(1, base - discounted) / 64`. -/
theorem settler_action_total_value_in_range (extra new_tile_value old_tile_value : Int)
    (in_use : Bool) (delay : Int) (hc : extra ≥ 0 ∨ new_tile_value > old_tile_value)
    (hdelay : 0 ≤ delay)
    (hb : settler_action_base_value extra new_tile_value old_tile_value in_use ≤ 46340) :
    ∃ discounted,
      amortize (settler_action_base_value extra new_tile_value old_tile_value in_use)
        delay.toNat = some discounted ∧
      0 ≤ discounted ∧
      discounted ≤ settler_action_base_value extra new_tile_value old_tile_value in_use ∧
      settler_action_total_value extra new_tile_value old_tile_value in_use delay =
        some (discounted * settler_action_base_value extra new_tile_value old_tile_value in_use
          / max 1 (settler_action_base_value extra new_tile_value old_tile_value in_use
            - discounted) / 64) := by
  generalize hbase : settler_action_base_value extra new_tile_value old_tile_value in_use
    = base at hb
  have h0 : 0 ≤ base := by
    rw [← hbase]
    exact settler_action_base_value_nonneg _ _ _ _
  obtain ⟨d, hd, _, hd0, hdb⟩ := amortize_bounded base delay.toNat h0 (by omega)
  refine ⟨d, hd, hd0, hdb, ?_⟩
  rw [settler_action_total_value_considered extra new_tile_value old_tile_value in_use
    delay hc hdelay, hbase, hd]
  simp only [Option.map_some']
  have hprod0 : 0 ≤ d * base := mul_nonneg hd0 h0
  have hprod : d * base < 2147483648 := by nlinarith
  rw [wrap32_eq (by omega) hprod]
  have hm : 0 ≤ max 1 (base - d) := le_trans (by decide) (le_max_left _ _)
  rw [Int.tdiv_eq_ediv hprod0 hm,
    Int.tdiv_eq_ediv (Int.ediv_nonneg hprod0 hm) (by decide)]

theorem settler_action_total_value_in_range_witness :
    ∃ discounted, amortize (settler_action_base_value (-1) 15 5 true)
        (Int.toNat 6) = some discounted ∧
      0 ≤ discounted ∧
      discounted ≤ settler_action_base_value (-1) 15 5 true ∧
      settler_action_total_value (-1) 15 5 true 6 =
        some (discounted * settler_action_base_value (-1) 15 5 true
          / max 1 (settler_action_base_value (-1) 15 5 true - discounted) / 64) :=
  settler_action_total_value_in_range (-1) 15 5 true 6 (Or.inr (by decide)) (by decide)
    (by decide)

/-- C19 (failing run).  A candidate with `extra = 0`, new tile value 1000, old tile value
0, on a worked tile, with delay 2: the base value is `64000`, `amortize` returns `58778`,
and the product `58778 * 64000 = 3761792000` does not fit an `int`: it is kept as
`-533175296`, so that the total value is `-533175296 / 5222 / 64 = -1595`, where
`(discounted * base) / max(1, base - discounted) / 64` is `11255`. -/
theorem settler_action_total_value_overflow :
    settler_action_base_value 0 1000 0 true = 64000 ∧
    amortize 64000 (Int.toNat 2) = some 58778 ∧
    (58778 : Int) * 64000 = 3761792000 ∧
    wrap32 (58778 * 64000) = -533175296 ∧
    settler_action_total_value 0 1000 0 true 2 = some (-1595) ∧
    Int.tdiv (Int.tdiv ((58778 : Int) * 64000) (max 1 (64000 - 58778))) 64 = 11255 := by
  decide

/-- C20 (counterexample).  A candidate with `extra = 0`, new tile value 15, old tile
value 5, on a worked tile, with delay 0: the base value is 640, the discounted value is
640 as well (not smaller than the base value), and the total value is
`640 * 640 / 1 / 64 = 6400`, not `0`. -/
theorem settler_action_total_value_undiscounted :
    settler_action_base_value 0 15 5 true = 640 ∧
    amortize (settler_action_base_value 0 15 5 true) (Int.toNat 0) = some 640 ∧
    settler_action_total_value 0 15 5 true 0 = some 6400 ∧
    settler_action_total_value 0 15 5 true 0 ≠ some 0 := by
  decide

/-- C20 (amended).  For a considered candidate with a delay that is not negative, whose
discounted value is not smaller than the base value, the divisor
`max(1, base - discounted)` is `1` and the total value is the product
`discounted * base`, as an `int`, divided by `64`; in particular for delay `0` and a base
value of at most `46340` (the product then fits an `int`) the total value is
`(base * base) / 64`, which is `0` only for a base value below `8`. -/
theorem settler_action_total_value_no_discount (extra new_tile_value old_tile_value : Int)
    (in_use : Bool) (delay : Int) (hc : extra ≥ 0 ∨ new_tile_value > old_tile_value)
    (hdelay : 0 ≤ delay) :
    (∀ discounted,
      amortize (settler_action_base_value extra new_tile_value old_tile_value in_use)
        delay.toNat = some discounted →
      settler_action_base_value extra new_tile_value old_tile_value in_use ≤ discounted →
      settler_action_total_value extra new_tile_value old_tile_value in_use delay =
        some (Int.tdiv
          (wrap32 (discounted
            * settler_action_base_value extra new_tile_value old_tile_value in_use))
          64)) ∧
    (delay = 0 →
      settler_action_base_value extra new_tile_value old_tile_value in_use ≤ 46340 →
      settler_action_total_value extra new_tile_value old_tile_value in_use delay =
        some (settler_action_base_value extra new_tile_value old_tile_value in_use
            * settler_action_base_value extra new_tile_value old_tile_value in_use / 64) ∧
      (settler_action_total_value extra new_tile_value old_tile_value in_use delay = some 0
        ↔ settler_action_base_value extra new_tile_value old_tile_value in_use < 8)) := by
  show
    let base := settler_action_base_value extra new_tile_value old_tile_value in_use
    let total := settler_action_total_value extra new_tile_value old_tile_value in_use delay
    (∀ discounted, amortize base delay.toNat = some discounted → base ≤ discounted →
      total = some (Int.tdiv (wrap32 (discounted * base)) 64)) ∧
    (delay = 0 → base ≤ 46340 →
      total = some (base * base / 64) ∧ (total = some 0 ↔ base < 8))
  intro base total
  have key : ∀ discounted, amortize base delay.toNat = some discounted → base ≤ discounted →
      total = some (Int.tdiv (wrap32 (discounted * base)) 64) := by
    intro d hd hge
    show settler_action_total_value extra new_tile_value old_tile_value in_use delay = _
    rw [settler_action_total_value_considered extra new_tile_value old_tile_value in_use
      delay hc hdelay]
    show Option.map _ (amortize base delay.toNat) = _
    rw [hd]
    simp only [Option.map_some']
    have hm : max 1 (base - d) = 1 := max_eq_left (by omega)
    rw [hm, Int.tdiv_one]
  refine ⟨key, fun hd hb => ?_⟩
  have h0 : 0 ≤ base := settler_action_base_value_nonneg _ _ _ _
  have hz : delay.toNat = 0 := by omega
  have hsq0 : 0 ≤ base * base := mul_nonneg h0 h0
  have hsq : base * base < 2147483648 := by nlinarith
  have ht : total = some (base * base / 64) := by
    rw [key base (by rw [hz]; exact amortize_zero_delay_nonneg base h0 (by omega))
      (le_refl _), wrap32_eq (by omega) hsq, Int.tdiv_eq_ediv hsq0 (by decide)]
  refine ⟨ht, ?_⟩
  rw [ht, Option.some.injEq]
  constructor
  · intro hq
    by_contra hge
    have h8 : 64 ≤ base * base := by nlinarith
    have := Int.ediv_le_ediv (by decide : (0 : Int) < 64) h8
    omega
  · intro hlt
    exact Int.ediv_eq_zero_of_lt hsq0 (by nlinarith)

theorem settler_action_total_value_no_discount_witness :
    settler_action_total_value 0 15 5 true 0 =
        some (settler_action_base_value 0 15 5 true
          * settler_action_base_value 0 15 5 true / 64) ∧
      (settler_action_total_value 0 15 5 true 0 = some 0
        ↔ settler_action_base_value 0 15 5 true < 8) :=
  (settler_action_total_value_no_discount 0 15 5 true 0 (Or.inl (by decide))
    (by decide)).2 rfl (by decide)

/-! ## The infrastructure cache -/

theorem infrastructure_cache_tile_eq (e : GameEnv) (m : civ_map) (pcity : city)
    (pplayer : player) (best : Int) (ai : ai_cache) (city_x city_y map_x map_y : Int) :
    infrastructure_cache_tile e m pcity pplayer best ai city_x city_y map_x map_y =
      (ai_cache_store ai city_x city_y
        (infrastructure_cache_values e m pcity pplayer best city_x city_y map_x map_y),
        m, true) := by
  unfold infrastructure_cache_tile
  simp only [ai_calc_pollution_map, ai_calc_fallout_map, ai_calc_mine_map,
    ai_calc_irrigate_map, ai_calc_transform_map, ai_calc_road_map, ai_calc_railroad_map,
    and_self, decide_True]
  rfl

theorem infrastructure_cache_reset_eq (e : GameEnv) (ai : ai_cache) :
    infrastructure_cache_reset e ai =
      ai_cache_store_all (e.city_map_iterate.map (fun p => (p.1, p.2, ai_cell_unset))) ai := by
  unfold infrastructure_cache_reset ai_cache_store_all
  rw [List.foldl_map]
  rfl

theorem infrastructure_cache_fold_eq (e : GameEnv) (m : civ_map) (pcity : city)
    (pplayer : player) (best : Int) (l : List ((Int × Int) × (Int × Int))) :
    ∀ ai : ai_cache,
      l.foldl (fun (s : ai_cache × civ_map × Bool) p =>
        ((infrastructure_cache_tile e s.2.1 pcity pplayer best s.1 p.1.1 p.1.2 p.2.1 p.2.2).1,
          (infrastructure_cache_tile e s.2.1 pcity pplayer best s.1 p.1.1 p.1.2 p.2.1 p.2.2).2.1,
          s.2.2 &&
            (infrastructure_cache_tile e s.2.1 pcity pplayer best s.1 p.1.1 p.1.2 p.2.1 p.2.2).2.2))
        (ai, m, true) =
      (ai_cache_store_all (l.map (fun p =>
        (p.1.1, p.1.2, infrastructure_cache_values e m pcity pplayer best
          p.1.1 p.1.2 p.2.1 p.2.2))) ai, m, true) := by
  induction l with
  | nil => intro ai; rfl
  | cons p l ih =>
    intro ai
    rw [List.foldl_cons, infrastructure_cache_tile_eq]
    simp only [Bool.and_self]
    rw [ih]
    rfl

/-- The rebuild for one city makes the writes of `infrastructure_cache_writes`, returns
the map it was given, and all its assertions hold. -/
theorem infrastructure_cache_city_eq (e : GameEnv) (m : civ_map) (pplayer : player)
    (c : cached_city) :
    infrastructure_cache_city e m pplayer c =
      ({ pcity := c.pcity,
         ai := ai_cache_store_all (infrastructure_cache_writes e m pplayer c.pcity) c.ai },
        m, true) := by
  unfold infrastructure_cache_city
  dsimp only
  rw [infrastructure_cache_fold_eq, infrastructure_cache_reset_eq]
  unfold infrastructure_cache_writes ai_cache_store_all
  rw [List.foldl_append]

/-- The rebuild for a player makes the writes of each city in turn, returns the map it
was given, and all its assertions hold. -/
theorem initialize_infrastructure_cache_eq (e : GameEnv) (m : civ_map) (pplayer : player)
    (cities : List cached_city) :
    initialize_infrastructure_cache e m pplayer cities =
      (cities.map (fun c =>
        { pcity := c.pcity,
          ai := ai_cache_store_all (infrastructure_cache_writes e m pplayer c.pcity) c.ai }),
        m, true) := by
  induction cities with
  | nil => rfl
  | cons c cs ih =>
    rw [initialize_infrastructure_cache, infrastructure_cache_city_eq]
    dsimp only
    rw [ih]
    rfl

/-- C15.  `initialize_infrastructure_cache` returns the map it was given, so the terrain
and the feature flags of every tile are those before the call, and the assertion
`old_terrain == ptile->terrain && old_special == ptile->special` at the end of every
tile iteration holds. -/
theorem initialize_infrastructure_cache_map (e : GameEnv) (m : civ_map) (pplayer : player)
    (cities : List cached_city) :
    (initialize_infrastructure_cache e m pplayer cities).2.1 = m ∧
    (initialize_infrastructure_cache e m pplayer cities).2.2 = true ∧
    ∀ x y,
      (map_get_tile (initialize_infrastructure_cache e m pplayer cities).2.1 x y).terrain
        = (map_get_tile m x y).terrain ∧
      (map_get_tile (initialize_infrastructure_cache e m pplayer cities).2.1 x y).special
        = (map_get_tile m x y).special := by
  rw [initialize_infrastructure_cache_eq]
  exact ⟨rfl, rfl, fun _ _ => ⟨rfl, rfl⟩⟩

/-! ### Writes into a grid -/

/-- What a list of writes leaves in a cell does not depend on the grid, or is what the
grid held. -/
theorem grid_store_all_cell (l : List (Int × Int × Int)) (a b : Int) :
    ∃ o : Option Int, ∀ g, grid_store_all l g a b = o.getD (g a b) := by
  induction l with
  | nil => exact ⟨none, fun g => rfl⟩
  | cons q l ih =>
    obtain ⟨o, ho⟩ := ih
    cases o with
    | some v =>
      refine ⟨some v, fun g => ?_⟩
      show grid_store_all l (grid_set g q.1 q.2.1 q.2.2) a b = _
      rw [ho]
      rfl
    | none =>
      by_cases hq : a = q.1 ∧ b = q.2.1
      · refine ⟨some q.2.2, fun g => ?_⟩
        show grid_store_all l (grid_set g q.1 q.2.1 q.2.2) a b = _
        rw [ho]
        simp [grid_set, hq]
      · refine ⟨none, fun g => ?_⟩
        show grid_store_all l (grid_set g q.1 q.2.1 q.2.2) a b = _
        rw [ho]
        simp [grid_set, hq]

theorem grid_store_all_idem (l : List (Int × Int × Int)) (g : Int → Int → Int) :
    grid_store_all l (grid_store_all l g) = grid_store_all l g := by
  funext a b
  obtain ⟨o, ho⟩ := grid_store_all_cell l a b
  rw [ho (grid_store_all l g), ho g]
  cases o <;> rfl

theorem grid_store_all_untouched (l : List (Int × Int × Int)) (a b : Int) :
    ∀ g, (∀ q ∈ l, ¬ (q.1 = a ∧ q.2.1 = b)) → grid_store_all l g a b = g a b := by
  induction l with
  | nil => intro g _; rfl
  | cons q l ih =>
    intro g h
    show grid_store_all l (grid_set g q.1 q.2.1 q.2.2) a b = _
    rw [ih _ (fun q2 hq2 => h q2 (List.mem_cons_of_mem _ hq2))]
    have := h q (List.mem_cons_self _ _)
    unfold grid_set
    rw [if_neg (fun c => this ⟨c.1.symm, c.2.symm⟩)]

/-- A cell that some write of the list addresses holds the value of one of the writes
that address it. -/
theorem grid_store_all_written (l : List (Int × Int × Int)) (a b : Int) :
    ∀ g, (∃ q ∈ l, q.1 = a ∧ q.2.1 = b) →
      ∃ q ∈ l, q.1 = a ∧ q.2.1 = b ∧ grid_store_all l g a b = q.2.2 := by
  induction l with
  | nil =>
    intro g h
    obtain ⟨q, hq, _⟩ := h
    simp at hq
  | cons q0 l ih =>
    intro g h
    by_cases hl : ∃ q ∈ l, q.1 = a ∧ q.2.1 = b
    · obtain ⟨q, hq, h1, h2, h3⟩ := ih (grid_set g q0.1 q0.2.1 q0.2.2) hl
      exact ⟨q, List.mem_cons_of_mem _ hq, h1, h2, h3⟩
    · have hno : ∀ q ∈ l, ¬ (q.1 = a ∧ q.2.1 = b) := fun q hq c => hl ⟨q, hq, c⟩
      obtain ⟨q, hq, hqa⟩ := h
      rcases List.mem_cons.mp hq with rfl | hq2
      · refine ⟨q, List.mem_cons_self _ _, hqa.1, hqa.2, ?_⟩
        show grid_store_all l (grid_set g q.1 q.2.1 q.2.2) a b = _
        rw [grid_store_all_untouched l a b _ hno]
        simp [grid_set, hqa.1, hqa.2]
      · exact absurd hqa (hno q hq2)

theorem ai_cache_store_all_detox (l : List (Int × Int × ai_cell)) :
    ∀ ai : ai_cache, (ai_cache_store_all l ai).detox =
      grid_store_all (l.map (fun q => (q.1, q.2.1, q.2.2.detox))) ai.detox := by
  induction l with
  | nil => intro ai; rfl
  | cons q l ih =>
    intro ai
    show (ai_cache_store_all l (ai_cache_store ai q.1 q.2.1 q.2.2)).detox = _
    rw [ih]
    rfl

theorem ai_cache_store_all_derad (l : List (Int × Int × ai_cell)) :
    ∀ ai : ai_cache, (ai_cache_store_all l ai).derad =
      grid_store_all (l.map (fun q => (q.1, q.2.1, q.2.2.derad))) ai.derad := by
  induction l with
  | nil => intro ai; rfl
  | cons q l ih =>
    intro ai
    show (ai_cache_store_all l (ai_cache_store ai q.1 q.2.1 q.2.2)).derad = _
    rw [ih]
    rfl

theorem ai_cache_store_all_mine (l : List (Int × Int × ai_cell)) :
    ∀ ai : ai_cache, (ai_cache_store_all l ai).mine =
      grid_store_all (l.map (fun q => (q.1, q.2.1, q.2.2.mine))) ai.mine := by
  induction l with
  | nil => intro ai; rfl
  | cons q l ih =>
    intro ai
    show (ai_cache_store_all l (ai_cache_store ai q.1 q.2.1 q.2.2)).mine = _
    rw [ih]
    rfl

theorem ai_cache_store_all_irrigate (l : List (Int × Int × ai_cell)) :
    ∀ ai : ai_cache, (ai_cache_store_all l ai).irrigate =
      grid_store_all (l.map (fun q => (q.1, q.2.1, q.2.2.irrigate))) ai.irrigate := by
  induction l with
  | nil => intro ai; rfl
  | cons q l ih =>
    intro ai
    show (ai_cache_store_all l (ai_cache_store ai q.1 q.2.1 q.2.2)).irrigate = _
    rw [ih]
    rfl

theorem ai_cache_store_all_transform (l : List (Int × Int × ai_cell)) :
    ∀ ai : ai_cache, (ai_cache_store_all l ai).transform =
      grid_store_all (l.map (fun q => (q.1, q.2.1, q.2.2.transform))) ai.transform := by
  induction l with
  | nil => intro ai; rfl
  | cons q l ih =>
    intro ai
    show (ai_cache_store_all l (ai_cache_store ai q.1 q.2.1 q.2.2)).transform = _
    rw [ih]
    rfl

theorem ai_cache_store_all_road (l : List (Int × Int × ai_cell)) :
    ∀ ai : ai_cache, (ai_cache_store_all l ai).road =
      grid_store_all (l.map (fun q => (q.1, q.2.1, q.2.2.road))) ai.road := by
  induction l with
  | nil => intro ai; rfl
  | cons q l ih =>
    intro ai
    show (ai_cache_store_all l (ai_cache_store ai q.1 q.2.1 q.2.2)).road = _
    rw [ih]
    rfl

theorem ai_cache_store_all_railroad (l : List (Int × Int × ai_cell)) :
    ∀ ai : ai_cache, (ai_cache_store_all l ai).railroad =
      grid_store_all (l.map (fun q => (q.1, q.2.1, q.2.2.railroad))) ai.railroad := by
  induction l with
  | nil => intro ai; rfl
  | cons q l ih =>
    intro ai
    show (ai_cache_store_all l (ai_cache_store ai q.1 q.2.1 q.2.2)).railroad = _
    rw [ih]
    rfl

theorem ai_cache_store_all_idem (l : List (Int × Int × ai_cell)) (ai : ai_cache) :
    ai_cache_store_all l (ai_cache_store_all l ai) = ai_cache_store_all l ai := by
  have h1 := ai_cache_store_all_detox l
  have h2 := ai_cache_store_all_derad l
  have h3 := ai_cache_store_all_mine l
  have h4 := ai_cache_store_all_irrigate l
  have h5 := ai_cache_store_all_transform l
  have h6 := ai_cache_store_all_road l
  have h7 := ai_cache_store_all_railroad l
  have e : ∀ a b : ai_cache, a.detox = b.detox → a.derad = b.derad → a.mine = b.mine →
      a.irrigate = b.irrigate → a.transform = b.transform → a.road = b.road →
      a.railroad = b.railroad → a = b := by
    intro a b
    cases a
    cases b
    simp only [ai_cache.mk.injEq]
    intro e1 e2 e3 e4 e5 e6 e7
    exact ⟨e1, e2, e3, e4, e5, e6, e7⟩
  apply e
  · rw [h1 (ai_cache_store_all l ai), h1 ai, grid_store_all_idem]
  · rw [h2 (ai_cache_store_all l ai), h2 ai, grid_store_all_idem]
  · rw [h3 (ai_cache_store_all l ai), h3 ai, grid_store_all_idem]
  · rw [h4 (ai_cache_store_all l ai), h4 ai, grid_store_all_idem]
  · rw [h5 (ai_cache_store_all l ai), h5 ai, grid_store_all_idem]
  · rw [h6 (ai_cache_store_all l ai), h6 ai, grid_store_all_idem]
  · rw [h7 (ai_cache_store_all l ai), h7 ai, grid_store_all_idem]

/-- C14.  Running `initialize_infrastructure_cache` a second time, on the map and the
cities that the first run left, gives every city the same seven grids as the first
run (and again the same map). -/
theorem initialize_infrastructure_cache_idempotent (e : GameEnv) (m : civ_map)
    (pplayer : player) (cities : List cached_city) :
    initialize_infrastructure_cache e
        (initialize_infrastructure_cache e m pplayer cities).2.1 pplayer
        (initialize_infrastructure_cache e m pplayer cities).1 =
      initialize_infrastructure_cache e m pplayer cities := by
  rw [initialize_infrastructure_cache_eq e m pplayer cities]
  dsimp only
  rw [initialize_infrastructure_cache_eq, List.map_map]
  congr 1
  apply List.map_congr_left
  intro c _
  simp only [Function.comp_apply, ai_cache_store_all_idem]

/-! ### Signs of the cached values -/

theorem food_weighting_nonneg (g : Env) (hy : yields_nonneg g) (city_size : Int) :
    0 ≤ food_weighting g city_size := by
  obtain ⟨_, _, _, _, _, _, _, hFW, _, hgr, hfb⟩ := hy
  unfold food_weighting
  dsimp only
  have hw : 0 ≤ Int.tdiv (4 * g.FOOD_WEIGHTING)
      (Int.tdiv (g.city_granary_size city_size) g.foodbox) :=
    Int.tdiv_nonneg (by omega) (Int.tdiv_nonneg (hgr _) hfb)
  split
  · exact Int.tdiv_nonneg (by omega) (by decide)
  · exact hw

theorem city_tile_value_nonneg (g : Env) (hy : yields_nonneg g) (pcity : city)
    (hr : rates_nonneg pcity) (m : civ_map) (x y : Int) :
    0 ≤ city_tile_value g m pcity x y 0 0 := by
  have hfw := food_weighting_nonneg g hy (max 2 pcity.size)
  obtain ⟨hf, hs, ht, hsb, htb, hlb, hcb, _, hSW, _, _⟩ := hy
  obtain ⟨hw, htax, hlux, hsci⟩ := hr
  unfold city_tile_value
  simp only [gt_iff_lt, lt_self_iff_false, if_false]
  have h1 : 0 ≤ g.city_get_food_tile m x y pcity * food_weighting g (max 2 pcity.size) :=
    mul_nonneg (hf _ _ _ _) hfw
  have h2 : 0 ≤ Int.tdiv (g.city_get_shields_tile m x y pcity
      * (g.SHIELD_WEIGHTING * g.city_shield_bonus pcity)) 100 :=
    Int.tdiv_nonneg (mul_nonneg (hs _ _ _ _) (mul_nonneg hSW (hsb _))) (by decide)
  have h3 : 0 ≤ Int.tdiv (g.city_get_trade_tile m x y pcity * pcity.trade_want
      * (g.city_tax_bonus pcity * pcity.owner.tax
        + g.city_luxury_bonus pcity * pcity.owner.luxury
        + g.city_science_bonus pcity * pcity.owner.science)) 10000 :=
    Int.tdiv_nonneg (mul_nonneg (mul_nonneg (ht _ _ _ _) hw)
      (add_nonneg (add_nonneg (mul_nonneg (htb _) htax) (mul_nonneg (hlb _) hlux))
        (mul_nonneg (hcb _) hsci))) (by decide)
  omega

theorem best_worker_tile_value_nonneg (e : GameEnv) (m : civ_map) (pcity : city) :
    0 ≤ best_worker_tile_value e m pcity := by
  unfold best_worker_tile_value
  have key : ∀ (l : List (Int × Int)) (init : Int), 0 ≤ init →
      0 ≤ l.foldl (fun best p =>
        if e.is_city_center p.1 p.2
            ∨ e.get_worker_city pcity p.1 p.2 = city_tile_type.C_TILE_WORKER
            ∨ e.get_worker_city pcity p.1 p.2 = city_tile_type.C_TILE_EMPTY then
          let tmp := city_tile_value e.toEnv m pcity p.1 p.2 0 0
          if tmp > best then tmp else best
        else best) init := by
    intro l
    induction l with
    | nil => intro init h; exact h
    | cons p l ih =>
      intro init h
      rw [List.foldl_cons]
      apply ih
      dsimp only
      split
      · split
        · omega
        · exact h
      · exact h
  exact key _ 0 (le_refl 0)

theorem ai_calc_pollution_sign (g : Env) (m : civ_map) (pcity : city)
    (city_x city_y best map_x map_y : Int)
    (H : ∀ m2, 0 ≤ city_tile_value g m2 pcity city_x city_y 0 0) (hb : 0 ≤ best) :
    (ai_calc_pollution g m pcity city_x city_y best map_x map_y).1 = -1 ∨
      0 ≤ (ai_calc_pollution g m pcity city_x city_y best map_x map_y).1 := by
  unfold ai_calc_pollution
  split
  · exact Or.inl rfl
  · right
    have := H (map_clear_special m map_x map_y S_POLLUTION)
    dsimp only
    omega

theorem ai_calc_fallout_sign (g : Env) (m : civ_map) (pcity : city) (pplayer : player)
    (city_x city_y best map_x map_y : Int)
    (H : ∀ m2, 0 ≤ city_tile_value g m2 pcity city_x city_y 0 0) (hb : 0 ≤ best) :
    (ai_calc_fallout g m pcity pplayer city_x city_y best map_x map_y).1 = -1 ∨
      0 ≤ (ai_calc_fallout g m pcity pplayer city_x city_y best map_x map_y).1 := by
  unfold ai_calc_fallout
  split
  · exact Or.inl rfl
  · right
    have := H (map_clear_special m map_x map_y S_FALLOUT)
    dsimp only
    split
    · dsimp only
      omega
    · exact this

theorem ai_calc_mine_sign (g : Env) (m : civ_map) (pcity : city)
    (city_x city_y map_x map_y : Int)
    (H : ∀ m2, 0 ≤ city_tile_value g m2 pcity city_x city_y 0 0) :
    (ai_calc_mine g m pcity city_x city_y map_x map_y).1 = -1 ∨
      0 ≤ (ai_calc_mine g m pcity city_x city_y map_x map_y).1 := by
  unfold ai_calc_mine
  dsimp only
  split
  · split
    · exact Or.inl rfl
    · exact Or.inr (H _)
  · split
    · exact Or.inr (H _)
    · exact Or.inl rfl

theorem ai_calc_irrigate_sign (g : Env) (m : civ_map) (pcity : city) (pplayer : player)
    (city_x city_y map_x map_y : Int)
    (H : ∀ m2, 0 ≤ city_tile_value g m2 pcity city_x city_y 0 0) :
    (ai_calc_irrigate g m pcity pplayer city_x city_y map_x map_y).1 = -1 ∨
      0 ≤ (ai_calc_irrigate g m pcity pplayer city_x city_y map_x map_y).1 := by
  unfold ai_calc_irrigate
  dsimp only
  split
  · split
    · exact Or.inl rfl
    · exact Or.inr (H _)
  · split
    · exact Or.inr (H _)
    · split
      · exact Or.inr (H _)
      · exact Or.inl rfl

theorem ai_calc_transform_sign (g : Env) (m : civ_map) (pcity : city)
    (city_x city_y map_x map_y : Int)
    (H : ∀ m2, 0 ≤ city_tile_value g m2 pcity city_x city_y 0 0) :
    (ai_calc_transform g m pcity city_x city_y map_x map_y).1 = -1 ∨
      0 ≤ (ai_calc_transform g m pcity city_x city_y map_x map_y).1 := by
  unfold ai_calc_transform
  dsimp only
  split
  · exact Or.inl rfl
  · split
    · exact Or.inl rfl
    · split
      · exact Or.inl rfl
      · split
        · exact Or.inl rfl
        · exact Or.inr (H _)

theorem ai_calc_road_sign (g : Env) (m : civ_map) (pcity : city) (pplayer : player)
    (city_x city_y map_x map_y : Int)
    (H : ∀ m2, 0 ≤ city_tile_value g m2 pcity city_x city_y 0 0) :
    (ai_calc_road g m pcity pplayer city_x city_y map_x map_y).1 = -1 ∨
      0 ≤ (ai_calc_road g m pcity pplayer city_x city_y map_x map_y).1 := by
  unfold ai_calc_road
  dsimp only
  split
  · exact Or.inr (H _)
  · exact Or.inl rfl

theorem ai_calc_railroad_sign (g : Env) (m : civ_map) (pcity : city) (pplayer : player)
    (city_x city_y map_x map_y : Int)
    (H : ∀ m2, 0 ≤ city_tile_value g m2 pcity city_x city_y 0 0) :
    (ai_calc_railroad g m pcity pplayer city_x city_y map_x map_y).1 = -1 ∨
      0 ≤ (ai_calc_railroad g m pcity pplayer city_x city_y map_x map_y).1 := by
  unfold ai_calc_railroad
  dsimp only
  split
  · exact Or.inr (H _)
  · exact Or.inl rfl

/-- One grid after the writes of a city: a cell of `city_map_iterate` holds `-1` or a
non-negative value, and `-1` when `city_map_checked_iterate` does not visit it. -/
theorem infrastructure_cache_cell_sign (e : GameEnv) (m : civ_map) (pplayer : player)
    (pcity : city) (proj : ai_cell → Int) (hu : proj ai_cell_unset = -1)
    (hv : ∀ cx cy mx my,
      proj (infrastructure_cache_values e m pcity pplayer (best_worker_tile_value e m pcity)
        cx cy mx my) = -1 ∨
      0 ≤ proj (infrastructure_cache_values e m pcity pplayer (best_worker_tile_value e m pcity)
        cx cy mx my))
    (g0 : Int → Int → Int) (p : Int × Int) (hp : p ∈ e.city_map_iterate) :
    (grid_store_all ((infrastructure_cache_writes e m pplayer pcity).map
        (fun q => (q.1, q.2.1, proj q.2.2))) g0 p.1 p.2 = -1 ∨
      0 ≤ grid_store_all ((infrastructure_cache_writes e m pplayer pcity).map
        (fun q => (q.1, q.2.1, proj q.2.2))) g0 p.1 p.2) ∧
    ((∀ q ∈ e.city_map_checked_iterate pcity.x pcity.y, q.1 ≠ p) →
      grid_store_all ((infrastructure_cache_writes e m pplayer pcity).map
        (fun q => (q.1, q.2.1, proj q.2.2))) g0 p.1 p.2 = -1) := by
  have hex : ∃ q ∈ (infrastructure_cache_writes e m pplayer pcity).map
      (fun q => (q.1, q.2.1, proj q.2.2)), q.1 = p.1 ∧ q.2.1 = p.2 := by
    refine ⟨(p.1, p.2, proj ai_cell_unset), ?_, rfl, rfl⟩
    rw [List.mem_map]
    refine ⟨(p.1, p.2, ai_cell_unset), ?_, rfl⟩
    unfold infrastructure_cache_writes
    rw [List.mem_append]
    exact Or.inl (List.mem_map.mpr ⟨p, hp, rfl⟩)
  obtain ⟨q, hq, hq1, hq2, hval⟩ := grid_store_all_written _ p.1 p.2 g0 hex
  rw [hval]
  rw [List.mem_map] at hq
  obtain ⟨w, hw, rfl⟩ := hq
  unfold infrastructure_cache_writes at hw
  rw [List.mem_append, List.mem_map, List.mem_map] at hw
  rcases hw with ⟨p2, _, rfl⟩ | ⟨p2, hp2, rfl⟩
  · exact ⟨Or.inl hu, fun _ => hu⟩
  · refine ⟨hv _ _ _ _, fun hno => ?_⟩
    exfalso
    apply hno p2 hp2
    exact Prod.ext hq1 hq2

/-- C16.  When tile yields, weights, bonuses and rates are non-negative, after
`initialize_infrastructure_cache` every cell (of `city_map_iterate`) of each of the seven
grids of every city of the player holds `-1` or a non-negative value, and it holds `-1`
when its position is not visited by `city_map_checked_iterate`, that is when it is not a
position of the map. -/
theorem initialize_infrastructure_cache_cells (e : GameEnv) (m : civ_map) (pplayer : player)
    (cities : List cached_city) (hy : yields_nonneg e.toEnv)
    (hr : ∀ c ∈ cities, rates_nonneg c.pcity) :
    ∀ c ∈ (initialize_infrastructure_cache e m pplayer cities).1,
      ∀ grid ∈ ai_cache_grids c.ai, ∀ p ∈ e.city_map_iterate,
        (grid p.1 p.2 = -1 ∨ 0 ≤ grid p.1 p.2) ∧
        ((∀ q ∈ e.city_map_checked_iterate c.pcity.x c.pcity.y, q.1 ≠ p) →
          grid p.1 p.2 = -1) := by
  intro c hc grid hg p hp
  rw [initialize_infrastructure_cache_eq] at hc
  dsimp only at hc
  rw [List.mem_map] at hc
  obtain ⟨c0, hc0, rfl⟩ := hc
  have H : ∀ cx cy m2, 0 ≤ city_tile_value e.toEnv m2 c0.pcity cx cy 0 0 :=
    fun cx cy m2 => city_tile_value_nonneg e.toEnv hy c0.pcity (hr c0 hc0) m2 cx cy
  have hbest := best_worker_tile_value_nonneg e m c0.pcity
  unfold ai_cache_grids at hg
  simp only [List.mem_cons, List.mem_singleton, List.not_mem_nil, or_false] at hg
  rcases hg with rfl | rfl | rfl | rfl | rfl | rfl | rfl
  · rw [ai_cache_store_all_detox]
    exact infrastructure_cache_cell_sign e m pplayer c0.pcity ai_cell.detox rfl
      (fun cx cy mx my => ai_calc_pollution_sign _ m c0.pcity cx cy _ mx my (H cx cy) hbest)
      _ p hp
  · rw [ai_cache_store_all_derad]
    exact infrastructure_cache_cell_sign e m pplayer c0.pcity ai_cell.derad rfl
      (fun cx cy mx my =>
        ai_calc_fallout_sign _ m c0.pcity pplayer cx cy _ mx my (H cx cy) hbest)
      _ p hp
  · rw [ai_cache_store_all_mine]
    exact infrastructure_cache_cell_sign e m pplayer c0.pcity ai_cell.mine rfl
      (fun cx cy mx my => ai_calc_mine_sign _ m c0.pcity cx cy mx my (H cx cy))
      _ p hp
  · rw [ai_cache_store_all_irrigate]
    exact infrastructure_cache_cell_sign e m pplayer c0.pcity ai_cell.irrigate rfl
      (fun cx cy mx my => ai_calc_irrigate_sign _ m c0.pcity pplayer cx cy mx my (H cx cy))
      _ p hp
  · rw [ai_cache_store_all_transform]
    exact infrastructure_cache_cell_sign e m pplayer c0.pcity ai_cell.transform rfl
      (fun cx cy mx my => ai_calc_transform_sign _ m c0.pcity cx cy mx my (H cx cy))
      _ p hp
  · rw [ai_cache_store_all_road]
    exact infrastructure_cache_cell_sign e m pplayer c0.pcity ai_cell.road rfl
      (fun cx cy mx my => ai_calc_road_sign _ m c0.pcity pplayer cx cy mx my (H cx cy))
      _ p hp
  · rw [ai_cache_store_all_railroad]
    exact infrastructure_cache_cell_sign e m pplayer c0.pcity ai_cell.railroad rfl
      (fun cx cy mx my => ai_calc_railroad_sign _ m c0.pcity pplayer cx cy mx my (H cx cy))
      _ p hp

/-! ## Choosing the best improvement -/

theorem tdiv_nonpos_of_nonpos (a b : Int) (ha : a ≤ 0) (hb : 0 ≤ b) : Int.tdiv a b ≤ 0 := by
  have h := Int.tdiv_nonneg (a := -a) (b := b) (by omega) hb
  rw [Int.neg_tdiv] at h
  omega

/-- A call of `consider_settler_action` for a legal destination keeps: the target is a
legal destination, or the best value is `0`. -/
theorem consider_settler_action_target (e : GameEnv) (st : settlers_state) (punit : unit)
    (act : unit_activity) (extra new_tile_value old_tile_value : Int) (in_use : Bool)
    (delay : Int) (best b2 : settler_best) (x y : Int)
    (h : consider_settler_action act extra new_tile_value old_tile_value in_use delay
      best x y = some b2)
    (hl : legal_destination e st punit x y)
    (hi : legal_destination e st punit best.gx best.gy ∨ best.best_value = 0) :
    legal_destination e st punit b2.gx b2.gy ∨ b2.best_value = 0 := by
  unfold consider_settler_action at h
  cases ht : settler_action_total_value extra new_tile_value old_tile_value in_use delay with
  | none => rw [ht] at h; simp at h
  | some total =>
    rw [ht] at h
    simp only [Option.map_some', Option.some.injEq] at h
    subst h
    split
    · exact Or.inl hl
    · exact hi

theorem evaluate_improvements_considers_target (e : GameEnv) (m : civ_map)
    (st : settlers_state) (punit : unit) (c : cached_city) (in_use : Bool)
    (best b2 : settler_best) (i j x y : Int)
    (h : evaluate_improvements_considers e m st punit c in_use best i j x y = some b2)
    (hl : legal_destination e st punit x y)
    (hi : legal_destination e st punit best.gx best.gy ∨ best.best_value = 0) :
    legal_destination e st punit b2.gx b2.gy ∨ b2.best_value = 0 := by
  unfold evaluate_improvements_considers at h
  simp only [Option.bind_eq_some] at h
  obtain ⟨b1, h1, b2a, h2, b3, h3, b4, h4, b5, h5, h6⟩ := h
  have i1 := consider_settler_action_target e st punit _ _ _ _ _ _ _ _ _ _ h1 hl hi
  have i2 : legal_destination e st punit b2a.gx b2a.gy ∨ b2a.best_value = 0 := by
    split at h2
    · exact consider_settler_action_target e st punit _ _ _ _ _ _ _ _ _ _ h2 hl i1
    · simp only [Option.some.injEq] at h2
      subst h2
      exact i1
  have i3 := consider_settler_action_target e st punit _ _ _ _ _ _ _ _ _ _ h3 hl i2
  have i4 : legal_destination e st punit b4.gx b4.gy ∨ b4.best_value = 0 := by
    split at h4
    · simp only [Option.bind_eq_some] at h4
      obtain ⟨b, hb, hb4⟩ := h4
      have ib := consider_settler_action_target e st punit _ _ _ _ _ _ _ _ _ _ hb hl i3
      split at hb4
      · exact consider_settler_action_target e st punit _ _ _ _ _ _ _ _ _ _ hb4 hl ib
      · simp only [Option.some.injEq] at hb4
        subst hb4
        exact ib
    · split at h4
      · exact consider_settler_action_target e st punit _ _ _ _ _ _ _ _ _ _ h4 hl i3
      · simp only [Option.some.injEq] at h4
        subst h4
        exact i3
  have i5 : legal_destination e st punit b5.gx b5.gy ∨ b5.best_value = 0 := by
    split at h5
    · exact consider_settler_action_target e st punit _ _ _ _ _ _ _ _ _ _ h5 hl i4
    · simp only [Option.some.injEq] at h5
      subst h5
      exact i4
  split at h6
  · exact consider_settler_action_target e st punit _ _ _ _ _ _ _ _ _ _ h6 hl i5
  · simp only [Option.some.injEq] at h6
    subst h6
    exact i5

theorem evaluate_improvements_actions_target (e : GameEnv) (m : civ_map)
    (st : settlers_state) (punit : unit) (c : cached_city) (in_use : Bool)
    (best b2 : settler_best) (i j x y : Int)
    (h : evaluate_improvements_actions e m st punit c in_use best i j x y = some b2)
    (hl : legal_destination e st punit x y)
    (hi : legal_destination e st punit best.gx best.gy ∨ best.best_value = 0) :
    legal_destination e st punit b2.gx b2.gy ∨ b2.best_value = 0 := by
  unfold evaluate_improvements_actions at h
  split at h
  · exact absurd h (by simp)
  · exact evaluate_improvements_considers_target e m st punit c in_use best b2 i j x y h hl hi

theorem evaluate_improvements_tile_target (e : GameEnv) (m : civ_map) (st : settlers_state)
    (punit : unit) (c : cached_city) (best b2 : settler_best) (i j x y : Int)
    (h : evaluate_improvements_tile e m st punit c best i j x y = some b2)
    (hi : legal_destination e st punit best.gx best.gy ∨ best.best_value = 0) :
    legal_destination e st punit b2.gx b2.gy ∨ b2.best_value = 0 := by
  unfold evaluate_improvements_tile at h
  split at h
  · simp only [Option.some.injEq] at h
    subst h
    exact hi
  · split at h
    · rename_i hleg
      exact evaluate_improvements_actions_target e m st punit c _ best b2 i j x y h hleg.1 hi
    · simp only [Option.some.injEq] at h
      subst h
      exact hi

/-- A property of the state that every step keeps is kept by the whole loop. -/
theorem foldlM_option_invariant {α β : Type} (P : β → Prop) (f : β → α → Option β)
    (hf : ∀ b a b2, f b a = some b2 → P b → P b2) (l : List α) :
    ∀ b b2, l.foldlM f b = some b2 → P b → P b2 := by
  induction l with
  | nil =>
    intro b b2 h hp
    rw [List.foldlM_nil] at h
    simp only [Option.pure_def, Option.some.injEq] at h
    subst h
    exact hp
  | cons a l ih =>
    intro b b2 h hp
    rw [List.foldlM_cons] at h
    simp only [Option.bind_eq_bind, Option.bind_eq_some] at h
    obtain ⟨b1, h1, h2⟩ := h
    exact ih b1 b2 h2 (hf b a b1 h1 hp)

theorem evaluate_improvements_city_target (e : GameEnv) (m : civ_map) (st : settlers_state)
    (punit : unit) (c : cached_city) (best b2 : settler_best)
    (h : evaluate_improvements_city e m st punit c best = some b2)
    (hi : legal_destination e st punit best.gx best.gy ∨ best.best_value = 0) :
    legal_destination e st punit b2.gx b2.gy ∨ b2.best_value = 0 := by
  unfold evaluate_improvements_city at h
  exact foldlM_option_invariant
    (fun b => legal_destination e st punit b.gx b.gy ∨ b.best_value = 0) _
    (fun b p b3 hb hp =>
      evaluate_improvements_tile_target e m st punit c b b3 p.1.1 p.1.2 p.2.1 p.2.2 hb hp)
    _ best b2 h hi

theorem unit_foodbox_cost_nonneg (e : GameEnv) (m : civ_map) (punit : unit)
    (hgr : ∀ size, 0 ≤ e.city_granary_size size) (cost : Int)
    (h : unit_foodbox_cost e m punit = some cost) : 0 ≤ cost := by
  unfold unit_foodbox_cost at h
  split at h
  · split at h
    · simp at h
    · rename_i pcity _
      simp only [Option.some.injEq] at h
      subst h
      split
      · exact Int.tdiv_nonneg (hgr _) (by decide)
      · exact hgr _
  · simp only [Option.some.injEq] at h
    omega

theorem unit_food_upkeep_nonneg (e : GameEnv) (punit : unit)
    (hup : 0 ≤ e.utype_food_cost punit) : 0 ≤ unit_food_upkeep e punit := by
  unfold unit_food_upkeep
  dsimp only
  split
  · exact le_refl 0
  · exact hup

theorem sample_game_env_yields : yields_nonneg sample_game_env.toEnv := by
  unfold yields_nonneg sample_game_env sample_env
  dsimp only
  refine ⟨fun m x y c => ?_, fun _ _ _ _ => le_refl 0, fun _ _ _ _ => le_refl 0,
    fun _ => by decide, fun _ => by decide, fun _ => by decide, fun _ => by decide,
    by decide, by decide, fun size => ?_, by decide⟩
  · split <;> split <;> split <;> decide
  · have := le_max_right size 0
    omega

theorem evaluate_improvements_cities_target (e : GameEnv) (m : civ_map) (st : settlers_state)
    (punit : unit) (cities : List cached_city) (best b2 : settler_best)
    (h : cities.foldlM (fun b c => evaluate_improvements_city e m st punit c b) best = some b2)
    (hi : legal_destination e st punit best.gx best.gy ∨ best.best_value = 0) :
    legal_destination e st punit b2.gx b2.gy ∨ b2.best_value = 0 :=
  foldlM_option_invariant
    (fun b => legal_destination e st punit b.gx b.gy ∨ b.best_value = 0) _
    (fun b c b3 hb hp => evaluate_improvements_city_target e m st punit c b b3 hb hp)
    _ best b2 h hi

/-- The target of a positive result.  For a unit with non-negative food upkeep, with
`FOOD_WEIGHTING` and the granary sizes non-negative and the weighted upkeep, times 100,
within the `int` range: whenever `evaluate_improvements` returns a value `> 0`, the
returned target `(gx, gy)` has no territory bit of a player in the enemy mask of the
owner, lies on the continent of the unit, and has warmap cost at most
`THRESHOLD * move_rate`. -/
theorem evaluate_improvements_target (e : GameEnv) (m : civ_map) (st : settlers_state)
    (cities : List cached_city) (punit : unit) (best_act0 : unit_activity) (gx0 gy0 : Int)
    (r : Int × unit_activity × Int × Int)
    (h : evaluate_improvements e m st cities punit best_act0 gx0 gy0 = some r)
    (hpos : 0 < r.1) (hup : 0 ≤ e.utype_food_cost punit) (hfw : 0 ≤ e.FOOD_WEIGHTING)
    (hgr : ∀ size, 0 ≤ e.city_granary_size size)
    (hfit : unit_food_upkeep e punit * e.FOOD_WEIGHTING * 100 ≤ 2147483648) :
    st.territory r.2.2.1 r.2.2.2 &&& st.enemies punit.owner.player_no = 0
      ∧ e.map_get_continent r.2.2.1 r.2.2.2 = e.map_get_continent punit.x punit.y
      ∧ e.WARMAP_COST punit r.2.2.1 r.2.2.2 ≤ e.THRESHOLD * punit.move_rate := by
  unfold evaluate_improvements at h
  simp only [Option.bind_eq_bind, Option.bind_eq_some] at h
  obtain ⟨food_cost, hfc, best, hbest, hres⟩ := h
  have hinv := evaluate_improvements_cities_target e m st punit cities _ best hbest
    (Or.inr rfl)
  have hcost := unit_foodbox_cost_nonneg e m punit hgr food_cost hfc
  have hupk := unit_food_upkeep_nonneg e punit hup
  have hdiv : ¬ (40 + food_cost = 0) := by omega
  rw [if_neg hdiv] at hres
  generalize hq : Int.tdiv
    (wrap32 ((best.best_value - unit_food_upkeep e punit * e.FOOD_WEIGHTING) * 100))
    (40 + food_cost) = q at hres
  by_cases hneg : q < 0
  · simp only [if_pos hneg, gt_iff_lt, lt_self_iff_false, if_false, Option.some.injEq] at hres
    subst hres
    exact absurd hpos (lt_irrefl 0)
  · simp only [if_neg hneg, gt_iff_lt] at hres
    by_cases hgt : 0 < q
    · simp only [if_pos hgt, Option.some.injEq] at hres
      subst hres
      rcases hinv with hl | hle
      · obtain ⟨h1, h2, h3⟩ := hl
        refine ⟨?_, h1, h2⟩
        unfold BV_CHECK_MASK at h3
        simpa using h3
      · exfalso
        have hmul : 0 ≤ unit_food_upkeep e punit * e.FOOD_WEIGHTING := mul_nonneg hupk hfw
        have hnum :
            wrap32 ((best.best_value - unit_food_upkeep e punit * e.FOOD_WEIGHTING) * 100)
              ≤ 0 := by
          rw [hle, wrap32_eq (by omega) (by omega)]
          omega
        have hle2 := tdiv_nonpos_of_nonpos _ (40 + food_cost) hnum (by omega)
        omega
    · simp only [if_neg hgt, Option.some.injEq] at hres
      subst hres
      exact absurd hpos hgt

theorem evaluate_improvements_target_witness :
    evaluate_improvements sample_game_env sample_map sample_state sample_cities sample_settler
      unit_activity.ACTIVITY_IDLE (-1) (-1)
      = some (235, unit_activity.ACTIVITY_POLLUTION, 0, 0) ∧
    (sample_state.territory 0 0 &&& sample_state.enemies sample_settler.owner.player_no = 0
      ∧ sample_game_env.map_get_continent 0 0
        = sample_game_env.map_get_continent sample_settler.x sample_settler.y
      ∧ sample_game_env.WARMAP_COST sample_settler 0 0
        ≤ sample_game_env.THRESHOLD * sample_settler.move_rate) :=
  ⟨by decide,
   evaluate_improvements_target sample_game_env sample_map sample_state sample_cities
     sample_settler unit_activity.ACTIVITY_IDLE (-1) (-1)
     (235, unit_activity.ACTIVITY_POLLUTION, 0, 0) (by decide) (by decide) (by decide)
     (by decide) sample_game_env_yields.2.2.2.2.2.2.2.2.2.1 (by decide)⟩

/-! ### The cache of the sample city -/

theorem initialize_infrastructure_cache_cells_witness :
    ((infrastructure_cache_city sample_game_env sample_map human_player
        sample_cached_city).1.ai.detox 0 0 = -1
      ∨ 0 ≤ (infrastructure_cache_city sample_game_env sample_map human_player
        sample_cached_city).1.ai.detox 0 0) ∧
    ((∀ q ∈ sample_game_env.city_map_checked_iterate 2 2, q.1 ≠ ((0 : Int), (0 : Int))) →
      (infrastructure_cache_city sample_game_env sample_map human_player
        sample_cached_city).1.ai.detox 0 0 = -1) :=
  initialize_infrastructure_cache_cells sample_game_env sample_map human_player
    [sample_cached_city] sample_game_env_yields
    (fun c hc => by
      rw [List.mem_singleton] at hc
      subst hc
      unfold rates_nonneg
      decide)
    (infrastructure_cache_city sample_game_env sample_map human_player sample_cached_city).1
    (List.mem_cons_self _ _) _ (List.mem_cons_self _ _) (0, 0) (List.mem_cons_self _ _)

/-! ### The value returned by `evaluate_improvements` -/

/-- A loop whose every step leaves the state as it is returns the state it started
from. -/
theorem foldlM_option_fixed {α β : Type} (f : β → α → Option β) (b : β) (l : List α)
    (hf : ∀ a ∈ l, f b a = some b) : l.foldlM f b = some b := by
  induction l with
  | nil => rfl
  | cons a l ih =>
    rw [List.foldlM_cons, hf a (List.mem_cons_self a l)]
    exact ih (fun a2 h2 => hf a2 (List.mem_cons_of_mem a h2))

theorem evaluate_improvements_eq (e : GameEnv) (m : civ_map) (st : settlers_state)
    (cities : List cached_city) (punit : unit) (best_act0 : unit_activity) (gx0 gy0 : Int)
    (food_cost : Int) (best : settler_best)
    (hfc : unit_foodbox_cost e m punit = some food_cost)
    (hscan : cities.foldlM (fun b c => evaluate_improvements_city e m st punit c b)
      { best_value := 0, best_old_tile_value := 9999, best_act := best_act0,
        gx := gx0, gy := gy0 } = some best)
    (hdiv : 40 + food_cost ≠ 0) :
    evaluate_improvements e m st cities punit best_act0 gx0 gy0 =
      some (if 0 < max 0 (Int.tdiv
            (wrap32 ((best.best_value - unit_food_upkeep e punit * e.FOOD_WEIGHTING) * 100))
            (40 + food_cost)) then
          (max 0 (Int.tdiv
            (wrap32 ((best.best_value - unit_food_upkeep e punit * e.FOOD_WEIGHTING) * 100))
            (40 + food_cost)), best.best_act, best.gx, best.gy)
        else
          (max 0 (Int.tdiv
            (wrap32 ((best.best_value - unit_food_upkeep e punit * e.FOOD_WEIGHTING) * 100))
            (40 + food_cost)), unit_activity.ACTIVITY_IDLE, -1, -1)) := by
  unfold evaluate_improvements
  simp only [Option.bind_eq_bind, hfc, hscan, Option.some_bind]
  rw [if_neg hdiv]
  generalize Int.tdiv
    (wrap32 ((best.best_value - unit_food_upkeep e punit * e.FOOD_WEIGHTING) * 100))
    (40 + food_cost) = q
  have hq : (if q < 0 then 0 else q) = max 0 q := by
    split
    · exact (max_eq_left (by omega)).symm
    · exact (max_eq_right (by omega)).symm
  rw [hq]
  split <;> rfl

/-! ### Candidates whose cached value is the sentinel -/

/-- A candidate without a bonus (`extra < 0`) whose new tile value is the sentinel `-1`
is passed over, for a non-negative old tile value, as long as the best value so far is
not negative and, when it is `0`, the old tile value is not above the one recorded. -/
theorem consider_settler_action_sentinel_skipped (act : unit_activity)
    (extra old_tile_value : Int) (in_use : Bool) (delay : Int) (best : settler_best)
    (x y : Int) (he : extra < 0) (ho : 0 ≤ old_tile_value) (hb : 0 ≤ best.best_value)
    (hbo : best.best_value = 0 → old_tile_value ≤ best.best_old_tile_value) :
    consider_settler_action act extra (-1) old_tile_value in_use delay best x y
      = some best := by
  unfold consider_settler_action
  rw [settler_action_total_value_skipped extra (-1) old_tile_value in_use delay
    ⟨he, by omega⟩]
  simp only [Option.map_some', Option.some.injEq]
  rw [if_neg]
  intro h
  rcases h with h | ⟨h1, h2⟩
  · omega
  · have := hbo h1.symm
    omega

/-- C21 (failing run).  In the barren world the river tile `(1, 1)` cannot get a road
(`ai_calc_road` gives `-1`, and so does the cache), but a road leads to it from the
north, so `road_bonus` is `1` and the candidate comes with `extra = 5`: with old tile
value `17` on a tile not in use the base value is `(-1 - 17) * 16 + 5 * 64 = 32`, the
total value `2` replaces the best so far, and `evaluate_improvements` returns the value
`2` with `ACTIVITY_ROAD` at `(1, 1)`, a pair whose cache cell is `-1`. -/
theorem evaluate_improvements_sentinel_chosen :
    (ai_calc_road barren_game_env.toEnv river_map sample_cached_city.pcity human_player
      1 1 1 1).1 = -1 ∧
    barren_cities.map (fun c => c.ai.road 1 1) = [-1] ∧
    road_bonus barren_game_env river_map sample_state 1 1 S_ROAD = 1 ∧
    city_tile_value barren_game_env.toEnv river_map sample_cached_city.pcity 1 1 0 0 = 17 ∧
    consider_settler_action unit_activity.ACTIVITY_ROAD 5 (-1) 17 false 4
      { best_value := 0, best_old_tile_value := 9999,
        best_act := unit_activity.ACTIVITY_IDLE, gx := -1, gy := -1 } 1 1 =
      some { best_value := 2, best_old_tile_value := 17,
             best_act := unit_activity.ACTIVITY_ROAD, gx := 1, gy := 1 } ∧
    evaluate_improvements barren_game_env river_map sample_state barren_cities
      sample_settler unit_activity.ACTIVITY_IDLE (-1) (-1) =
      some (2, unit_activity.ACTIVITY_ROAD, 1, 1) := by
  decide

/-- The value returned after the scan.  When the scan of the cities ends with `best`
and `unit_foodbox_cost` gives `food_cost` with `40 + food_cost` not `0`,
`evaluate_improvements` returns `max(0, n / (40 + food_cost))` where `n` is
`(best - food_upkeep * FOOD_WEIGHTING) * 100` as an `int`; when that number is within the
`int` range the returned value is
`max(0, (best - food_upkeep * FOOD_WEIGHTING) * 100 / (40 + food_cost))`.  The returned
value is not negative; when it is `0` the outputs are `ACTIVITY_IDLE` and `(-1, -1)`, and
when it is positive they are the activity and the tile that the scan recorded. -/
theorem evaluate_improvements_value (e : GameEnv) (m : civ_map) (st : settlers_state)
    (cities : List cached_city) (punit : unit) (best_act0 : unit_activity) (gx0 gy0 : Int)
    (food_cost : Int) (best : settler_best)
    (hfc : unit_foodbox_cost e m punit = some food_cost)
    (hscan : cities.foldlM (fun b c => evaluate_improvements_city e m st punit c b)
      { best_value := 0, best_old_tile_value := 9999, best_act := best_act0,
        gx := gx0, gy := gy0 } = some best)
    (hdiv : 40 + food_cost ≠ 0) :
    ∃ r, evaluate_improvements e m st cities punit best_act0 gx0 gy0 = some r ∧
      r.1 = max 0 (Int.tdiv
        (wrap32 ((best.best_value - unit_food_upkeep e punit * e.FOOD_WEIGHTING) * 100))
        (40 + food_cost)) ∧
      (-2147483648 ≤ (best.best_value - unit_food_upkeep e punit * e.FOOD_WEIGHTING) * 100
          ∧ (best.best_value - unit_food_upkeep e punit * e.FOOD_WEIGHTING) * 100
            < 2147483648 →
        r.1 = max 0 (Int.tdiv
          ((best.best_value - unit_food_upkeep e punit * e.FOOD_WEIGHTING) * 100)
          (40 + food_cost))) ∧
      0 ≤ r.1 ∧
      (r.1 = 0 → r.2 = (unit_activity.ACTIVITY_IDLE, -1, -1)) ∧
      (0 < r.1 → r.2 = (best.best_act, best.gx, best.gy)) := by
  refine ⟨_, evaluate_improvements_eq e m st cities punit best_act0 gx0 gy0 food_cost best
    hfc hscan hdiv, ?_⟩
  have hr : ∀ hfit : -2147483648
        ≤ (best.best_value - unit_food_upkeep e punit * e.FOOD_WEIGHTING) * 100
      ∧ (best.best_value - unit_food_upkeep e punit * e.FOOD_WEIGHTING) * 100 < 2147483648,
      Int.tdiv
        (wrap32 ((best.best_value - unit_food_upkeep e punit * e.FOOD_WEIGHTING) * 100))
        (40 + food_cost)
      = Int.tdiv ((best.best_value - unit_food_upkeep e punit * e.FOOD_WEIGHTING) * 100)
        (40 + food_cost) := by
    intro hfit
    rw [wrap32_eq hfit.1 hfit.2]
  generalize Int.tdiv
    ((best.best_value - unit_food_upkeep e punit * e.FOOD_WEIGHTING) * 100)
    (40 + food_cost) = q0 at hr
  generalize Int.tdiv
    (wrap32 ((best.best_value - unit_food_upkeep e punit * e.FOOD_WEIGHTING) * 100))
    (40 + food_cost) = q at hr
  have h0 : 0 ≤ max 0 q := le_max_left 0 q
  by_cases hq : 0 < max 0 q
  · rw [if_pos hq]
    exact ⟨rfl, fun hfit => by rw [← hr hfit], h0, fun h => absurd h (by dsimp only; omega),
      fun _ => rfl⟩
  · rw [if_neg hq]
    exact ⟨rfl, fun hfit => by rw [← hr hfit], h0, fun _ => rfl, fun h => absurd h hq⟩

theorem evaluate_improvements_value_witness :
    ∃ r, evaluate_improvements sample_game_env sample_map sample_state sample_cities
        sample_settler unit_activity.ACTIVITY_IDLE (-1) (-1) = some r ∧
      r.1 = max 0 (Int.tdiv
        (wrap32 ((184 - unit_food_upkeep sample_game_env sample_settler
          * sample_game_env.FOOD_WEIGHTING) * 100)) (40 + 30)) ∧
      (-2147483648 ≤ (184 - unit_food_upkeep sample_game_env sample_settler
            * sample_game_env.FOOD_WEIGHTING) * 100
          ∧ (184 - unit_food_upkeep sample_game_env sample_settler
            * sample_game_env.FOOD_WEIGHTING) * 100 < 2147483648 →
        r.1 = max 0 (Int.tdiv
          ((184 - unit_food_upkeep sample_game_env sample_settler
            * sample_game_env.FOOD_WEIGHTING) * 100) (40 + 30))) ∧
      0 ≤ r.1 ∧
      (r.1 = 0 → r.2 = (unit_activity.ACTIVITY_IDLE, -1, -1)) ∧
      (0 < r.1 → r.2 = (unit_activity.ACTIVITY_POLLUTION, 0, 0)) :=
  evaluate_improvements_value sample_game_env sample_map sample_state sample_cities
    sample_settler unit_activity.ACTIVITY_IDLE (-1) (-1) 30
    { best_value := 184, best_old_tile_value := 0,
      best_act := unit_activity.ACTIVITY_POLLUTION, gx := 0, gy := 0 }
    (by decide) (by decide) (by decide)

/-- C22 (failing run).  In the rich world the settler stands on the polluted tile
`(0, 0)`, a worked tile of the city, and cleaning takes no time: the candidate has new
tile value 708 and old tile value 76, the base value is `(708 - 76) * 64 = 40448`, and
with delay 0 the total value is `40448 * 40448 / 64 = 25563136`, which the scan records
with `ACTIVITY_POLLUTION` at `(0, 0)`.  With food upkeep 1 and food cost 30,
`(25563136 - 1 * 19) * 100 = 2556311700` does not fit an `int`: it is kept as
`-1738655596`, the quotient is negative, and `evaluate_improvements` returns `0` with
`ACTIVITY_IDLE` and `(-1, -1)`, where
`max(0, (best - food_upkeep * FOOD_WEIGHTING) * 100 / (40 + food_cost))` is `36518738`. -/
theorem evaluate_improvements_value_overflow :
    rich_cities.foldlM
        (fun b c => evaluate_improvements_city rich_game_env polluted_map sample_state
          near_settler c b)
        { best_value := 0, best_old_tile_value := 9999,
          best_act := unit_activity.ACTIVITY_IDLE, gx := -1, gy := -1 }
      = some { best_value := 25563136, best_old_tile_value := 76,
               best_act := unit_activity.ACTIVITY_POLLUTION, gx := 0, gy := 0 } ∧
    settler_action_base_value 0 708 76 true = 40448 ∧
    settler_action_total_value 0 708 76 true 0 = some 25563136 ∧
    unit_food_upkeep rich_game_env near_settler = 1 ∧
    rich_game_env.FOOD_WEIGHTING = 19 ∧
    unit_foodbox_cost rich_game_env polluted_map near_settler = some 30 ∧
    ((25563136 : Int) - 1 * 19) * 100 = 2556311700 ∧
    wrap32 ((25563136 - 1 * 19) * 100) = -1738655596 ∧
    evaluate_improvements rich_game_env polluted_map sample_state rich_cities near_settler
      unit_activity.ACTIVITY_IDLE (-1) (-1) = some (0, unit_activity.ACTIVITY_IDLE, -1, -1) ∧
    max 0 (Int.tdiv (((25563136 : Int) - 1 * 19) * 100) (40 + 30)) = 36518738 := by
  decide

/-! ### Nothing to do -/

theorem evaluate_improvements_tile_filtered (e : GameEnv) (m : civ_map) (st : settlers_state)
    (punit : unit) (c : cached_city) (best : settler_best) (i j x y : Int)
    (h : e.get_worker_city c.pcity i j = city_tile_type.C_TILE_UNAVAILABLE
      ∨ ¬ legal_destination e st punit x y
      ∨ is_already_assigned e st punit punit.owner x y = true) :
    evaluate_improvements_tile e m st punit c best i j x y = some best := by
  unfold evaluate_improvements_tile
  by_cases h1 : e.get_worker_city c.pcity i j = city_tile_type.C_TILE_UNAVAILABLE
  · rw [if_pos h1]
  · rw [if_neg h1, if_neg]
    rintro ⟨hl, ha⟩
    rcases h with h | h | h
    · exact h1 h
    · exact h hl
    · rw [h] at ha
      exact absurd ha (by decide)

/-- Nothing to do, within the `int` range.  For a player with no cities, or when every
tile of every city is unavailable to the city, fails one of the three tests of a legal
destination, or is already assigned, `evaluate_improvements` returns `0` with
`ACTIVITY_IDLE` and the target `(-1, -1)`, for a unit with non-negative food upkeep
whose weighted upkeep, times 100, is within the `int` range (`FOOD_WEIGHTING` and the
granary sizes being non-negative, and `unit_foodbox_cost` finding the city of a virtual
unit). -/
theorem evaluate_improvements_nothing (e : GameEnv) (m : civ_map) (st : settlers_state)
    (cities : List cached_city) (punit : unit) (best_act0 : unit_activity) (gx0 gy0 : Int)
    (food_cost : Int) (hfc : unit_foodbox_cost e m punit = some food_cost)
    (hup : 0 ≤ e.utype_food_cost punit) (hfw : 0 ≤ e.FOOD_WEIGHTING)
    (hgr : ∀ size, 0 ≤ e.city_granary_size size)
    (hfit : unit_food_upkeep e punit * e.FOOD_WEIGHTING * 100 ≤ 2147483648)
    (h : cities = [] ∨
      ∀ c ∈ cities, ∀ p ∈ e.city_map_checked_iterate c.pcity.x c.pcity.y,
        e.get_worker_city c.pcity p.1.1 p.1.2 = city_tile_type.C_TILE_UNAVAILABLE
        ∨ ¬ legal_destination e st punit p.2.1 p.2.2
        ∨ is_already_assigned e st punit punit.owner p.2.1 p.2.2 = true) :
    evaluate_improvements e m st cities punit best_act0 gx0 gy0
      = some (0, unit_activity.ACTIVITY_IDLE, -1, -1) := by
  have h2 : ∀ c ∈ cities, ∀ p ∈ e.city_map_checked_iterate c.pcity.x c.pcity.y,
      e.get_worker_city c.pcity p.1.1 p.1.2 = city_tile_type.C_TILE_UNAVAILABLE
      ∨ ¬ legal_destination e st punit p.2.1 p.2.2
      ∨ is_already_assigned e st punit punit.owner p.2.1 p.2.2 = true := by
    rcases h with h | h
    · subst h
      intro c hc
      exact absurd hc (List.not_mem_nil c)
    · exact h
  have hscan : cities.foldlM (fun b c => evaluate_improvements_city e m st punit c b)
      { best_value := 0, best_old_tile_value := 9999, best_act := best_act0,
        gx := gx0, gy := gy0 }
      = some { best_value := 0, best_old_tile_value := 9999, best_act := best_act0,
               gx := gx0, gy := gy0 } := by
    apply foldlM_option_fixed
    intro c hc
    unfold evaluate_improvements_city
    apply foldlM_option_fixed
    intro p hp
    exact evaluate_improvements_tile_filtered e m st punit c _ _ _ _ _ (h2 c hc p hp)
  have hcost := unit_foodbox_cost_nonneg e m punit hgr food_cost hfc
  rw [evaluate_improvements_eq e m st cities punit best_act0 gx0 gy0 food_cost _ hfc hscan
    (by omega)]
  have hupk := unit_food_upkeep_nonneg e punit hup
  have hmul : 0 ≤ unit_food_upkeep e punit * e.FOOD_WEIGHTING := mul_nonneg hupk hfw
  have hw : wrap32 (((0 : Int) - unit_food_upkeep e punit * e.FOOD_WEIGHTING) * 100)
      = ((0 : Int) - unit_food_upkeep e punit * e.FOOD_WEIGHTING) * 100 :=
    wrap32_eq (by omega) (by omega)
  have hq := tdiv_nonpos_of_nonpos
    (((0 : Int) - unit_food_upkeep e punit * e.FOOD_WEIGHTING) * 100) (40 + food_cost)
    (by omega) (by omega)
  have hm : max 0 (Int.tdiv
      (wrap32 (((0 : Int) - unit_food_upkeep e punit * e.FOOD_WEIGHTING) * 100))
      (40 + food_cost)) = 0 := by
    rw [hw]
    exact max_eq_left hq
  dsimp only
  rw [hm, if_neg (lt_irrefl 0)]

theorem evaluate_improvements_nothing_witness :
    evaluate_improvements sample_game_env sample_map hostile_state sample_cities
      sample_settler unit_activity.ACTIVITY_ROAD 5 5
      = some (0, unit_activity.ACTIVITY_IDLE, -1, -1) :=
  evaluate_improvements_nothing sample_game_env sample_map hostile_state sample_cities
    sample_settler unit_activity.ACTIVITY_ROAD 5 5 30 (by decide) (by decide) (by decide)
    sample_game_env_yields.2.2.2.2.2.2.2.2.2.1 (by decide)
    (Or.inr (fun c _ p _ => Or.inr (Or.inl (fun hl =>
      absurd (show BV_CHECK_MASK 2 2 = false from hl.2.2) (by decide)))))

/-- C25.  `city_tile_value` is `F * fw + (S * SHIELD_WEIGHTING * shield_bonus) / 100
+ (trade * trade_want * (tax_bonus * tax + lux_bonus * lux + sci_bonus * sci)) / 10000`
with `fw = food_weighting(MAX(2, size))`, `F = food + 9 * min(food, foodneed)` when
`foodneed > 0` and `food` otherwise, and `S` likewise from the shields and `prodneed`.
For non-negative yields and weights the value is at least the value with both thresholds
`0`. -/
theorem city_tile_value_formula (g : Env) (m : civ_map) (pcity : city) (x y : Int)
    (foodneed prodneed : Int) (hy : yields_nonneg g) :
    city_tile_value g m pcity x y foodneed prodneed =
      (if foodneed > 0 then
          g.city_get_food_tile m x y pcity + 9 * min (g.city_get_food_tile m x y pcity) foodneed
        else g.city_get_food_tile m x y pcity) * food_weighting g (max 2 pcity.size)
      + Int.tdiv
        ((if prodneed > 0 then
            g.city_get_shields_tile m x y pcity
              + 9 * min (g.city_get_shields_tile m x y pcity) prodneed
          else g.city_get_shields_tile m x y pcity)
          * g.SHIELD_WEIGHTING * g.city_shield_bonus pcity) 100
      + Int.tdiv
        (g.city_get_trade_tile m x y pcity * pcity.trade_want
          * (g.city_tax_bonus pcity * pcity.owner.tax
            + g.city_luxury_bonus pcity * pcity.owner.luxury
            + g.city_science_bonus pcity * pcity.owner.science)) 10000
    ∧ city_tile_value g m pcity x y 0 0 ≤ city_tile_value g m pcity x y foodneed prodneed := by
  constructor
  · unfold city_tile_value
    dsimp only
    rw [mul_assoc _ g.SHIELD_WEIGHTING]
  · have hfw := food_weighting_nonneg g hy (max 2 pcity.size)
    obtain ⟨hf, hs, _, hsb, _, _, _, _, hSW, _, _⟩ := hy
    have hfood := hf m x y pcity
    have hsh := hs m x y pcity
    have hk : 0 ≤ g.SHIELD_WEIGHTING * g.city_shield_bonus pcity := mul_nonneg hSW (hsb _)
    unfold city_tile_value
    simp only [gt_iff_lt, lt_self_iff_false, if_false]
    have h1 : g.city_get_food_tile m x y pcity * food_weighting g (max 2 pcity.size) ≤
        (if 0 < foodneed then
          g.city_get_food_tile m x y pcity + 9 * min (g.city_get_food_tile m x y pcity) foodneed
        else g.city_get_food_tile m x y pcity) * food_weighting g (max 2 pcity.size) := by
      apply mul_le_mul_of_nonneg_right _ hfw
      split
      · rename_i hn
        have : 0 ≤ min (g.city_get_food_tile m x y pcity) foodneed := le_min hfood (le_of_lt hn)
        omega
      · exact le_refl _
    have hS : g.city_get_shields_tile m x y pcity ≤
        (if 0 < prodneed then
          g.city_get_shields_tile m x y pcity
            + 9 * min (g.city_get_shields_tile m x y pcity) prodneed
        else g.city_get_shields_tile m x y pcity) := by
      split
      · rename_i hn
        have : 0 ≤ min (g.city_get_shields_tile m x y pcity) prodneed :=
          le_min hsh (le_of_lt hn)
        omega
      · exact le_refl _
    have h2 : Int.tdiv (g.city_get_shields_tile m x y pcity
          * (g.SHIELD_WEIGHTING * g.city_shield_bonus pcity)) 100 ≤
        Int.tdiv ((if 0 < prodneed then
            g.city_get_shields_tile m x y pcity
              + 9 * min (g.city_get_shields_tile m x y pcity) prodneed
          else g.city_get_shields_tile m x y pcity)
          * (g.SHIELD_WEIGHTING * g.city_shield_bonus pcity)) 100 := by
      have ha : 0 ≤ g.city_get_shields_tile m x y pcity
          * (g.SHIELD_WEIGHTING * g.city_shield_bonus pcity) := mul_nonneg hsh hk
      have hab := mul_le_mul_of_nonneg_right hS hk
      rw [Int.tdiv_eq_ediv ha (by decide), Int.tdiv_eq_ediv (le_trans ha hab) (by decide)]
      exact Int.ediv_le_ediv (by decide) hab
    omega

theorem city_tile_value_formula_witness :
    city_tile_value sample_game_env.toEnv sample_map sample_city 0 0 0 0
      ≤ city_tile_value sample_game_env.toEnv sample_map sample_city 0 0 3 2 :=
  (city_tile_value_formula sample_game_env.toEnv sample_map sample_city 0 0 3 2
    sample_game_env_yields).2

/-- C24 (counterexample).  A city of size 1 in a ruleset where the entry of size 1 of
the food weighting table is `28` and the entry of size 2 is `25`: a worked tile whose
food rises from 2 to 4 is valued `50` before and `100` after, which is `2 * 25` more and
not `2 * 28`, and its base value (without bonus) is `64 * 2 * 25 = 3200`, not
`64 * 2 * 28 = 3584`. -/
theorem city_tile_value_size_one_entry :
    hamlet.size = 1 ∧
    food_weighting irrigable_env 1 = 28 ∧ food_weighting irrigable_env 2 = 25 ∧
    irrigable_env.city_get_food_tile sample_map 0 0 hamlet = 2 ∧
    irrigable_env.city_get_food_tile (map_set_special sample_map 0 0 S_IRRIGATION) 0 0 hamlet
      = 4 ∧
    city_tile_value irrigable_env sample_map hamlet 0 0 0 0 = 50 ∧
    city_tile_value irrigable_env (map_set_special sample_map 0 0 S_IRRIGATION) hamlet
      0 0 0 0 = 100 ∧
    settler_action_base_value 0
      (city_tile_value irrigable_env (map_set_special sample_map 0 0 S_IRRIGATION) hamlet
        0 0 0 0)
      (city_tile_value irrigable_env sample_map hamlet 0 0 0 0) true = 3200 ∧
    (3200 : Int) ≠ 64 * 2 * food_weighting irrigable_env 1 := by
  decide

/-- C24 (amended).  `city_tile_value` scales the food of a tile by
`food_weighting(MAX(2, size))`: for a city of size 1 that is the entry of size 2, not the
marked-down entry of size 1.  So when the food of a tile rises from 2 to 4 with the
other yields unchanged, its value rises by `2 * food_weighting(2)`, and the base value of
the candidate on a worked tile is `64 * 2 * food_weighting(2) + 64 * extra`, floored at
zero. -/
theorem city_tile_value_small_city (g : Env) (m m2 : civ_map) (pcity : city) (x y : Int)
    (extra : Int) (hsize : pcity.size = 1)
    (hf : g.city_get_food_tile m x y pcity = 2) (hf2 : g.city_get_food_tile m2 x y pcity = 4)
    (hs : g.city_get_shields_tile m2 x y pcity = g.city_get_shields_tile m x y pcity)
    (ht : g.city_get_trade_tile m2 x y pcity = g.city_get_trade_tile m x y pcity) :
    city_tile_value g m pcity x y 0 0
      = 2 * food_weighting g 2
        + Int.tdiv (g.city_get_shields_tile m x y pcity
          * (g.SHIELD_WEIGHTING * g.city_shield_bonus pcity)) 100
        + Int.tdiv (g.city_get_trade_tile m x y pcity * pcity.trade_want
          * (g.city_tax_bonus pcity * pcity.owner.tax
            + g.city_luxury_bonus pcity * pcity.owner.luxury
            + g.city_science_bonus pcity * pcity.owner.science)) 10000
    ∧ city_tile_value g m2 pcity x y 0 0
      = city_tile_value g m pcity x y 0 0 + 2 * food_weighting g 2
    ∧ settler_action_base_value extra (city_tile_value g m2 pcity x y 0 0)
        (city_tile_value g m pcity x y 0 0) true
      = max 0 (64 * 2 * food_weighting g 2 + 64 * extra) := by
  have hmax : max 2 pcity.size = 2 := by
    rw [hsize]
    decide
  have hd : city_tile_value g m2 pcity x y 0 0
      = city_tile_value g m pcity x y 0 0 + 2 * food_weighting g 2 := by
    unfold city_tile_value
    simp only [gt_iff_lt, lt_self_iff_false, if_false, hmax, hf, hf2, hs, ht]
    omega
  refine ⟨?_, hd, ?_⟩
  · unfold city_tile_value
    simp only [gt_iff_lt, lt_self_iff_false, if_false, hmax, hf]
  unfold settler_action_base_value
  simp only [if_true, hd]
  congr 1
  omega

theorem city_tile_value_small_city_witness :
    settler_action_base_value (-1)
        (city_tile_value irrigable_env (map_set_special sample_map 0 0 S_IRRIGATION) hamlet
          0 0 0 0)
        (city_tile_value irrigable_env sample_map hamlet 0 0 0 0) true
      = max 0 (64 * 2 * food_weighting irrigable_env 2 + 64 * (-1)) :=
  (city_tile_value_small_city irrigable_env sample_map
    (map_set_special sample_map 0 0 S_IRRIGATION) hamlet 0 0 (-1)
    (by decide) (by decide) (by decide) (by decide) (by decide)).2.2

/-! ### Tiles that are taken -/

theorem is_already_assigned_scan_iff (e : GameEnv) (myunit : unit) (pplayer : player)
    (l : List unit) :
    is_already_assigned_scan e myunit pplayer l = true ↔
      ∃ punit ∈ l, punit.id ≠ myunit.id ∧
        (e.pplayers_allied punit.owner pplayer = false ∨
          (e.unit_flag punit unit_flag_id.F_SETTLERS = true
            ∧ e.unit_flag myunit unit_flag_id.F_SETTLERS = true)) := by
  induction l with
  | nil => simp [is_already_assigned_scan]
  | cons u l ih =>
    unfold is_already_assigned_scan
    by_cases hid : u.id = myunit.id
    · rw [if_pos hid, ih]
      constructor
      · rintro ⟨p, hp, h⟩
        exact ⟨p, List.mem_cons_of_mem u hp, h⟩
      · rintro ⟨p, hp, h⟩
        rcases List.mem_cons.mp hp with rfl | hp
        · exact absurd hid h.1
        · exact ⟨p, hp, h⟩
    · rw [if_neg hid]
      by_cases hal : e.pplayers_allied u.owner pplayer = true
      · simp only [hal, Bool.not_true, Bool.false_eq_true, if_false]
        by_cases hs : (e.unit_flag u unit_flag_id.F_SETTLERS
            && e.unit_flag myunit unit_flag_id.F_SETTLERS) = true
        · rw [if_pos hs]
          simp only [true_iff]
          rw [Bool.and_eq_true] at hs
          exact ⟨u, List.mem_cons_self u l, hid, Or.inr hs⟩
        · rw [if_neg hs, ih]
          constructor
          · rintro ⟨p, hp, h⟩
            exact ⟨p, List.mem_cons_of_mem u hp, h⟩
          · rintro ⟨p, hp, h⟩
            rcases List.mem_cons.mp hp with rfl | hp
            · rcases h.2 with h2 | h2
              · rw [hal] at h2
                exact absurd h2 (by decide)
              · rw [Bool.and_eq_true] at hs
                exact absurd h2 hs
            · exact ⟨p, hp, h⟩
      · have hal2 : e.pplayers_allied u.owner pplayer = false := by
          cases h : e.pplayers_allied u.owner pplayer
          · rfl
          · exact absurd h hal
        simp only [hal2, Bool.not_false, if_true, true_iff]
        exact ⟨u, List.mem_cons_self u l, hid, Or.inl hal2⟩

/-- C26.  When `myunit` stands on the tile `(x, y)`, or has it as goto destination,
`is_already_assigned` returns `TRUE` exactly when some other unit on the tile belongs to
a player not allied with `pplayer`, or some other unit on the tile has `F_SETTLERS`
while `myunit` has `F_SETTLERS`; the assigned bits of the tile are not read.  So it
returns `FALSE` when the other units on the tile are non-settler units of allied
players, and `TRUE` when `myunit` is a settler and another settler is on the tile. -/
theorem is_already_assigned_on_tile (e : GameEnv) (st : settlers_state) (myunit : unit)
    (pplayer : player) (x y : Int)
    (hpos : same_pos myunit.x myunit.y x y = true
      ∨ ∃ d, myunit.goto_dest = some d ∧ same_pos d.1 d.2 x y = true) :
    (is_already_assigned e st myunit pplayer x y = true ↔
      ∃ punit ∈ st.units x y, punit.id ≠ myunit.id ∧
        (e.pplayers_allied punit.owner pplayer = false ∨
          (e.unit_flag punit unit_flag_id.F_SETTLERS = true
            ∧ e.unit_flag myunit unit_flag_id.F_SETTLERS = true))) ∧
    ((∀ punit ∈ st.units x y, punit.id ≠ myunit.id →
        e.pplayers_allied punit.owner pplayer = true
          ∧ e.unit_flag punit unit_flag_id.F_SETTLERS = false) →
      is_already_assigned e st myunit pplayer x y = false) ∧
    (e.unit_flag myunit unit_flag_id.F_SETTLERS = true →
      (∃ punit ∈ st.units x y, punit.id ≠ myunit.id
        ∧ e.unit_flag punit unit_flag_id.F_SETTLERS = true) →
      is_already_assigned e st myunit pplayer x y = true) ∧
    (∀ a, is_already_assigned e { st with assigned := a } myunit pplayer x y
      = is_already_assigned e st myunit pplayer x y) := by
  have heq : ∀ st2 : settlers_state, is_already_assigned e st2 myunit pplayer x y
      = is_already_assigned_scan e myunit pplayer (st2.units x y) := by
    intro st2
    unfold is_already_assigned
    rcases hpos with h | ⟨d, hd, h⟩
    · simp only [h, Bool.true_or, if_true]
    · simp only [hd, h, Bool.or_true, if_true]
  have hiff := is_already_assigned_scan_iff e myunit pplayer (st.units x y)
  rw [← heq st] at hiff
  refine ⟨hiff, ?_, ?_, ?_⟩
  · intro hall
    cases hr : is_already_assigned e st myunit pplayer x y
    · rfl
    · obtain ⟨p, hp, hne, h⟩ := hiff.mp hr
      obtain ⟨h1, h2⟩ := hall p hp hne
      rcases h with h | h
      · rw [h1] at h
        exact absurd h (by decide)
      · rw [h2] at h
        exact absurd h.1 (by decide)
  · rintro hmy ⟨p, hp, hne, hs⟩
    exact hiff.mpr ⟨p, hp, hne, Or.inr ⟨hs, hmy⟩⟩
  · intro a
    rw [heq, heq]

theorem is_already_assigned_on_tile_witness :
    is_already_assigned allied_game_env crowded_state sample_settler human_player 2 2 = false
    ∧ is_already_assigned allied_game_env settled_state sample_settler human_player 2 2
      = true :=
  ⟨(is_already_assigned_on_tile allied_game_env crowded_state sample_settler human_player
      2 2 (Or.inl (by decide))).2.1 (by decide),
   (is_already_assigned_on_tile allied_game_env settled_state sample_settler human_player
      2 2 (Or.inl (by decide))).2.2.1 (by decide)
      ⟨allied_settler,
        show allied_settler ∈ [sample_settler, allied_settler] from
          List.mem_cons_of_mem _ (List.mem_cons_self _ _),
        by decide, by decide⟩⟩

/-! ## The enemy masks -/

theorem BV_SET_testBit (bv bit k : Nat) :
    (BV_SET bv bit).testBit k = (bv.testBit k || decide (bit = k)) := by
  unfold BV_SET
  rw [Nat.testBit_or, Nat.testBit_two_pow]

theorem recount_enemy_masks_row_eq (e : GameEnv) (player1 : player) (l : List player) :
    ∀ enemies : Nat → Nat, recount_enemy_masks_row e player1 l enemies =
      array_set enemies player1.player_no
        (enemy_mask_of e player1 l (enemies player1.player_no)) := by
  unfold recount_enemy_masks_row enemy_mask_of
  induction l with
  | nil =>
    intro enemies
    funext n
    simp only [List.foldl_nil, array_set]
    split
    · rename_i h
      rw [h]
    · rfl
  | cons p l ih =>
    intro enemies
    simp only [List.foldl_cons]
    rw [ih]
    funext n
    by_cases hal : e.pplayers_allied player1 p = true
    · simp only [hal, Bool.not_true, Bool.false_eq_true, if_false]
    · have hal2 : e.pplayers_allied player1 p = false := by
        cases h : e.pplayers_allied player1 p
        · rfl
        · exact absurd h hal
      simp only [hal2, Bool.not_false, if_true, array_set]
      split <;> rfl

theorem enemy_mask_of_testBit (e : GameEnv) (player1 : player) (l : List player) (k : Nat) :
    ∀ bv : Nat, (enemy_mask_of e player1 l bv).testBit k = true ↔
      (bv.testBit k = true ∨
        ∃ player2 ∈ l, e.pplayers_allied player1 player2 = false
          ∧ player2.player_no = k) := by
  unfold enemy_mask_of
  induction l with
  | nil =>
    intro bv
    simp
  | cons p l ih =>
    intro bv
    simp only [List.foldl_cons]
    rw [ih]
    by_cases hal : e.pplayers_allied player1 p = true
    · simp only [hal, Bool.not_true, Bool.false_eq_true, if_false, List.mem_cons]
      constructor
      · rintro (h | ⟨q, hq, h⟩)
        · exact Or.inl h
        · exact Or.inr ⟨q, Or.inr hq, h⟩
      · rintro (h | ⟨q, hq, h⟩)
        · exact Or.inl h
        · rcases hq with rfl | hq
          · rw [hal] at h
            exact absurd h.1 (by decide)
          · exact Or.inr ⟨q, hq, h⟩
    · have hal2 : e.pplayers_allied player1 p = false := by
        cases h : e.pplayers_allied player1 p
        · rfl
        · exact absurd h hal
      simp only [hal2, Bool.not_false, if_true, List.mem_cons, BV_SET_testBit,
        Bool.or_eq_true, decide_eq_true_eq]
      constructor
      · rintro ((h | h) | ⟨q, hq, h⟩)
        · exact Or.inl h
        · exact Or.inr ⟨p, Or.inl rfl, hal2, h⟩
        · exact Or.inr ⟨q, Or.inr hq, h⟩
      · rintro (h | ⟨q, hq, h⟩)
        · exact Or.inl (Or.inl h)
        · rcases hq with rfl | hq
          · exact Or.inl (Or.inr h.2)
          · exact Or.inr ⟨q, hq, h⟩

/-- The outer loop of `recount_enemy_masks` over a list `l` of players with distinct
numbers: the entry of a player of `l` is its mask, every other entry is untouched. -/
theorem recount_enemy_masks_fold (e : GameEnv) (players l : List player)
    (hinj : ∀ p ∈ l, ∀ q ∈ l, p.player_no = q.player_no → p = q) :
    ∀ enemies : Nat → Nat,
      (∀ p ∈ l, l.foldl (fun en player1 =>
          recount_enemy_masks_row e player1 players
            (array_set en player1.player_no (BV_CLR_ALL (en player1.player_no)))) enemies
          p.player_no = enemy_mask_of e p players 0) ∧
      (∀ n, (∀ p ∈ l, p.player_no ≠ n) → l.foldl (fun en player1 =>
          recount_enemy_masks_row e player1 players
            (array_set en player1.player_no (BV_CLR_ALL (en player1.player_no)))) enemies n
          = enemies n) := by
  induction l with
  | nil =>
    intro enemies
    exact ⟨fun p hp => absurd hp (List.not_mem_nil p), fun n _ => rfl⟩
  | cons a l ih =>
    intro enemies
    have hinj2 : ∀ p ∈ l, ∀ q ∈ l, p.player_no = q.player_no → p = q :=
      fun p hp q hq h => hinj p (List.mem_cons_of_mem a hp) q (List.mem_cons_of_mem a hq) h
    simp only [List.foldl_cons]
    obtain ⟨ih1, ih2⟩ := ih hinj2
      (recount_enemy_masks_row e a players
        (array_set enemies a.player_no (BV_CLR_ALL (enemies a.player_no))))
    have hstep : ∀ n, recount_enemy_masks_row e a players
        (array_set enemies a.player_no (BV_CLR_ALL (enemies a.player_no))) n =
        if n = a.player_no then enemy_mask_of e a players 0 else enemies n := by
      intro n
      rw [recount_enemy_masks_row_eq]
      simp only [array_set, BV_CLR_ALL, if_true]
      split <;> rfl
    constructor
    · intro p hp
      by_cases hpl : p ∈ l
      · exact ih1 p hpl
      · have hpa : p = a := by
          rcases List.mem_cons.mp hp with h | h
          · exact h
          · exact absurd h hpl
        subst hpa
        rw [ih2 p.player_no, hstep, if_pos rfl]
        intro q hq hno
        have := hinj q (List.mem_cons_of_mem p hq) p (List.mem_cons_self p l) hno
        subst this
        exact hpl hq
    · intro n hn
      rw [ih2 n (fun p hp => hn p (List.mem_cons_of_mem a hp)), hstep,
        if_neg (fun h => hn a (List.mem_cons_self a l) h.symm)]

theorem enemy_mask_of_congr (e e2 : GameEnv) (player1 : player) (l : List player)
    (h : ∀ q ∈ l, e2.pplayers_allied player1 q = e.pplayers_allied player1 q) :
    ∀ bv : Nat, enemy_mask_of e2 player1 l bv = enemy_mask_of e player1 l bv := by
  unfold enemy_mask_of
  induction l with
  | nil =>
    intro bv
    rfl
  | cons p l ih =>
    intro bv
    simp only [List.foldl_cons]
    rw [h p (List.mem_cons_self p l)]
    exact ih (fun q hq => h q (List.mem_cons_of_mem p hq)) _

theorem recount_enemy_masks_entry (e : GameEnv) (players : List player)
    (enemies : Nat → Nat)
    (hinj : ∀ p ∈ players, ∀ q ∈ players, p.player_no = q.player_no → p = q) :
    (∀ p ∈ players, recount_enemy_masks e players enemies p.player_no
      = enemy_mask_of e p players 0) ∧
    (∀ n, (∀ p ∈ players, p.player_no ≠ n) →
      recount_enemy_masks e players enemies n = enemies n) :=
  recount_enemy_masks_fold e players players hinj enemies

/-- C27.  After `recount_enemy_masks`, for players `p1`, `p2` of the game (numbered
apart), bit `p2` of `enemies[p1]` is set exactly when `pplayers_allied(p1, p2)` is
false.  If a second alliance relation differs from the first only on the pair `(a, b)`
(in either order), then the two rebuilds give the same mask to every number other than
those of `a` and `b`, and the masks of `a` and of `b` differ at most in bit `b` and in
bit `a`. -/
theorem recount_enemy_masks_bits (e : GameEnv) (players : List player)
    (enemies : Nat → Nat)
    (hinj : ∀ p ∈ players, ∀ q ∈ players, p.player_no = q.player_no → p = q) :
    (∀ p1 ∈ players, ∀ p2 ∈ players,
      ((recount_enemy_masks e players enemies p1.player_no).testBit p2.player_no = true ↔
        e.pplayers_allied p1 p2 = false)) ∧
    (∀ (e2 : GameEnv) (a b : player), a ∈ players → b ∈ players →
      (∀ p1 ∈ players, ∀ p2 ∈ players, ¬ ((p1 = a ∧ p2 = b) ∨ (p1 = b ∧ p2 = a)) →
        e2.pplayers_allied p1 p2 = e.pplayers_allied p1 p2) →
      (∀ n, n ≠ a.player_no → n ≠ b.player_no →
        recount_enemy_masks e2 players enemies n = recount_enemy_masks e players enemies n) ∧
      (∀ k, k ≠ b.player_no →
        (recount_enemy_masks e2 players enemies a.player_no).testBit k =
          (recount_enemy_masks e players enemies a.player_no).testBit k) ∧
      (∀ k, k ≠ a.player_no →
        (recount_enemy_masks e2 players enemies b.player_no).testBit k =
          (recount_enemy_masks e players enemies b.player_no).testBit k)) := by
  obtain ⟨h1, h2⟩ := recount_enemy_masks_entry e players enemies hinj
  constructor
  · intro p1 hp1 p2 hp2
    rw [h1 p1 hp1, enemy_mask_of_testBit]
    constructor
    · rintro (h | ⟨q, hq, hal, hno⟩)
      · simp at h
      · rw [← hinj q hq p2 hp2 hno]
        exact hal
    · intro hal
      exact Or.inr ⟨p2, hp2, hal, rfl⟩
  · intro e2 a b ha hb hsame
    obtain ⟨g1, g2⟩ := recount_enemy_masks_entry e2 players enemies hinj
    have hbit : ∀ c d : player, c ∈ players →
        (∀ p1 ∈ players, ∀ p2 ∈ players, ¬ ((p1 = c ∧ p2 = d) ∨ (p1 = d ∧ p2 = c)) →
          e2.pplayers_allied p1 p2 = e.pplayers_allied p1 p2) →
        ∀ k, k ≠ d.player_no →
        (recount_enemy_masks e2 players enemies c.player_no).testBit k =
          (recount_enemy_masks e players enemies c.player_no).testBit k := by
      intro c d hc hcd k hk
      rw [g1 c hc, h1 c hc, Bool.eq_iff_iff, enemy_mask_of_testBit, enemy_mask_of_testBit]
      have hsq : ∀ q ∈ players, q.player_no = k →
          e2.pplayers_allied c q = e.pplayers_allied c q := by
        intro q hq hno
        apply hcd c hc q hq
        rintro (⟨_, h⟩ | ⟨hcd2, h⟩)
        · rw [h] at hno
          exact hk hno.symm
        · rw [h] at hno
          rw [← hcd2] at hk
          exact hk hno.symm
      constructor
      · rintro (h | ⟨q, hq, hal, hno⟩)
        · exact Or.inl h
        · exact Or.inr ⟨q, hq, by rw [← hsq q hq hno]; exact hal, hno⟩
      · rintro (h | ⟨q, hq, hal, hno⟩)
        · exact Or.inl h
        · exact Or.inr ⟨q, hq, by rw [hsq q hq hno]; exact hal, hno⟩
    refine ⟨?_, hbit a b ha hsame, hbit b a hb ?_⟩
    · intro n hna hnb
      by_cases hex : ∃ p ∈ players, p.player_no = n
      · obtain ⟨p, hp, rfl⟩ := hex
        rw [g1 p hp, h1 p hp]
        apply enemy_mask_of_congr
        intro q hq
        apply hsame p hp q hq
        rintro (⟨h, _⟩ | ⟨h, _⟩)
        · exact hna (by rw [h])
        · exact hnb (by rw [h])
      · have hno : ∀ p ∈ players, p.player_no ≠ n := fun p hp h => hex ⟨p, hp, h⟩
        rw [g2 n hno, h2 n hno]
    · intro p1 hp1 p2 hp2 hne
      exact hsame p1 hp1 p2 hp2 (fun h => hne (Or.symm h))

theorem recount_enemy_masks_bits_witness :
    ((recount_enemy_masks war_game_env [human_player, ai_player] (fun _ => 7)
        human_player.player_no).testBit ai_player.player_no = true ↔
      war_game_env.pplayers_allied human_player ai_player = false) :=
  (recount_enemy_masks_bits war_game_env [human_player, ai_player] (fun _ => 7)
    (by
      intro p hp q hq h
      simp only [List.mem_cons, List.mem_singleton, List.not_mem_nil, or_false] at hp hq
      rcases hp with rfl | rfl <;> rcases hq with rfl | rfl <;>
        first | rfl | exact absurd h (by decide))).1
    human_player (List.mem_cons_self _ _) ai_player
    (List.mem_cons_of_mem _ (List.mem_cons_self _ _))

/-! ## Territory -/

/-- A loop over a grid of bit vectors whose every step adds to bit `k` of the tile
`(x, y)`: the bit is set at the end when it was set at the start or some step set it. -/
theorem bv_grid_fold_bits {α : Type} (f : (Int → Int → Nat) → α → (Int → Int → Nat))
    (Q : α → Prop) (x y : Int) (k : Nat)
    (hf : ∀ t a, ((f t a) x y).testBit k = true ↔ ((t x y).testBit k = true ∨ Q a))
    (l : List α) :
    ∀ t, ((l.foldl f t) x y).testBit k = true ↔
      ((t x y).testBit k = true ∨ ∃ a ∈ l, Q a) := by
  induction l with
  | nil =>
    intro t
    simp
  | cons a l ih =>
    intro t
    rw [List.foldl_cons, ih, hf]
    constructor
    · rintro ((h | h) | ⟨b, hb, h⟩)
      · exact Or.inl h
      · exact Or.inr ⟨a, List.mem_cons_self a l, h⟩
      · exact Or.inr ⟨b, List.mem_cons_of_mem a hb, h⟩
    · rintro (h | ⟨b, hb, h⟩)
      · exact Or.inl (Or.inl h)
      · rcases List.mem_cons.mp hb with rfl | hb
        · exact Or.inl (Or.inr h)
        · exact Or.inr ⟨b, hb, h⟩

theorem assign_region_bits (e : TerritoryEnv) (x y : Int) (player_no : Nat)
    (distance s : Int) (territory : Int → Int → Nat) (x1 y1 : Int) (k : Nat) :
    ((assign_region e x y player_no distance s territory) x1 y1).testBit k = true ↔
      ((territory x1 y1).testBit k = true ∨
        (player_no = k ∧ (x1, y1) ∈ e.square_iterate x y distance
          ∧ (s = 0 ∨ e.is_ocean_near_tile x1 y1 = true))) := by
  unfold assign_region
  rw [bv_grid_fold_bits _
    (fun p : Int × Int => player_no = k ∧ p = (x1, y1)
      ∧ (s = 0 ∨ e.is_ocean_near_tile x1 y1 = true)) x1 y1 k]
  · constructor
    · rintro (h | ⟨p, hp, h1, h2, h3⟩)
      · exact Or.inl h
      · subst h2
        exact Or.inr ⟨h1, hp, h3⟩
    · rintro (h | ⟨h1, h2, h3⟩)
      · exact Or.inl h
      · exact Or.inr ⟨(x1, y1), h2, h1, rfl, h3⟩
  · intro t p
    by_cases hc : s = 0 ∨ e.is_ocean_near_tile p.1 p.2 = true
    · rw [if_pos hc]
      unfold bv_grid_set
      by_cases hp : x1 = p.1 ∧ y1 = p.2
      · rw [if_pos hp, BV_SET_testBit]
        obtain ⟨hp1, hp2⟩ := hp
        subst hp1 hp2
        simp only [Bool.or_eq_true, decide_eq_true_eq, Prod.mk.eta, true_and]
        constructor
        · rintro (h | h)
          · exact Or.inl h
          · exact Or.inr ⟨h, hc⟩
        · rintro (h | h)
          · exact Or.inl h
          · exact Or.inr h.1
      · rw [if_neg hp]
        constructor
        · exact Or.inl
        · rintro (h | ⟨_, h2, _⟩)
          · exact h
          · exfalso
            apply hp
            rw [h2]
            exact ⟨rfl, rfl⟩
    · rw [if_neg hc]
      constructor
      · exact Or.inl
      · rintro (h | ⟨_, h2, h3⟩)
        · exact h
        · exfalso
          apply hc
          rw [h2]
          exact h3

theorem assign_territory_unit_bits (e : TerritoryEnv) (n : Nat)
    (territory : Int → Int → Nat) (punit : unit) (x1 y1 : Int) (k : Nat) :
    ((assign_territory_unit e n territory punit) x1 y1).testBit k = true ↔
      ((territory x1 y1).testBit k = true ∨
        (n = k ∧ e.attack_strength punit ≠ 0
          ∧ (x1, y1) ∈ e.square_iterate punit.x punit.y (territory_radius e punit)
          ∧ (e.is_sailing_unit punit = true → e.is_ocean_near_tile x1 y1 = true))) := by
  unfold assign_territory_unit territory_radius
  by_cases ha : e.attack_strength punit = 0
  · rw [if_neg (not_not.mpr ha)]
    constructor
    · exact Or.inl
    · rintro (h | ⟨_, h, _⟩)
      · exact h
      · exact absurd ha h
  · rw [if_pos ha]
    by_cases hs : e.is_sailing_unit punit = true
    · rw [if_pos hs, if_pos hs, assign_region_bits]
      constructor
      · rintro (h | ⟨h1, h2, h3⟩)
        · exact Or.inl h
        · rcases h3 with h3 | h3
          · exact absurd h3 (by decide)
          · exact Or.inr ⟨h1, ha, h2, fun _ => h3⟩
      · rintro (h | ⟨h1, _, h2, h3⟩)
        · exact Or.inl h
        · exact Or.inr ⟨h1, h2, Or.inr (h3 hs)⟩
    · rw [if_neg hs, if_neg hs]
      by_cases hg : e.is_ground_unit punit = true
      · rw [if_pos hg, if_pos hg, assign_region_bits]
        have hr : (1 + Int.tdiv punit.move_rate
              (if e.unit_flag punit unit_flag_id.F_IGTER = true then 1 else 3)) =
            (if e.unit_flag punit unit_flag_id.F_IGTER = true then
              1 + Int.tdiv punit.move_rate 1
            else 1 + Int.tdiv punit.move_rate 3) := by
          split <;> rfl
        rw [hr]
        constructor
        · rintro (h | ⟨h1, h2, _⟩)
          · exact Or.inl h
          · exact Or.inr ⟨h1, ha, h2, fun h => absurd h hs⟩
        · rintro (h | ⟨h1, _, h2, _⟩)
          · exact Or.inl h
          · exact Or.inr ⟨h1, h2, Or.inl rfl⟩
      · rw [if_neg hg, if_neg hg, assign_region_bits]
        constructor
        · rintro (h | ⟨h1, h2, _⟩)
          · exact Or.inl h
          · exact Or.inr ⟨h1, ha, h2, fun h => absurd h hs⟩
        · rintro (h | ⟨h1, _, h2, _⟩)
          · exact Or.inl h
          · exact Or.inr ⟨h1, h2, Or.inl rfl⟩

theorem assign_territory_player_bits (e : TerritoryEnv) (pl : player_lists)
    (territory : Int → Int → Nat) (x1 y1 : Int) (k : Nat) :
    ((assign_territory_player e pl territory) x1 y1).testBit k = true ↔
      ((territory x1 y1).testBit k = true ∨
        (pl.pplayer.player_no = k ∧
          ((∃ pcity ∈ pl.cities, (x1, y1) ∈ e.square_iterate pcity.x pcity.y 3) ∨
            ∃ punit ∈ pl.units, e.attack_strength punit ≠ 0
              ∧ (x1, y1) ∈ e.square_iterate punit.x punit.y (territory_radius e punit)
              ∧ (e.is_sailing_unit punit = true → e.is_ocean_near_tile x1 y1 = true)))) := by
  unfold assign_territory_player
  rw [bv_grid_fold_bits _
      (fun pcity : city => pl.pplayer.player_no = k
        ∧ (x1, y1) ∈ e.square_iterate pcity.x pcity.y 3) x1 y1 k
      (fun t pcity => by
        rw [assign_region_bits]
        constructor
        · rintro (h | ⟨h1, h2, _⟩)
          · exact Or.inl h
          · exact Or.inr ⟨h1, h2⟩
        · rintro (h | ⟨h1, h2⟩)
          · exact Or.inl h
          · exact Or.inr ⟨h1, h2, Or.inl rfl⟩),
    bv_grid_fold_bits _
      (fun punit : unit => pl.pplayer.player_no = k ∧ e.attack_strength punit ≠ 0
        ∧ (x1, y1) ∈ e.square_iterate punit.x punit.y (territory_radius e punit)
        ∧ (e.is_sailing_unit punit = true → e.is_ocean_near_tile x1 y1 = true)) x1 y1 k
      (fun t punit => assign_territory_unit_bits e _ t punit x1 y1 k)]
  constructor
  · rintro ((h | ⟨u, hu, h1, h2⟩) | ⟨c, hc, h1, h2⟩)
    · exact Or.inl h
    · exact Or.inr ⟨h1, Or.inr ⟨u, hu, h2⟩⟩
    · exact Or.inr ⟨h1, Or.inl ⟨c, hc, h2⟩⟩
  · rintro (h | ⟨h1, ⟨c, hc, h2⟩ | ⟨u, hu, h2⟩⟩)
    · exact Or.inl (Or.inl h)
    · exact Or.inr ⟨c, hc, h1, h2⟩
    · exact Or.inl (Or.inr ⟨u, hu, h1, h2⟩)

/-- C28.  After `assign_territory`, bit `n` of the territory set of the tile `(x1, y1)`
is set exactly when, for some player with number `n`, the tile is visited by
`square_iterate` with radius 3 around one of its cities, or with radius `R` around one
of its units with `attack_strength != 0`, where `R` is `1 + move_rate / SINGLE_MOVE` for
a sailing unit (and then the tile must have ocean near), `1 + move_rate / 1` for a
ground unit with `F_IGTER`, `1 + move_rate / 3` for another ground unit, and
`1 + move_rate / SINGLE_MOVE` for any other unit. -/
theorem assign_territory_bits (e : TerritoryEnv) (players : List player_lists)
    (x1 y1 : Int) (n : Nat) :
    ((assign_territory e players) x1 y1).testBit n = true ↔
      ∃ pl ∈ players, pl.pplayer.player_no = n ∧
        ((∃ pcity ∈ pl.cities, (x1, y1) ∈ e.square_iterate pcity.x pcity.y 3) ∨
          ∃ punit ∈ pl.units, e.attack_strength punit ≠ 0
            ∧ (x1, y1) ∈ e.square_iterate punit.x punit.y
              (if e.is_sailing_unit punit then 1 + Int.tdiv punit.move_rate e.SINGLE_MOVE
               else if e.is_ground_unit punit then
                 (if e.unit_flag punit unit_flag_id.F_IGTER then
                    1 + Int.tdiv punit.move_rate 1
                  else 1 + Int.tdiv punit.move_rate 3)
               else 1 + Int.tdiv punit.move_rate e.SINGLE_MOVE)
            ∧ (e.is_sailing_unit punit = true → e.is_ocean_near_tile x1 y1 = true)) := by
  unfold assign_territory
  rw [bv_grid_fold_bits _ _ x1 y1 n
    (fun t pl => assign_territory_player_bits e pl t x1 y1 n)]
  simp only [Nat.zero_testBit, Bool.false_eq_true, false_or]
  rfl

/-! ## Assigned tiles -/

/-- A loop whose every step returns and keeps a property returns and keeps it. -/
theorem foldlM_option_total {α β : Type} (P : β → Prop) (f : β → α → Option β)
    (l : List α) (hf : ∀ a ∈ l, ∀ b, P b → ∃ b2, f b a = some b2 ∧ P b2) :
    ∀ b, P b → ∃ b2, l.foldlM f b = some b2 ∧ P b2 := by
  induction l with
  | nil =>
    intro b hb
    exact ⟨b, rfl, hb⟩
  | cons a l ih =>
    intro b hb
    obtain ⟨b1, h1, hp1⟩ := hf a (List.mem_cons_self a l) b hb
    rw [List.foldlM_cons, h1]
    exact ih (fun a2 h2 => hf a2 (List.mem_cons_of_mem a h2)) b1 hp1

/-- The counterpart of `bv_grid_fold_bits` for a loop that may fail, on grids that
keep a property `P`. -/
theorem bv_grid_foldlM_bits {α : Type} (P : (Int → Int → Nat) → Prop)
    (f : (Int → Int → Nat) → α → Option (Int → Int → Nat))
    (Q : α → Prop) (x y : Int) (k : Nat) (l : List α)
    (hf : ∀ a ∈ l, ∀ t, P t → ∃ t2, f t a = some t2 ∧ P t2 ∧
      ((t2 x y).testBit k = true ↔ ((t x y).testBit k = true ∨ Q a))) :
    ∀ t, P t → ∃ t2, l.foldlM f t = some t2 ∧ P t2 ∧
      ((t2 x y).testBit k = true ↔ ((t x y).testBit k = true ∨ ∃ a ∈ l, Q a)) := by
  induction l with
  | nil =>
    intro t ht
    exact ⟨t, rfl, ht, by simp⟩
  | cons a l ih =>
    intro t ht
    obtain ⟨t1, h1, hp1, hb1⟩ := hf a (List.mem_cons_self a l) t ht
    obtain ⟨t2, h2, hp2, hb2⟩ :=
      ih (fun a2 h2 => hf a2 (List.mem_cons_of_mem a h2)) t1 hp1
    refine ⟨t2, ?_, hp2, ?_⟩
    · rw [List.foldlM_cons, h1]
      exact h2
    · rw [hb2, hb1]
      constructor
      · rintro ((h | h) | ⟨b, hb, h⟩)
        · exact Or.inl h
        · exact Or.inr ⟨a, List.mem_cons_self a l, h⟩
        · exact Or.inr ⟨b, List.mem_cons_of_mem a hb, h⟩
      · rintro (h | ⟨b, hb, h⟩)
        · exact Or.inl (Or.inl h)
        · rcases List.mem_cons.mp hb with rfl | hb
          · exact Or.inl (Or.inr h)
          · exact Or.inr ⟨b, hb, h⟩

theorem all_bits_testBit (k : Nat) : (0xFFFFFFFF : Nat).testBit k = decide (k < 32) := by
  have h : (0xFFFFFFFF : Nat) = 2 ^ 32 - 1 := by decide
  rw [h, Nat.testBit_two_pow_sub_one]

theorem shift_player_no (p : Nat) (hp : p < 32) : (1 <<< p) % 2 ^ 32 = 2 ^ p := by
  rw [Nat.one_shiftLeft]
  exact Nat.mod_eq_of_lt (Nat.pow_lt_pow_right (by decide) hp)

theorem bv_grid_set_lt (t : Int → Int → Nat) (x y : Int) (v : Nat)
    (ht : ∀ a b, t a b < 2 ^ 32) (hv : v < 2 ^ 32) :
    ∀ a b, bv_grid_set t x y v a b < 2 ^ 32 := by
  intro a b
  unfold bv_grid_set
  split
  · exact hv
  · exact ht a b

theorem assign_settlers_unit_bits (e : GameEnv) (p : Nat) (hp : p < 32)
    (assigned : Int → Int → Nat) (punit : unit) (x y : Int) (k : Nat) (hk : k < 32)
    (ht : ∀ a b, assigned a b < 2 ^ 32)
    (hgoto : (e.unit_flag punit unit_flag_id.F_SETTLERS = true
        ∨ e.unit_flag punit unit_flag_id.F_CITIES = true) →
      punit.activity = unit_activity.ACTIVITY_GOTO → punit.goto_dest ≠ none) :
    ∃ t2, assign_settlers_unit e (2 ^ p) assigned punit = some t2 ∧
      (∀ a b, t2 a b < 2 ^ 32) ∧
      ((t2 x y).testBit k = true ↔
        ((assigned x y).testBit k = true ∨ assigns_bit e p punit x y k)) := by
  unfold assign_settlers_unit assigns_bit
  have hi : 2 ^ p < 2 ^ 32 := Nat.pow_lt_pow_right (by decide) hp
  by_cases hs : e.unit_flag punit unit_flag_id.F_SETTLERS = true
      ∨ e.unit_flag punit unit_flag_id.F_CITIES = true
  · rw [if_pos hs, if_pos hs]
    by_cases hg : punit.activity = unit_activity.ACTIVITY_GOTO
    · rw [if_pos hg, if_pos hg]
      cases hd : punit.goto_dest with
      | none => exact absurd hd (hgoto hs hg)
      | some d =>
        refine ⟨_, rfl, bv_grid_set_lt _ _ _ _ ht (Nat.or_lt_two_pow (ht _ _) hi), ?_⟩
        unfold bv_grid_set
        by_cases hxy : x = d.1 ∧ y = d.2
        · rw [if_pos hxy, Nat.testBit_or, Nat.testBit_two_pow]
          obtain ⟨h1, h2⟩ := hxy
          subst h1 h2
          simp only [Bool.or_eq_true, decide_eq_true_eq, Prod.mk.eta, true_and]
        · rw [if_neg hxy]
          constructor
          · exact Or.inl
          · rintro (h | ⟨h, _⟩)
            · exact h
            · exfalso
              apply hxy
              rw [Option.some.injEq] at h
              rw [h]
              exact ⟨rfl, rfl⟩
    · rw [if_neg hg, if_neg hg]
      refine ⟨_, rfl, bv_grid_set_lt _ _ _ _ ht (by decide), ?_⟩
      unfold bv_grid_set
      by_cases hxy : x = punit.x ∧ y = punit.y
      · rw [if_pos hxy, all_bits_testBit]
        simp only [hk, decide_True, true_iff]
        exact Or.inr ⟨hxy.1.symm, hxy.2.symm⟩
      · rw [if_neg hxy]
        constructor
        · exact Or.inl
        · rintro (h | ⟨h1, h2⟩)
          · exact h
          · exact absurd ⟨h1.symm, h2.symm⟩ hxy
  · rw [if_neg hs, if_neg hs]
    have hx : 0xFFFFFFFF ^^^ 2 ^ p < 2 ^ 32 := Nat.xor_lt_two_pow (by decide) hi
    refine ⟨_, rfl, bv_grid_set_lt _ _ _ _ ht (Nat.or_lt_two_pow (ht _ _) hx), ?_⟩
    unfold bv_grid_set
    by_cases hxy : x = punit.x ∧ y = punit.y
    · rw [if_pos hxy, Nat.testBit_or, Nat.testBit_xor, all_bits_testBit,
        Nat.testBit_two_pow]
      obtain ⟨h1, h2⟩ := hxy
      subst h1 h2
      simp only [hk, decide_True, Bool.true_xor, Bool.or_eq_true, Bool.not_eq_true',
        decide_eq_false_iff_not, true_and]
    · rw [if_neg hxy]
      constructor
      · exact Or.inl
      · rintro (h | ⟨h1, h2, _⟩)
        · exact h
        · exact absurd ⟨h1.symm, h2.symm⟩ hxy

theorem assign_settlers_player_bits (e : GameEnv) (pl : player_lists)
    (hp : pl.pplayer.player_no < 32)
    (hgoto : ∀ punit ∈ pl.units, (e.unit_flag punit unit_flag_id.F_SETTLERS = true
        ∨ e.unit_flag punit unit_flag_id.F_CITIES = true) →
      punit.activity = unit_activity.ACTIVITY_GOTO → punit.goto_dest ≠ none)
    (x y : Int) (k : Nat) (hk : k < 32) (t : Int → Int → Nat)
    (ht : ∀ a b, t a b < 2 ^ 32) :
    ∃ t2, assign_settlers_player e pl t = some t2 ∧ (∀ a b, t2 a b < 2 ^ 32) ∧
      ((t2 x y).testBit k = true ↔ ((t x y).testBit k = true
        ∨ ∃ punit ∈ pl.units, assigns_bit e pl.pplayer.player_no punit x y k)) := by
  unfold assign_settlers_player
  rw [shift_player_no _ hp]
  exact bv_grid_foldlM_bits (fun t => ∀ a b, t a b < 2 ^ 32) _ _ x y k pl.units
    (fun punit hu t2 ht2 =>
      assign_settlers_unit_bits e _ hp t2 punit x y k hk ht2 (hgoto punit hu)) t ht

theorem assigns_bit_iff (e : GameEnv) (p : Nat) (punit : unit) (x y : Int) (k : Nat) :
    assigns_bit e p punit x y k ↔
      (((e.unit_flag punit unit_flag_id.F_SETTLERS = true
            ∨ e.unit_flag punit unit_flag_id.F_CITIES = true)
          ∧ punit.activity ≠ unit_activity.ACTIVITY_GOTO ∧ punit.x = x ∧ punit.y = y)
        ∨ ((e.unit_flag punit unit_flag_id.F_SETTLERS = true
            ∨ e.unit_flag punit unit_flag_id.F_CITIES = true)
          ∧ punit.activity = unit_activity.ACTIVITY_GOTO
          ∧ punit.goto_dest = some (x, y) ∧ p = k)
        ∨ (¬ (e.unit_flag punit unit_flag_id.F_SETTLERS = true
            ∨ e.unit_flag punit unit_flag_id.F_CITIES = true)
          ∧ punit.x = x ∧ punit.y = y ∧ p ≠ k)) := by
  unfold assigns_bit
  by_cases hs : e.unit_flag punit unit_flag_id.F_SETTLERS = true
      ∨ e.unit_flag punit unit_flag_id.F_CITIES = true
  · rw [if_pos hs]
    by_cases hg : punit.activity = unit_activity.ACTIVITY_GOTO
    · rw [if_pos hg]
      constructor
      · intro h
        exact Or.inr (Or.inl ⟨hs, hg, h⟩)
      · rintro (⟨_, h, _⟩ | ⟨_, _, h⟩ | ⟨h, _⟩)
        · exact absurd hg h
        · exact h
        · exact absurd hs h
    · rw [if_neg hg]
      constructor
      · intro h
        exact Or.inl ⟨hs, hg, h⟩
      · rintro (⟨_, _, h⟩ | ⟨_, h, _⟩ | ⟨h, _⟩)
        · exact h
        · exact absurd h hg
        · exact absurd hs h
  · rw [if_neg hs]
    constructor
    · intro h
      exact Or.inr (Or.inr ⟨hs, h⟩)
    · rintro (⟨h, _⟩ | ⟨h, _⟩ | ⟨_, h⟩)
      · exact absurd h hs
      · exact absurd h hs
      · exact h

/-- C29.  When every player number is below 32 and every settler in `ACTIVITY_GOTO` has
its goto destination set, `assign_settlers` returns, and the assigned bits of a tile
are, among the 32 bits of the field: bit `k` is set exactly when some unit of some
player `p` is a settler (or city founder) not in `ACTIVITY_GOTO` standing on the tile,
or a settler in `ACTIVITY_GOTO` with the tile as goto destination and `p = k`, or another
unit standing on the tile and `p ≠ k`.  So the field is `0xFFFFFFFF` when a settler not
in `ACTIVITY_GOTO` stands on the tile, and `0` when no unit adds a bit. -/
theorem assign_settlers_bits (e : GameEnv) (players : List player_lists)
    (hno : ∀ pl ∈ players, pl.pplayer.player_no < 32)
    (hgoto : ∀ pl ∈ players, ∀ punit ∈ pl.units,
      (e.unit_flag punit unit_flag_id.F_SETTLERS = true
        ∨ e.unit_flag punit unit_flag_id.F_CITIES = true) →
      punit.activity = unit_activity.ACTIVITY_GOTO → punit.goto_dest ≠ none) :
    ∃ assigned, assign_settlers e players = some assigned ∧ ∀ x y,
      assigned x y < 2 ^ 32 ∧
      (∀ k, k < 32 → ((assigned x y).testBit k = true ↔
        ∃ pl ∈ players, ∃ punit ∈ pl.units,
          ((e.unit_flag punit unit_flag_id.F_SETTLERS = true
              ∨ e.unit_flag punit unit_flag_id.F_CITIES = true)
            ∧ punit.activity ≠ unit_activity.ACTIVITY_GOTO ∧ punit.x = x ∧ punit.y = y)
          ∨ ((e.unit_flag punit unit_flag_id.F_SETTLERS = true
              ∨ e.unit_flag punit unit_flag_id.F_CITIES = true)
            ∧ punit.activity = unit_activity.ACTIVITY_GOTO
            ∧ punit.goto_dest = some (x, y) ∧ pl.pplayer.player_no = k)
          ∨ (¬ (e.unit_flag punit unit_flag_id.F_SETTLERS = true
              ∨ e.unit_flag punit unit_flag_id.F_CITIES = true)
            ∧ punit.x = x ∧ punit.y = y ∧ pl.pplayer.player_no ≠ k))) ∧
      ((∃ pl ∈ players, ∃ punit ∈ pl.units,
          (e.unit_flag punit unit_flag_id.F_SETTLERS = true
            ∨ e.unit_flag punit unit_flag_id.F_CITIES = true)
          ∧ punit.activity ≠ unit_activity.ACTIVITY_GOTO ∧ punit.x = x ∧ punit.y = y) →
        assigned x y = 0xFFFFFFFF) ∧
      ((∀ pl ∈ players, ∀ punit ∈ pl.units,
          ¬ (punit.x = x ∧ punit.y = y
            ∧ ¬ ((e.unit_flag punit unit_flag_id.F_SETTLERS = true
                ∨ e.unit_flag punit unit_flag_id.F_CITIES = true)
              ∧ punit.activity = unit_activity.ACTIVITY_GOTO))
          ∧ ¬ ((e.unit_flag punit unit_flag_id.F_SETTLERS = true
                ∨ e.unit_flag punit unit_flag_id.F_CITIES = true)
            ∧ punit.activity = unit_activity.ACTIVITY_GOTO
            ∧ punit.goto_dest = some (x, y))) →
        assigned x y = 0) := by
  have hstep : ∀ pl ∈ players, ∀ t : Int → Int → Nat, (∀ a b, t a b < 2 ^ 32) →
      ∃ t2, assign_settlers_player e pl t = some t2 ∧ (∀ a b, t2 a b < 2 ^ 32) := by
    intro pl hpl t ht
    obtain ⟨t2, h1, h2, _⟩ := assign_settlers_player_bits e pl (hno pl hpl)
      (hgoto pl hpl) 0 0 0 (by decide) t ht
    exact ⟨t2, h1, h2⟩
  have h0 : ∀ a b : Int, (fun (_ _ : Int) => (0 : Nat)) a b < 2 ^ 32 :=
    fun _ _ => Nat.two_pow_pos 32
  obtain ⟨assigned, hres, hlt⟩ := foldlM_option_total (fun t => ∀ a b, t a b < 2 ^ 32)
    (fun a pl => assign_settlers_player e pl a) players hstep (fun _ _ => 0) h0
  have hbits : ∀ x y k, k < 32 → ((assigned x y).testBit k = true ↔
      ∃ pl ∈ players, ∃ punit ∈ pl.units,
        assigns_bit e pl.pplayer.player_no punit x y k) := by
    intro x y k hk
    obtain ⟨t2, h1, _, h3⟩ := bv_grid_foldlM_bits (fun t => ∀ a b, t a b < 2 ^ 32)
      (fun a pl => assign_settlers_player e pl a)
      (fun pl => ∃ punit ∈ pl.units, assigns_bit e pl.pplayer.player_no punit x y k)
      x y k players
      (fun pl hpl t ht => assign_settlers_player_bits e pl (hno pl hpl) (hgoto pl hpl)
        x y k hk t ht)
      (fun _ _ => 0) h0
    have heq : assigned = t2 := by
      have h := hres.symm.trans h1
      exact Option.some.inj h
    rw [heq, h3]
    simp only [Nat.zero_testBit, Bool.false_eq_true, false_or]
  have hhigh : ∀ x y k, 32 ≤ k → (assigned x y).testBit k = false := by
    intro x y k hk
    exact Nat.testBit_eq_false_of_lt
      (lt_of_lt_of_le (hlt x y) (Nat.pow_le_pow_right (by decide) hk))
  refine ⟨assigned, hres, fun x y => ⟨hlt x y, ?_, ?_, ?_⟩⟩
  · intro k hk
    rw [hbits x y k hk]
    constructor
    · rintro ⟨pl, hpl, u, hu, h⟩
      exact ⟨pl, hpl, u, hu, (assigns_bit_iff e _ u x y k).mp h⟩
    · rintro ⟨pl, hpl, u, hu, h⟩
      exact ⟨pl, hpl, u, hu, (assigns_bit_iff e _ u x y k).mpr h⟩
  · rintro ⟨pl, hpl, u, hu, h⟩
    apply Nat.eq_of_testBit_eq
    intro k
    rw [all_bits_testBit]
    by_cases hk : k < 32
    · simp only [hk, decide_True]
      exact (hbits x y k hk).mpr ⟨pl, hpl, u, hu,
        (assigns_bit_iff e _ u x y k).mpr (Or.inl h)⟩
    · simp only [hk, decide_False]
      exact hhigh x y k (by omega)
  · intro hnone
    apply Nat.eq_of_testBit_eq
    intro k
    rw [Nat.zero_testBit]
    by_cases hk : k < 32
    · cases hb : (assigned x y).testBit k
      · rfl
      · exfalso
        obtain ⟨pl, hpl, u, hu, h⟩ := (hbits x y k hk).mp hb
        obtain ⟨hn1, hn2⟩ := hnone pl hpl u hu
        rcases (assigns_bit_iff e _ u x y k).mp h with ⟨_, hg, hx, hy⟩ | ⟨hs, hg, hd, _⟩
            | ⟨hs, hx, hy, _⟩
        · exact hn1 ⟨hx, hy, fun h2 => hg h2.2⟩
        · exact hn2 ⟨hs, hg, hd⟩
        · exact hn1 ⟨hx, hy, fun h2 => hs h2.1⟩
    · exact hhigh x y k (by omega)

theorem assign_settlers_bits_witness :
    ∃ assigned, assign_settlers allied_game_env two_players = some assigned
      ∧ assigned 2 2 = 0xFFFFFFFF :=
  (assign_settlers_bits allied_game_env two_players
    (by
      intro pl hpl
      simp only [two_players, List.mem_cons, List.mem_singleton, List.not_mem_nil,
        or_false] at hpl
      rcases hpl with rfl | rfl <;> decide)
    (by
      intro pl hpl punit hu _ hg
      simp only [two_players, List.mem_cons, List.mem_singleton, List.not_mem_nil,
        or_false] at hpl
      rcases hpl with rfl | rfl
      · simp only [List.mem_singleton] at hu
        subst hu
        exact absurd hg (by decide)
      · simp only [List.mem_singleton] at hu
        subst hu
        exact absurd hg (by decide))).imp
    (fun assigned h => ⟨h.1, (h.2 2 2).2.2.1
      ⟨_, List.mem_cons_self _ _, sample_settler, List.mem_cons_self _ _,
        by decide, by decide, rfl, rfl⟩⟩)

/-! ## Finding work for a settler -/

/-- C30 (failing run).  The first settler of a player is on a mission to found a city on
the tile it stands on; a city can be built there, but the founding fails
(`ai_do_build_city` returns `FALSE`).  The role is reset, the search for work picks the
same site again (want `100` against `0` for improvements) and the mission is set anew,
so the pass ends in the call of itself, in the state it started from: every further
pass does the same, the calls nest without bound and no call returns. -/
theorem auto_settler_findwork_recurses :
    (ai_do_build_city stuck_env ai_player stuck_world).1 = false ∧
    auto_settler_findwork_body stuck_env ai_player stuck_world
      = findwork_outcome.recurse stuck_world ∧
    ∀ fuel, auto_settler_findwork stuck_env ai_player fuel stuck_world = none := by
  have hbody : auto_settler_findwork_body stuck_env ai_player stuck_world
      = findwork_outcome.recurse stuck_world := by
    rfl
  refine ⟨rfl, hbody, fun fuel => ?_⟩
  induction fuel with
  | zero => rfl
  | succ n ih =>
    unfold auto_settler_findwork
    rw [hbody]
    exact ih

/-- When the founding succeeds, the same call returns at once, without a call of
itself. -/
theorem auto_settler_findwork_founds :
    (ai_do_build_city founding_env ai_player stuck_world).1 = true ∧
    (auto_settler_findwork founding_env ai_player 1 stuck_world).isSome = true :=
  ⟨rfl, rfl⟩

/-! ## The rules of `road_bonus` -/

theorem road_bonus_eq (e : GameEnv) (m : civ_map) (st : settlers_state) (map_x map_y : Int)
    (special : Nat) :
    road_bonus e m st map_x map_y special =
      match e.normalize_map_pos map_x map_y with
      | none => 0
      | some pos =>
        road_bonus_rules
          (fun i => (road_bonus_neighbour e m st (e.IS_BORDER_MAP_POS map_x map_y 2)
            pos special i).1)
          (fun i => (road_bonus_neighbour e m st (e.IS_BORDER_MAP_POS map_x map_y 2)
            pos special i).2) := by
  unfold road_bonus road_bonus_neighbour
  rfl

theorem road_bonus_rules_split (has_road is_slow : Nat → Bool) :
    road_bonus_rules has_road is_slow
      = road_bonus_diagonal has_road is_slow + road_bonus_orthogonal has_road is_slow := by
  unfold road_bonus_rules road_bonus_diagonal road_bonus_orthogonal
  omega

theorem road_bonus_rules_bounds (has_road is_slow : Nat → Bool) :
    0 ≤ road_bonus_rules has_road is_slow ∧ road_bonus_rules has_road is_slow ≤ 4 := by
  unfold road_bonus_rules
  generalize has_road 0 = h0
  generalize has_road 1 = h1
  generalize has_road 2 = h2
  generalize has_road 3 = h3
  generalize has_road 4 = h4
  generalize has_road 5 = h5
  generalize has_road 6 = h6
  generalize has_road 7 = h7
  cases h1 <;> cases h3 <;> cases h4 <;> cases h6 <;>
    simp only [Bool.not_true, Bool.not_false, Bool.and_false, Bool.false_and, Bool.and_true,
      Bool.true_and, Bool.false_eq_true, if_false] <;>
    constructor <;> omega

/-- C36.  The four orthogonal rules of `road_bonus` fire as often on the pattern of the
adjacent neighbours turned by 90 degrees as on the pattern itself, for every `has_road`
and `is_slow`. -/
theorem road_bonus_orthogonal_rotate (has_road is_slow : Nat → Bool) :
    road_bonus_orthogonal (rotate_neighbours has_road) (rotate_neighbours is_slow)
      = road_bonus_orthogonal has_road is_slow := by
  unfold road_bonus_orthogonal rotate_neighbours
  dsimp only
  generalize has_road 1 = h1
  generalize has_road 3 = h3
  generalize has_road 4 = h4
  generalize has_road 6 = h6
  generalize is_slow 0 = s0
  generalize is_slow 1 = s1
  generalize is_slow 2 = s2
  generalize is_slow 3 = s3
  generalize is_slow 4 = s4
  generalize is_slow 5 = s5
  generalize is_slow 6 = s6
  generalize is_slow 7 = s7
  cases h1 <;> cases h3 <;> cases h4 <;> cases h6 <;>
    simp only [Bool.not_true, Bool.not_false, Bool.and_false, Bool.false_and, Bool.and_true,
      Bool.true_and, Bool.false_eq_true, if_false, Bool.or_comm, Bool.or_left_comm,
      Bool.or_assoc] <;>
    omega

/-- C37.  For every `has_road` and `is_slow` the eight rules of `road_bonus` give a
value from `0` to `4`, and so does `road_bonus`; the value `4` is reached when the four
diagonal neighbours have the feature and no other neighbour has it. -/
theorem road_bonus_bounds (e : GameEnv) (m : civ_map) (st : settlers_state)
    (map_x map_y : Int) (special : Nat) :
    (0 ≤ road_bonus e m st map_x map_y special ∧ road_bonus e m st map_x map_y special ≤ 4) ∧
    (∀ has_road is_slow : Nat → Bool,
      0 ≤ road_bonus_rules has_road is_slow ∧ road_bonus_rules has_road is_slow ≤ 4) ∧
    road_bonus_rules (fun i => decide (i = 0 ∨ i = 2 ∨ i = 5 ∨ i = 7)) (fun _ => false) = 4 := by
  refine ⟨?_, road_bonus_rules_bounds, by decide⟩
  rw [road_bonus_eq]
  cases e.normalize_map_pos map_x map_y with
  | none => exact ⟨le_refl 0, show (0 : Int) ≤ 4 by decide⟩
  | some pos => exact road_bonus_rules_bounds _ _

theorem road_bonus_tile_no_road (e : GameEnv) (m : civ_map) (st : settlers_state)
    (x1 y1 : Int) (special : Nat) :
    (road_bonus_tile e m st x1 y1 special).1 = false ↔
      (tile_has_special (map_get_tile m x1 y1) special = false ∧
        ∀ punit ∈ st.units x1 y1, punit.activity ≠ unit_activity.ACTIVITY_ROAD
          ∧ punit.activity ≠ unit_activity.ACTIVITY_RAILROAD) := by
  unfold road_bonus_tile
  dsimp only
  cases hs : tile_has_special (map_get_tile m x1 y1) special
  · simp only [Bool.not_false, if_true, true_and]
    rw [Bool.eq_false_iff, Ne, List.any_eq_true]
    constructor
    · intro h punit hp
      by_contra hc
      apply h
      refine ⟨punit, hp, ?_⟩
      rw [decide_eq_true_eq]
      by_contra hn
      exact hc ⟨fun h1 => hn (Or.inl h1), fun h2 => hn (Or.inr h2)⟩
    · rintro h ⟨punit, hp, hd⟩
      rw [decide_eq_true_eq] at hd
      obtain ⟨h1, h2⟩ := h punit hp
      rcases hd with hd | hd
      · exact h1 hd
      · exact h2 hd
  · simp

/-- C35.  In `road_bonus`, a neighbour position that is off the map gives
`has_road = false` and `is_slow = false` (`IS_BORDER_MAP_POS` telling of every position
within two tiles of the border), and when no neighbour has the feature, nor a unit
building road or railroad on it, the value is `0`. -/
theorem road_bonus_off_map (e : GameEnv) (m : civ_map) (st : settlers_state)
    (map_x map_y : Int) (special : Nat) (pos : Int × Int)
    (hpos : e.normalize_map_pos map_x map_y = some pos)
    (hborder : e.IS_BORDER_MAP_POS map_x map_y 2 = false → ∀ i, i < 12 →
      e.normalize_map_pos (pos.1 + road_bonus_dx.getD i 0) (pos.2 + road_bonus_dy.getD i 0)
        ≠ none) :
    (∀ i, i < 12 →
      e.normalize_map_pos (pos.1 + road_bonus_dx.getD i 0) (pos.2 + road_bonus_dy.getD i 0)
        = none →
      road_bonus_neighbour e m st (e.IS_BORDER_MAP_POS map_x map_y 2) pos special i
        = (false, false)) ∧
    ((∀ i, i < 12 →
        (road_bonus_neighbour e m st (e.IS_BORDER_MAP_POS map_x map_y 2) pos special i).1
          = false) →
      road_bonus e m st map_x map_y special = 0) ∧
    (∀ x1 y1, (road_bonus_tile e m st x1 y1 special).1 = false ↔
      (tile_has_special (map_get_tile m x1 y1) special = false ∧
        ∀ punit ∈ st.units x1 y1, punit.activity ≠ unit_activity.ACTIVITY_ROAD
          ∧ punit.activity ≠ unit_activity.ACTIVITY_RAILROAD)) := by
  refine ⟨?_, ?_, fun x1 y1 => road_bonus_tile_no_road e m st x1 y1 special⟩
  · intro i hi hoff
    cases hb : e.IS_BORDER_MAP_POS map_x map_y 2
    · exact absurd hoff (hborder hb i hi)
    · unfold road_bonus_neighbour
      simp only [if_true, hoff]
  · intro h
    rw [road_bonus_eq, hpos]
    unfold road_bonus_rules
    simp only [h 0 (by decide), h 1 (by decide), h 2 (by decide), h 3 (by decide),
      h 4 (by decide), h 5 (by decide), h 6 (by decide), h 7 (by decide),
      Bool.false_and, Bool.false_eq_true, if_false, add_zero]

theorem road_bonus_off_map_witness :
    road_bonus_neighbour barren_game_env river_map sample_state
        (barren_game_env.IS_BORDER_MAP_POS 1 1 2) (1, 1) S_ROAD 8 = (false, false) :=
  (road_bonus_off_map barren_game_env river_map sample_state 1 1 S_ROAD (1, 1) (by decide)
    (fun h => absurd h (by decide))).1 8 (by decide) (by decide)

/-! ### The order of the players and units -/

theorem assign_settlers_result (e : GameEnv) (players : List player_lists)
    (hno : ∀ pl ∈ players, pl.pplayer.player_no < 32)
    (hgoto : ∀ pl ∈ players, ∀ punit ∈ pl.units,
      (e.unit_flag punit unit_flag_id.F_SETTLERS = true
        ∨ e.unit_flag punit unit_flag_id.F_CITIES = true) →
      punit.activity = unit_activity.ACTIVITY_GOTO → punit.goto_dest ≠ none) :
    ∃ assigned, assign_settlers e players = some assigned ∧
      (∀ x y, assigned x y < 2 ^ 32) ∧
      ∀ x y k, k < 32 → ((assigned x y).testBit k = true ↔
        ∃ pl ∈ players, ∃ punit ∈ pl.units,
          assigns_bit e pl.pplayer.player_no punit x y k) := by
  have hstep : ∀ pl ∈ players, ∀ t : Int → Int → Nat, (∀ a b, t a b < 2 ^ 32) →
      ∃ t2, assign_settlers_player e pl t = some t2 ∧ (∀ a b, t2 a b < 2 ^ 32) := by
    intro pl hpl t ht
    obtain ⟨t2, h1, h2, _⟩ := assign_settlers_player_bits e pl (hno pl hpl)
      (hgoto pl hpl) 0 0 0 (by decide) t ht
    exact ⟨t2, h1, h2⟩
  have h0 : ∀ a b : Int, (fun (_ _ : Int) => (0 : Nat)) a b < 2 ^ 32 :=
    fun _ _ => Nat.two_pow_pos 32
  obtain ⟨assigned, hres, hlt⟩ := foldlM_option_total (fun t => ∀ a b, t a b < 2 ^ 32)
    (fun a pl => assign_settlers_player e pl a) players hstep (fun _ _ => 0) h0
  refine ⟨assigned, hres, hlt, ?_⟩
  intro x y k hk
  obtain ⟨t2, h1, _, h3⟩ := bv_grid_foldlM_bits (fun t => ∀ a b, t a b < 2 ^ 32)
    (fun a pl => assign_settlers_player e pl a)
    (fun pl => ∃ punit ∈ pl.units, assigns_bit e pl.pplayer.player_no punit x y k)
    x y k players
    (fun pl hpl t ht => assign_settlers_player_bits e pl (hno pl hpl) (hgoto pl hpl)
      x y k hk t ht)
    (fun _ _ => 0) h0
  have heq : assigned = t2 := Option.some.inj (hres.symm.trans h1)
  rw [heq, h3]
  simp only [Nat.zero_testBit, Bool.false_eq_true, false_or]

/-- Two lists of players whose units are the same, player number by player number,
get the same assigned bits. -/
theorem assign_settlers_congr (e : GameEnv) (players players2 : List player_lists)
    (hno : ∀ pl ∈ players, pl.pplayer.player_no < 32)
    (hgoto : ∀ pl ∈ players, ∀ punit ∈ pl.units,
      (e.unit_flag punit unit_flag_id.F_SETTLERS = true
        ∨ e.unit_flag punit unit_flag_id.F_CITIES = true) →
      punit.activity = unit_activity.ACTIVITY_GOTO → punit.goto_dest ≠ none)
    (hno2 : ∀ pl ∈ players2, pl.pplayer.player_no < 32)
    (hgoto2 : ∀ pl ∈ players2, ∀ punit ∈ pl.units,
      (e.unit_flag punit unit_flag_id.F_SETTLERS = true
        ∨ e.unit_flag punit unit_flag_id.F_CITIES = true) →
      punit.activity = unit_activity.ACTIVITY_GOTO → punit.goto_dest ≠ none)
    (hsame : ∀ (p : Nat) (punit : unit),
      (∃ pl ∈ players, pl.pplayer.player_no = p ∧ punit ∈ pl.units) ↔
        (∃ pl ∈ players2, pl.pplayer.player_no = p ∧ punit ∈ pl.units)) :
    assign_settlers e players2 = assign_settlers e players := by
  obtain ⟨a1, h1, hlt1, hb1⟩ := assign_settlers_result e players hno hgoto
  obtain ⟨a2, h2, hlt2, hb2⟩ := assign_settlers_result e players2 hno2 hgoto2
  rw [h1, h2]
  congr 1
  funext x y
  apply Nat.eq_of_testBit_eq
  intro k
  by_cases hk : k < 32
  · rw [Bool.eq_iff_iff, hb1 x y k hk, hb2 x y k hk]
    constructor
    · rintro ⟨pl, hpl, u, hu, h⟩
      obtain ⟨pl1, hpl1, hp1, hu1⟩ := (hsame pl.pplayer.player_no u).mpr ⟨pl, hpl, rfl, hu⟩
      exact ⟨pl1, hpl1, u, hu1, by rw [hp1]; exact h⟩
    · rintro ⟨pl, hpl, u, hu, h⟩
      obtain ⟨pl2, hpl2, hp2, hu2⟩ := (hsame pl.pplayer.player_no u).mp ⟨pl, hpl, rfl, hu⟩
      exact ⟨pl2, hpl2, u, hu2, by rw [hp2]; exact h⟩
  · have hk2 : 32 ≤ k := by omega
    rw [Nat.testBit_eq_false_of_lt
        (lt_of_lt_of_le (hlt1 x y) (Nat.pow_le_pow_right (by decide) hk2)),
      Nat.testBit_eq_false_of_lt
        (lt_of_lt_of_le (hlt2 x y) (Nat.pow_le_pow_right (by decide) hk2))]

theorem forall2_mem {α : Type} (R : α → α → Prop) (l1 l2 : List α)
    (h : List.Forall₂ R l1 l2) :
    (∀ a ∈ l1, ∃ b ∈ l2, R a b) ∧ (∀ b ∈ l2, ∃ a ∈ l1, R a b) := by
  induction h with
  | nil =>
    exact ⟨fun a ha => absurd ha (List.not_mem_nil a), fun b hb => absurd hb (List.not_mem_nil b)⟩
  | @cons a b l1 l2 hab _ ih =>
    constructor
    · intro a2 ha2
      rcases List.mem_cons.mp ha2 with rfl | ha2
      · exact ⟨b, List.mem_cons_self b l2, hab⟩
      · obtain ⟨b2, hb2, h2⟩ := ih.1 a2 ha2
        exact ⟨b2, List.mem_cons_of_mem b hb2, h2⟩
    · intro b2 hb2
      rcases List.mem_cons.mp hb2 with rfl | hb2
      · exact ⟨a, List.mem_cons_self a l1, hab⟩
      · obtain ⟨a2, ha2, h2⟩ := ih.2 b2 hb2
        exact ⟨a2, List.mem_cons_of_mem a ha2, h2⟩

/-- C38.  When every player number is below 32 and every settler in `ACTIVITY_GOTO` has
its goto destination set, the assigned bits that `assign_settlers` leaves do not depend
on the order of the players, nor on the order of the units of each player: a list of
players that is a permutation of `players`, or that has the players of `players` in the
same order with their units permuted, gives the same grid. -/
theorem assign_settlers_order (e : GameEnv) (players players2 : List player_lists)
    (hno : ∀ pl ∈ players, pl.pplayer.player_no < 32)
    (hgoto : ∀ pl ∈ players, ∀ punit ∈ pl.units,
      (e.unit_flag punit unit_flag_id.F_SETTLERS = true
        ∨ e.unit_flag punit unit_flag_id.F_CITIES = true) →
      punit.activity = unit_activity.ACTIVITY_GOTO → punit.goto_dest ≠ none) :
    (players.Perm players2 → assign_settlers e players2 = assign_settlers e players) ∧
    (List.Forall₂ (fun a b => a.pplayer = b.pplayer ∧ a.units.Perm b.units)
        players players2 →
      assign_settlers e players2 = assign_settlers e players) := by
  constructor
  · intro hp
    exact assign_settlers_congr e players players2 hno hgoto
      (fun pl hpl => hno pl (hp.mem_iff.mpr hpl))
      (fun pl hpl => hgoto pl (hp.mem_iff.mpr hpl))
      (fun p u => ⟨fun ⟨pl, hpl, h⟩ => ⟨pl, hp.mem_iff.mp hpl, h⟩,
        fun ⟨pl, hpl, h⟩ => ⟨pl, hp.mem_iff.mpr hpl, h⟩⟩)
  · intro hf
    obtain ⟨hl, hr⟩ := forall2_mem _ players players2 hf
    refine assign_settlers_congr e players players2 hno hgoto ?_ ?_ ?_
    · intro pl hpl
      obtain ⟨a, ha, h1, _⟩ := hr pl hpl
      rw [← h1]
      exact hno a ha
    · intro pl hpl u hu
      obtain ⟨a, ha, _, h2⟩ := hr pl hpl
      exact hgoto a ha u (h2.mem_iff.mpr hu)
    · intro p u
      constructor
      · rintro ⟨pl, hpl, hp, hu⟩
        obtain ⟨b, hb, h1, h2⟩ := hl pl hpl
        exact ⟨b, hb, by rw [← h1]; exact hp, h2.mem_iff.mp hu⟩
      · rintro ⟨pl, hpl, hp, hu⟩
        obtain ⟨a, ha, h1, h2⟩ := hr pl hpl
        exact ⟨a, ha, by rw [h1]; exact hp, h2.mem_iff.mpr hu⟩

theorem assign_settlers_order_witness :
    assign_settlers allied_game_env two_players.reverse
      = assign_settlers allied_game_env two_players :=
  (assign_settlers_order allied_game_env two_players two_players.reverse
    (by
      intro pl hpl
      simp only [two_players, List.mem_cons, List.mem_singleton, List.not_mem_nil,
        or_false] at hpl
      rcases hpl with rfl | rfl <;> decide)
    (by
      intro pl hpl punit hu _ hg
      simp only [two_players, List.mem_cons, List.mem_singleton, List.not_mem_nil,
        or_false] at hpl
      rcases hpl with rfl | rfl
      · simp only [List.mem_singleton] at hu
        subst hu
        exact absurd hg (by decide)
      · simp only [List.mem_singleton] at hu
        subst hu
        exact absurd hg (by decide))).1
    (List.reverse_perm two_players).symm

/-! ## The want for a worker -/

theorem evaluate_improvements_nonneg (e : GameEnv) (m : civ_map) (st : settlers_state)
    (cities : List cached_city) (punit : unit) (best_act0 : unit_activity) (gx0 gy0 : Int)
    (r : Int × unit_activity × Int × Int)
    (h : evaluate_improvements e m st cities punit best_act0 gx0 gy0 = some r) :
    0 ≤ r.1 := by
  have h2 := h
  unfold evaluate_improvements at h2
  simp only [Option.bind_eq_bind, Option.bind_eq_some] at h2
  obtain ⟨food_cost, hfc, best, hbest, hres⟩ := h2
  by_cases hdiv : 40 + food_cost = 0
  · rw [if_pos hdiv] at hres
    exact absurd hres (by simp)
  · rw [evaluate_improvements_eq e m st cities punit best_act0 gx0 gy0 food_cost best hfc
      hbest hdiv] at h
    simp only [Option.some.injEq] at h
    subst h
    split <;> exact le_max_left 0 _

/-- C39.  When a worker type is available and `evaluate_improvements` returns `r` for
the virtual unit, `contemplate_terrain_improvements` stores
`r / max(1, workers / max(1, cities))` (for the continent of the city) as
`settler_want`; the assertion `want >= 0` holds, and the stored want is not above `r`. -/
theorem contemplate_terrain_improvements_want (e : ContemplateEnv) (m : civ_map)
    (st : settlers_state) (cities : List cached_city) (pcity : city) (settler_want : Int)
    (best_act0 : unit_activity) (gx0 gy0 : Int) (unit_type : Nat)
    (r : Int × unit_activity × Int × Int)
    (hu : e.best_role_unit pcity unit_flag_id.F_SETTLERS = some unit_type)
    (hr : evaluate_improvements e.toGameEnv m st cities
      { e.create_unit_virtual pcity.owner pcity unit_type with x := pcity.x, y := pcity.y }
      best_act0 gx0 gy0 = some r) :
    contemplate_terrain_improvements e m st cities pcity settler_want best_act0 gx0 gy0
      = some (Int.tdiv r.1
          (max 1 (Int.tdiv (e.stats_workers pcity.owner (e.map_get_continent pcity.x pcity.y))
            (max 1 (e.stats_cities pcity.owner (e.map_get_continent pcity.x pcity.y))))),
        true)
    ∧ 0 ≤ Int.tdiv r.1
        (max 1 (Int.tdiv (e.stats_workers pcity.owner (e.map_get_continent pcity.x pcity.y))
          (max 1 (e.stats_cities pcity.owner (e.map_get_continent pcity.x pcity.y)))))
    ∧ Int.tdiv r.1
        (max 1 (Int.tdiv (e.stats_workers pcity.owner (e.map_get_continent pcity.x pcity.y))
          (max 1 (e.stats_cities pcity.owner (e.map_get_continent pcity.x pcity.y)))))
      ≤ r.1 := by
  have h0 := evaluate_improvements_nonneg _ _ _ _ _ _ _ _ r hr
  generalize hd : max 1 (Int.tdiv
    (e.stats_workers pcity.owner (e.map_get_continent pcity.x pcity.y))
    (max 1 (e.stats_cities pcity.owner (e.map_get_continent pcity.x pcity.y)))) = d
  have hd1 : 1 ≤ d := by
    rw [← hd]
    exact le_max_left 1 _
  have hq0 : 0 ≤ Int.tdiv r.1 d := Int.tdiv_nonneg h0 (by omega)
  have hq1 : Int.tdiv r.1 d ≤ r.1 := by
    rw [Int.tdiv_eq_ediv h0 (by omega)]
    exact Int.ediv_le_self d h0
  refine ⟨?_, hq0, hq1⟩
  unfold contemplate_terrain_improvements
  simp only [hu, hr, Option.map_some', hd]
  simp only [ge_iff_le, hq0, decide_True]

theorem contemplate_terrain_improvements_want_witness :
    contemplate_terrain_improvements sample_contemplate_env sample_map sample_state
        sample_cities sample_cached_city.pcity 0 unit_activity.ACTIVITY_IDLE 7 7
      = some (Int.tdiv 206 (max 1 (Int.tdiv 5 (max 1 2))), true)
    ∧ 0 ≤ Int.tdiv 206 (max 1 (Int.tdiv 5 (max 1 2)))
    ∧ Int.tdiv 206 (max 1 (Int.tdiv 5 (max 1 2))) ≤ 206 :=
  contemplate_terrain_improvements_want sample_contemplate_env sample_map sample_state
    sample_cities sample_cached_city.pcity 0 unit_activity.ACTIVITY_IDLE 7 7 1
    (206, unit_activity.ACTIVITY_POLLUTION, 0, 0) (by decide) (by decide)

/-! ## The passes of `auto_settler_findwork` -/

/-- C31.  When `auto_settler_findwork` is entered in role `AIUNIT_BUILD_CITY` and
`city_can_be_built_here` is false for the goto destination, the call returns the state
that `ai_unit_new_role(punit, AIUNIT_NONE, -1, -1)` leaves, without a call of itself;
no other collaborator has a part in the result, which is the same in every game that
has the same `city_can_be_built_here` and `ai_unit_new_role`. -/
theorem auto_settler_findwork_mission_failed {W : Type} (e : FindworkEnv W)
    (pplayer : player) (s : settler_world W) (x y : Int) (fuel : Nat)
    (hrole : s.ai_role = ai_unit_task.AIUNIT_BUILD_CITY)
    (hdest : s.punit.goto_dest = some (x, y))
    (hcan : e.city_can_be_built_here s x y = false) :
    auto_settler_findwork_body e pplayer s
      = findwork_outcome.returned (e.ai_unit_new_role s ai_unit_task.AIUNIT_NONE (-1) (-1))
    ∧ auto_settler_findwork e pplayer (fuel + 1) s
      = some (e.ai_unit_new_role s ai_unit_task.AIUNIT_NONE (-1) (-1))
    ∧ ∀ e2 : FindworkEnv W, e2.city_can_be_built_here = e.city_can_be_built_here →
        e2.ai_unit_new_role = e.ai_unit_new_role →
        auto_settler_findwork e2 pplayer (fuel + 1) s
          = auto_settler_findwork e pplayer (fuel + 1) s := by
  have hbody : ∀ e2 : FindworkEnv W, e2.city_can_be_built_here s x y = false →
      auto_settler_findwork_body e2 pplayer s
        = findwork_outcome.returned
          (e2.ai_unit_new_role s ai_unit_task.AIUNIT_NONE (-1) (-1)) := by
    intro e2 h2
    unfold auto_settler_findwork_body
    simp only [hrole, hdest, h2, if_true, Bool.not_false]
  have hcall : ∀ e2 : FindworkEnv W, e2.city_can_be_built_here s x y = false →
      auto_settler_findwork e2 pplayer (fuel + 1) s
        = some (e2.ai_unit_new_role s ai_unit_task.AIUNIT_NONE (-1) (-1)) := by
    intro e2 h2
    unfold auto_settler_findwork
    rw [hbody e2 h2]
  refine ⟨hbody e hcan, hcall e hcan, ?_⟩
  intro e2 h1 h2
  rw [hcall e hcan, hcall e2 (by rw [h1]; exact hcan), h2]

theorem auto_settler_findwork_mission_failed_witness :
    auto_settler_findwork blocked_env ai_player 1 stuck_world
      = some (blocked_env.ai_unit_new_role stuck_world ai_unit_task.AIUNIT_NONE (-1) (-1)) :=
  (auto_settler_findwork_mission_failed blocked_env ai_player stuck_world 2 2 0
    (by decide) (by decide) (by decide)).2.1

/-- C32.  For a unit that is not on a city mission, with `best_impr`, `best_act`, `gx`,
`gy` what `evaluate_improvements` gives (or `0` and `(-1, -1)` for a unit without
`F_SETTLERS`): if the unit has `F_CITIES` and the player is AI-controlled, the role is
set to `AIUNIT_BUILD_CITY` at the site of `find_best_city_placement` (with the other
tile reserved and the goto destination set) exactly when the want of the site is above
`best_impr`; else to `AIUNIT_AUTO_SETTLER` at `(gx, gy)` exactly when `best_impr > 0`;
else to `AIUNIT_NONE`, and the call returns.  For any other unit the role is set to
`AIUNIT_AUTO_SETTLER` at `(gx, gy)`.  Where the call does not return, it goes on with the
autosettler part. -/
theorem auto_settler_findwork_roles {W : Type} (e : FindworkEnv W) (pplayer : player)
    (s : settler_world W) (best_impr : Int) (best_act : unit_activity) (gx gy : Int)
    (hrole : s.ai_role ≠ ai_unit_task.AIUNIT_BUILD_CITY)
    (heval : (if e.unit_flag s.punit unit_flag_id.F_SETTLERS then
        evaluate_improvements e.toGameEnv s.m s.st s.cities s.punit
          unit_activity.ACTIVITY_IDLE (-1) (-1)
      else some (0, unit_activity.ACTIVITY_IDLE, -1, -1))
      = some (best_impr, best_act, gx, gy)) :
    (e.unit_flag s.punit unit_flag_id.F_CITIES = true ∧ pplayer.ai_control = true →
      ((e.find_best_city_placement s).1.result > best_impr →
        auto_settler_findwork_body e pplayer s =
          findwork_autosettler e pplayer
            (set_goto_dest
              (e.citymap_reserve_tile
                (e.ai_unit_new_role (e.find_best_city_placement s).2
                  ai_unit_task.AIUNIT_BUILD_CITY
                  (e.find_best_city_placement s).1.x (e.find_best_city_placement s).1.y)
                (e.find_best_city_placement s).1.other_x
                (e.find_best_city_placement s).1.other_y
                (e.ai_unit_new_role (e.find_best_city_placement s).2
                  ai_unit_task.AIUNIT_BUILD_CITY
                  (e.find_best_city_placement s).1.x
                  (e.find_best_city_placement s).1.y).punit.id)
              (e.find_best_city_placement s).1.x (e.find_best_city_placement s).1.y)
            best_act gx gy) ∧
      (¬ (e.find_best_city_placement s).1.result > best_impr → best_impr > 0 →
        auto_settler_findwork_body e pplayer s =
          findwork_autosettler e pplayer
            (e.ai_unit_new_role (e.find_best_city_placement s).2
              ai_unit_task.AIUNIT_AUTO_SETTLER gx gy) best_act gx gy) ∧
      (¬ (e.find_best_city_placement s).1.result > best_impr → ¬ best_impr > 0 →
        auto_settler_findwork_body e pplayer s =
          findwork_outcome.returned
            (e.ai_unit_new_role (e.find_best_city_placement s).2
              ai_unit_task.AIUNIT_NONE (-1) (-1)))) ∧
    (¬ (e.unit_flag s.punit unit_flag_id.F_CITIES = true ∧ pplayer.ai_control = true) →
      auto_settler_findwork_body e pplayer s =
        findwork_autosettler e pplayer
          (e.ai_unit_new_role s ai_unit_task.AIUNIT_AUTO_SETTLER gx gy) best_act gx gy) := by
  have hbody : auto_settler_findwork_body e pplayer s = findwork_find_work e pplayer s := by
    unfold auto_settler_findwork_body
    rw [if_neg hrole]
  rw [hbody]
  unfold findwork_find_work
  rw [heval]
  dsimp only
  refine ⟨fun hc => ⟨fun h1 => ?_, fun h1 h2 => ?_, fun h1 h2 => ?_⟩, fun hc => ?_⟩
  · rw [if_pos hc, if_pos h1]
  · rw [if_pos hc, if_neg h1, if_pos h2]
  · rw [if_pos hc, if_neg h1, if_neg h2]
  · rw [if_neg hc]

theorem auto_settler_findwork_roles_witness :
    auto_settler_findwork_body stuck_env ai_player idle_world =
      findwork_autosettler stuck_env ai_player
        (set_goto_dest
          (stuck_env.citymap_reserve_tile
            (stuck_env.ai_unit_new_role (stuck_env.find_best_city_placement idle_world).2
              ai_unit_task.AIUNIT_BUILD_CITY
              (stuck_env.find_best_city_placement idle_world).1.x
              (stuck_env.find_best_city_placement idle_world).1.y)
            (stuck_env.find_best_city_placement idle_world).1.other_x
            (stuck_env.find_best_city_placement idle_world).1.other_y
            (stuck_env.ai_unit_new_role (stuck_env.find_best_city_placement idle_world).2
              ai_unit_task.AIUNIT_BUILD_CITY
              (stuck_env.find_best_city_placement idle_world).1.x
              (stuck_env.find_best_city_placement idle_world).1.y).punit.id)
          (stuck_env.find_best_city_placement idle_world).1.x
          (stuck_env.find_best_city_placement idle_world).1.y)
        unit_activity.ACTIVITY_IDLE (-1) (-1) :=
  ((auto_settler_findwork_roles stuck_env ai_player idle_world 0
    unit_activity.ACTIVITY_IDLE (-1) (-1) (by decide) (by decide)).1
      ⟨by decide, by decide⟩).1 (by decide)

/-- C33.  In the autosettler part of `auto_settler_findwork` (role
`AIUNIT_AUTO_SETTLER`): when `gx` or `gy` is `-1` the call returns with the state
untouched, so no assigned bit changes and nothing is asked of the unit.  Otherwise the
bit of the player is added to the assigned bits of `(gx, gy)`, all other bits and tiles
staying as they were, the goto destination is set and `do_unit_goto` is called on that
state; `best_act` is then requested exactly when the unit has not died, has moves left
and stands on `(gx, gy)`. -/
theorem findwork_autosettler_frame {W : Type} (e : FindworkEnv W) (pplayer : player)
    (s : settler_world W) (best_act : unit_activity) (gx gy : Int)
    (hrole : s.ai_role = ai_unit_task.AIUNIT_AUTO_SETTLER)
    (hno : pplayer.player_no < 32) :
    (gx = -1 ∨ gy = -1 →
      findwork_autosettler e pplayer s best_act gx gy = findwork_outcome.returned s) ∧
    (gx ≠ -1 ∧ gy ≠ -1 →
      ∃ s2 : settler_world W,
        s2.punit = { s.punit with goto_dest := some (gx, gy) } ∧
        s2.ai_role = s.ai_role ∧ s2.moves_left = s.moves_left ∧ s2.m = s.m ∧
        s2.cities = s.cities ∧ s2.rest = s.rest ∧
        s2.st.units = s.st.units ∧ s2.st.territory = s.st.territory ∧
        s2.st.enemies = s.st.enemies ∧
        (∀ k, (s2.st.assigned gx gy).testBit k
          = ((s.st.assigned gx gy).testBit k || decide (pplayer.player_no = k))) ∧
        (∀ x y, ¬ (x = gx ∧ y = gy) → s2.st.assigned x y = s.st.assigned x y) ∧
        ((e.do_unit_goto s2).1 = true →
          findwork_autosettler e pplayer s best_act gx gy
            = findwork_outcome.returned (e.do_unit_goto s2).2) ∧
        ((e.do_unit_goto s2).1 = false →
          ((e.do_unit_goto s2).2.moves_left > 0
              ∧ same_pos gx gy (e.do_unit_goto s2).2.punit.x (e.do_unit_goto s2).2.punit.y
                = true) →
          findwork_autosettler e pplayer s best_act gx gy
            = findwork_outcome.returned
              (e.handle_unit_activity_request (e.do_unit_goto s2).2 best_act)) ∧
        ((e.do_unit_goto s2).1 = false →
          ¬ ((e.do_unit_goto s2).2.moves_left > 0
              ∧ same_pos gx gy (e.do_unit_goto s2).2.punit.x (e.do_unit_goto s2).2.punit.y
                = true) →
          findwork_autosettler e pplayer s best_act gx gy
            = findwork_recursion (e.do_unit_goto s2).2)) := by
  constructor
  · intro h
    unfold findwork_autosettler
    rw [if_pos hrole, if_neg]
    intro hc
    rcases h with h | h
    · exact hc.1 h
    · exact hc.2 h
  · intro h
    refine ⟨set_goto_dest { s with
        st := { s.st with
          assigned := bv_grid_set s.st.assigned gx gy
            (s.st.assigned gx gy ||| (1 <<< pplayer.player_no) % 2 ^ 32) } } gx gy,
      rfl, rfl, rfl, rfl, rfl, rfl, rfl, rfl, rfl, ?_, ?_, ?_, ?_, ?_⟩
    · intro k
      show (bv_grid_set s.st.assigned gx gy
        (s.st.assigned gx gy ||| (1 <<< pplayer.player_no) % 2 ^ 32) gx gy).testBit k = _
      unfold bv_grid_set
      rw [if_pos ⟨rfl, rfl⟩, shift_player_no _ hno, Nat.testBit_or, Nat.testBit_two_pow]
    · intro x y hxy
      show bv_grid_set s.st.assigned gx gy
        (s.st.assigned gx gy ||| (1 <<< pplayer.player_no) % 2 ^ 32) x y = _
      unfold bv_grid_set
      rw [if_neg hxy]
    · intro hd
      unfold findwork_autosettler
      rw [if_pos hrole, if_pos h]
      dsimp only
      rw [if_pos hd]
    · intro hd hc
      unfold findwork_autosettler
      rw [if_pos hrole, if_pos h]
      dsimp only
      rw [if_neg (by rw [hd]; decide), if_pos hc]
    · intro hd hc
      unfold findwork_autosettler
      rw [if_pos hrole, if_pos h]
      dsimp only
      rw [if_neg (by rw [hd]; decide), if_neg hc]

theorem findwork_autosettler_frame_witness :
    findwork_autosettler stuck_env ai_player improving_world unit_activity.ACTIVITY_IDLE
      (-1) (-1) = findwork_outcome.returned improving_world :=
  (findwork_autosettler_frame stuck_env ai_player improving_world
    unit_activity.ACTIVITY_IDLE (-1) (-1) (by decide) (by decide)).1 (Or.inl rfl)

/-- C34.  For a unit of the player, with `s2` the state after a sentried unit, and
then a unit in `ACTIVITY_GOTO` with moves left, has been asked to go idle:
`auto_settlers_player` calls `auto_settler_findwork` on `s2` when the unit or the player
is AI-controlled, the unit has `F_SETTLERS` or `F_CITIES` and no orders, and its
activity in `s2` is `ACTIVITY_IDLE`; in every other case the unit is left without the
call.  The function runs this for each unit of `pplayer->units` in turn, after the cache
has been rebuilt and the warmth of the player set. -/
theorem auto_settlers_unit_dispatch {W : Type} (e : PlayerEnv W) (pplayer : player)
    (fuel : Nat) (s : settler_world W) (units : List Int) :
    let s1 := if s.punit.activity = unit_activity.ACTIVITY_SENTRY then
        e.handle_unit_activity_request s unit_activity.ACTIVITY_IDLE
      else s
    let s2 := if s1.punit.activity = unit_activity.ACTIVITY_GOTO ∧ s1.moves_left > 0 then
        e.handle_unit_activity_request s1 unit_activity.ACTIVITY_IDLE
      else s1
    let eligible := (e.unit_ai_control s = true ∨ pplayer.ai_control = true)
      ∧ (e.unit_flag s.punit unit_flag_id.F_SETTLERS = true
        ∨ e.unit_flag s.punit unit_flag_id.F_CITIES = true)
      ∧ e.unit_has_orders s = false
    (eligible ∧ s2.punit.activity = unit_activity.ACTIVITY_IDLE →
      auto_settlers_unit e pplayer fuel s
        = auto_settler_findwork e.toFindworkEnv pplayer fuel s2) ∧
    (eligible ∧ s2.punit.activity ≠ unit_activity.ACTIVITY_IDLE →
      auto_settlers_unit e pplayer fuel s = some s2) ∧
    (¬ eligible → auto_settlers_unit e pplayer fuel s = some s) ∧
    (auto_settlers_player e pplayer fuel units s =
      units.foldlM
        (fun s3 id =>
          auto_settlers_unit e
            { pplayer with
              warmth := e.WARMING_FACTOR * (if e.heating > e.warminglevel then 2 else 1) }
            fuel
            (e.select_unit s3 id
              { pplayer with
                warmth := e.WARMING_FACTOR * (if e.heating > e.warminglevel then 2 else 1) }))
        { (if pplayer.ai_control ∧ e.ai_handicap_experimental pplayer then
              e.citymap_turn_init s
            else s) with
          cities := (initialize_infrastructure_cache e.toGameEnv
            (if pplayer.ai_control ∧ e.ai_handicap_experimental pplayer then
                e.citymap_turn_init s
              else s).m pplayer
            (if pplayer.ai_control ∧ e.ai_handicap_experimental pplayer then
                e.citymap_turn_init s
              else s).cities).1
          m := (initialize_infrastructure_cache e.toGameEnv
            (if pplayer.ai_control ∧ e.ai_handicap_experimental pplayer then
                e.citymap_turn_init s
              else s).m pplayer
            (if pplayer.ai_control ∧ e.ai_handicap_experimental pplayer then
                e.citymap_turn_init s
              else s).cities).2.1 }) := by
  intro s1 s2 eligible
  have hcond : ((e.unit_ai_control s = true ∨ pplayer.ai_control = true)
      ∧ (e.unit_flag s.punit unit_flag_id.F_SETTLERS = true
        ∨ e.unit_flag s.punit unit_flag_id.F_CITIES = true)
      ∧ (!e.unit_has_orders s) = true) ↔ eligible := by
    show _ ↔ (_ ∧ _ ∧ _)
    rw [Bool.not_eq_true']
  refine ⟨fun h => ?_, fun h => ?_, fun h => ?_, rfl⟩
  · unfold auto_settlers_unit
    rw [if_pos (hcond.mpr h.1)]
    dsimp only
    rw [if_pos h.2]
  · unfold auto_settlers_unit
    rw [if_pos (hcond.mpr h.1)]
    dsimp only
    rw [if_neg h.2]
  · unfold auto_settlers_unit
    rw [if_neg (fun hc => h (hcond.mp hc))]

theorem auto_settlers_unit_dispatch_witness :
    auto_settlers_unit founding_player_env ai_player 1 sentried_world
      = auto_settler_findwork founding_env ai_player 1
          (founding_env.handle_unit_activity_request sentried_world
            unit_activity.ACTIVITY_IDLE) :=
  (auto_settlers_unit_dispatch founding_player_env ai_player 1 sentried_world []).1
    ⟨⟨Or.inr rfl, Or.inl rfl, rfl⟩, rfl⟩

end Settlers
